import Mathlib

/-! ISO-16 conformance runner: fixed-point arithmetic, state machine, canonical encoding.

A shallow embedding of

* `conformance/runner/utils/q16.hpp` (namespace `iso16`: `to_int32`, `add`, `sub`, `abs`, `leq`),
* `conformance/runner/reference_runner.cpp` (`q16_add`, `q16_sub`, `q16_abs`, `q16_leq`,
  `eval_plugins`, `apply_warp`, `check_symmetry`, `check_error`, `execute_iso16`,
  `phases_equal`, `compare_results`, `main`, and the length check of `parse_vector`),
* `conformance/runner/utils/seal.hpp` (`append_be32`, `append_bool`, `append_string`,
  `append_length_prefixed_string`, `append_be64`, `domain_code`, `canonical_serialize`,
  `canonical_serialize_and_hash`),
* `conformance/runner/utils/seal.cpp` (`rol`, `keccakf`, `sha3_256` and the three tables).

Conventions of the embedding.

* An `int32_t` (`q16`) is an `Int`; the predicate `IsInt32` says that it lies in
  `[-2^31, 2^31 - 1]`.  Every narrowing to 32 bits is written out as an explicit reduction
  modulo `2^32`.
* A `uint8_t` is a `Nat` below 256, a `uint64_t` a `Nat` below `2^64`.
* A `std::string` is the list of its bytes; `s.size()` is the length of that list.
* A `std::vector<T>` is a `List T`; `push_back` appends at the end.  A C array is a `List`
  too, read with `getD` and written with `set`.
* A function that can `throw` returns in `Except String`.
-/

/-- A `std::string`, as the sequence of its bytes. -/
abbrev CppString := List Nat

/-- The bytes of an ASCII string literal of the source. -/
def ascii (s : String) : CppString := s.data.map Char.toNat

/-- The values an `int32_t` can hold. -/
def IsInt32 (a : Int) : Prop := -2147483648 ≤ a ∧ a ≤ 2147483647

instance (a : Int) : Decidable (IsInt32 a) := by unfold IsInt32; infer_instance

/-- The values an `int64_t` can hold. -/
def IsInt64 (v : Int) : Prop := -9223372036854775808 ≤ v ∧ v ≤ 9223372036854775807

instance (v : Int) : Decidable (IsInt64 v) := by unfold IsInt64; infer_instance

/-- The conversion `static_cast<q16>(e)` of an integer expression to `int32_t`: the value in
`[-2^31, 2^31 - 1]` congruent to `e` modulo `2^32`.  In `reference_runner.cpp` the operand
(`a + b`, `a - b`, `-a`) is computed in `int`; the embedding takes the exact integer result and
narrows it here, that is, signed overflow is read as two's-complement wraparound. -/
def static_cast_q16 (v : Int) : Int := (v + 2147483648) % 4294967296 - 2147483648

/-! ## `q16.hpp` -/

namespace iso16

/-- The constant `INT32_MAX_ = 0x7FFFFFFF`. -/
def INT32_MAX_ : Int := 2147483647

/-- The constant `INT32_MIN_ = static_cast<int32_t>(0x80000000u)`. -/
def INT32_MIN_ : Int := -2147483648

/-- The function `to_int32(int64_t v)`: `wrapped = uint32_t(v & INT32_MASK)` is `v` modulo
`2^32` (non-negative); when bit 31 is set the result is `wrapped - 2^32`, else `wrapped`. -/
def to_int32 (v : Int) : Int :=
  let wrapped := v % 4294967296
  if 2147483648 ≤ wrapped then wrapped - 4294967296 else wrapped

/-- The function `add(a, b) = to_int32(int64_t(a) + int64_t(b))`. -/
def add (a b : Int) : Int := to_int32 (a + b)

/-- The function `sub(a, b) = to_int32(int64_t(a) - int64_t(b))`. -/
def sub (a b : Int) : Int := to_int32 (a - b)

/-- The function `abs(a)`: clamps `INT32_MIN_` to `INT32_MAX_`, else `(a < 0) ? q16(-a) : a`. -/
def abs (a : Int) : Int :=
  if a = INT32_MIN_ then INT32_MAX_
  else if a < 0 then static_cast_q16 (-a) else a

/-- The function `leq(a, b) = (a <= b)`. -/
def leq (a b : Int) : Bool := decide (a ≤ b)

end iso16

/-! ## `reference_runner.cpp` -/

/-- The constant `EPSILON = 1`. -/
def EPSILON : Int := 1

/-- The helper `q16_add(a, b) = static_cast<q16>(a + b)`. -/
def q16_add (a b : Int) : Int := static_cast_q16 (a + b)

/-- The helper `q16_sub(a, b) = static_cast<q16>(a - b)`. -/
def q16_sub (a b : Int) : Int := static_cast_q16 (a - b)

/-- The helper `q16_abs(a) = (a < 0) ? static_cast<q16>(-a) : a`; it has no case for the
minimum value. -/
def q16_abs (a : Int) : Int := if a < 0 then static_cast_q16 (-a) else a

/-- The helper `q16_leq(a, b) = (a <= b)`. -/
def q16_leq (a b : Int) : Bool := decide (a ≤ b)

/-- The struct `Phase`. -/
structure Phase where
  x : Int
  y : Int
  z : Int
deriving DecidableEq, Repr, Inhabited

/-- The struct `Plugin` of the runner. -/
structure Plugin where
  id : CppString
  domain : CppString
  warp_x : Int
  warp_y : Int
  warp_z : Int
  error : Int
  version : CppString
  status : CppString
deriving DecidableEq, Repr, Inhabited

/-- The struct `VectorInput`. -/
structure VectorInput where
  vector_id : CppString
  description : CppString
  initial_phase_state : List Phase
  plugins : List Plugin
deriving DecidableEq, Repr

/-- The struct `ActualOutput`. -/
structure ActualOutput where
  warp_total : List Int
  error_total : Int
  phase_state_warped : List Phase
  symmetry_ok : Bool
  error_ok : Bool
  true_delivery : Bool
deriving DecidableEq, Repr

/-- One iteration of the loop of `eval_plugins` on the locals
`(warp_total, error_total, plugin_status_ok)`. -/
def eval_plugins_step (st : List Int × Int × Bool) (p : Plugin) : List Int × Int × Bool :=
  let warp_total := st.1
  let warp_total := warp_total.set 0 (q16_add (warp_total.getD 0 0) p.warp_x)
  let warp_total := warp_total.set 1 (q16_add (warp_total.getD 1 0) p.warp_y)
  let warp_total := warp_total.set 2 (q16_add (warp_total.getD 2 0) p.warp_z)
  let error_total := q16_add st.2.1 p.error
  let plugin_status_ok := if p.status != ascii "OK" then false else st.2.2
  (warp_total, error_total, plugin_status_ok)

/-- The function `eval_plugins`: the loop over the plugins in the order supplied, started from
`warp_total = {0, 0, 0}`, `error_total = 0`, `plugin_status_ok = true`. -/
def eval_plugins (plugins : List Plugin) : List Int × Int × Bool :=
  plugins.foldl eval_plugins_step ([0, 0, 0], 0, true)

/-- The function `apply_warp`: one `push_back` per phase.  `warp[k]` is unchecked in the source;
the embedding reads 0 past the end, which no caller reaches (`eval_plugins` returns three
components). -/
def apply_warp (phases : List Phase) (warp : List Int) : List Phase :=
  phases.foldl
    (fun warped p =>
      warped ++ [{ x := q16_add p.x (warp.getD 0 0),
                   y := q16_add p.y (warp.getD 1 0),
                   z := q16_add p.z (warp.getD 2 0) }])
    []

/-- The body of the loop of `check_symmetry` at index `i`: `true` when the loop goes on, `false`
when it returns `false`. -/
def check_symmetry_pair (phases : List Phase) (i : Nat) : Bool :=
  let p1 := phases.getD i default
  let p2 := phases.getD (i + 1) default
  let dx := q16_abs (q16_sub p1.x p2.x)
  let dy := q16_abs (q16_sub p1.y p2.y)
  let dz := q16_abs (q16_sub p1.z p2.z)
  q16_leq dx EPSILON && q16_leq dy EPSILON && q16_leq dz EPSILON

/-- The function `check_symmetry`: `false` unless there are 16 phases; then the loop
`for i = 0 .. 14` returns `false` at the first failing pair and `true` after the last. -/
def check_symmetry (phases : List Phase) : Bool :=
  if phases.length != 16 then false
  else (List.range 15).all (fun i => check_symmetry_pair phases i)

/-- The function `check_error`. -/
def check_error (error_total : Int) : Bool := q16_leq error_total EPSILON

/-- The function `execute_iso16`. -/
def execute_iso16 (v : VectorInput) : ActualOutput :=
  let r := eval_plugins v.plugins
  let warp_total := r.1
  let error_total := r.2.1
  let plugin_status_ok := r.2.2
  let warped := apply_warp v.initial_phase_state warp_total
  let symmetry_ok := check_symmetry warped
  let error_ok := plugin_status_ok && check_error error_total
  let true_delivery := symmetry_ok && error_ok
  { warp_total := warp_total
    error_total := error_total
    phase_state_warped := warped
    symmetry_ok := symmetry_ok
    error_ok := error_ok
    true_delivery := true_delivery }

/-- The struct `ExpectedOutput`. -/
structure ExpectedOutput where
  vector_id : CppString
  warp_total : List Int
  error_total : Int
  phase_state_warped : List Phase
  symmetry_ok : Bool
  error_ok : Bool
  true_delivery : Bool
  tetra_seal : CppString
deriving DecidableEq, Repr

/-- The function `phases_equal`: `false` on different sizes, else the loop over the indices
returns `false` at the first entry that differs on some axis and `true` after the last. -/
def phases_equal (a b : List Phase) : Bool :=
  if a.length != b.length then false
  else (List.range a.length).all (fun i =>
    !((a.getD i default).x != (b.getD i default).x ||
      (a.getD i default).y != (b.getD i default).y ||
      (a.getD i default).z != (b.getD i default).z))

/-- The function `compare_results`; the vector `mismatches` passed by reference is returned.
`expected.warp_total[k]` is unchecked in the source (`parse_expected` builds three entries); the
embedding reads 0 past the end.  No statement of the function reads `expected.tetra_seal`. -/
def compare_results (actual : ActualOutput) (expected : ExpectedOutput)
    (mismatches : List CppString) : List CppString :=
  let mismatches :=
    if actual.warp_total.length != 3 ||
        actual.warp_total.getD 0 0 != expected.warp_total.getD 0 0 ||
        actual.warp_total.getD 1 0 != expected.warp_total.getD 1 0 ||
        actual.warp_total.getD 2 0 != expected.warp_total.getD 2 0 then
      mismatches ++ [ascii "warp_total"]
    else mismatches
  let mismatches :=
    if actual.error_total != expected.error_total then mismatches ++ [ascii "error_total"]
    else mismatches
  let mismatches :=
    if !phases_equal actual.phase_state_warped expected.phase_state_warped then
      mismatches ++ [ascii "phase_state_warped"]
    else mismatches
  let mismatches :=
    if actual.symmetry_ok != expected.symmetry_ok then mismatches ++ [ascii "symmetry_ok"]
    else mismatches
  let mismatches :=
    if actual.error_ok != expected.error_ok then mismatches ++ [ascii "error_ok"]
    else mismatches
  let mismatches :=
    if actual.true_delivery != expected.true_delivery then mismatches ++ [ascii "true_delivery"]
    else mismatches
  mismatches

/-- The function `main` (a Lean file cannot declare `main` at this type): its exit status as a function of `argc` and of the outcome of the `try` block up
to `parse_expected` (an exception, or the parsed vector and expected output).  Inside the `try`
block both branches of `if (!mismatches.empty())` only print, and control then reaches the
final `return 0`; the `catch` block returns 1. -/
def runner_main (argc : Int) (loaded : Except String (VectorInput × ExpectedOutput)) : Int :=
  if argc != 3 then 1
  else
    match loaded with
    | Except.error _ => 1
    | Except.ok (vec, exp) =>
      let act := execute_iso16 vec
      let mismatches := compare_results act exp []
      if !mismatches.isEmpty then 0 else 0

/-- The part of `parse_vector` that reads `initial_phase_state`, the JSON array being given as
a list of arrays of integers: it throws unless there are 16 entries, and unless every entry
has 3 components; otherwise it returns the phases in order. -/
def parse_initial_phase_state (phases : List (List Int)) : Except String (List Phase) :=
  if phases.length != 16 then
    Except.error "initial_phase_state must have 16 phases"
  else
    phases.foldlM
      (fun (acc : List Phase) (p : List Int) =>
        if p.length != 3 then
          Except.error "Each phase must be an array of 3 Q16.16 integers"
        else
          Except.ok (acc ++ [{ x := p.getD 0 0, y := p.getD 1 0, z := p.getD 2 0 }]))
      []

/-! ## `seal.hpp` -/

namespace iso16

/-- A `std::array<q16,3>`: the components `p[0]`, `p[1]`, `p[2]`. -/
abbrev Array3 := Int × Int × Int

/-- The helper `append_be32`: four `push_back`s of `(value >> s) & 0xFF` for `s = 24, 16, 8, 0`.
The right shift of the signed `value` is arithmetic, that is, the floor of `value / 2^s`. -/
def append_be32 (out : List Nat) (value : Int) : List Nat :=
  let out := out ++ [((value / 16777216) % 256).toNat]
  let out := out ++ [((value / 65536) % 256).toNat]
  let out := out ++ [((value / 256) % 256).toNat]
  let out := out ++ [((value / 1) % 256).toNat]
  out

/-- The helper `append_bool`. -/
def append_bool (out : List Nat) (b : Bool) : List Nat :=
  out ++ [if b then 1 else 0]

/-- The helper `append_string`: the bytes of `s`, no terminator. -/
def append_string (out : List Nat) (s : CppString) : List Nat :=
  out ++ s

/-- The helper `append_length_prefixed_string`: throws when `s.size() > 255`, else appends
`static_cast<uint8_t>(s.size())` and the bytes of `s`. -/
def append_length_prefixed_string (out : List Nat) (s : CppString) : Except String (List Nat) :=
  if s.length > 255 then
    Except.error "String too long for canonical encoding"
  else
    let out := out ++ [s.length % 256]
    Except.ok (out ++ s)

/-- The helper `append_be64`: the loop `for i = 7 downto 0` pushing `(v >> (8 * i)) & 0xFF`. -/
def append_be64 (out : List Nat) (v : Nat) : List Nat :=
  [7, 6, 5, 4, 3, 2, 1, 0].foldl (fun out i => out ++ [(v / 2 ^ (8 * i)) % 256]) out

/-- The struct `iso16::Plugin` of `seal.hpp` (it has no status field). -/
structure Plugin where
  id : CppString
  domain : CppString
  warp_x : Int
  warp_y : Int
  warp_z : Int
  error : Int
  version : CppString
deriving DecidableEq, Repr, Inhabited

/-- The function `domain_code`. -/
def domain_code (d : CppString) : Nat :=
  if d = ascii "Refraction" then 1
  else if d = ascii "FrameDrag" then 2
  else if d = ascii "Jitter" then 3
  else 255

/-- The three `append_be32` calls made for one phase entry. -/
def append_phase (out : List Nat) (p : Array3) : List Nat :=
  let out := append_be32 out p.1
  let out := append_be32 out p.2.1
  let out := append_be32 out p.2.2
  out

/-- The body of the loop over `plugins_sorted` in `canonical_serialize`. -/
def append_plugin (out : List Nat) (p : Plugin) : Except String (List Nat) := do
  let out ← append_length_prefixed_string out p.id
  let out := out ++ [domain_code p.domain]
  let out := append_be32 out p.warp_x
  let out := append_be32 out p.warp_y
  let out := append_be32 out p.warp_z
  let out := append_be32 out p.error
  append_length_prefixed_string out p.version

/-- The function `canonical_serialize`.  The plugins are encoded in the order of the list
received; the function does not sort. -/
def canonical_serialize
    (initial_phase_state : List Array3)
    (plugins_sorted : List Plugin)
    (warp_total : Array3)
    (error_total : Int)
    (phase_state_warped : List Array3)
    (symmetry_ok error_ok true_delivery : Bool)
    (implementation_id : CppString)
    (timestamp : Nat)
    (nonce : List Nat) : Except String (List Nat) := do
  let out : List Nat := []
  let out := initial_phase_state.foldl append_phase out
  let out ← plugins_sorted.foldlM append_plugin out
  let out := append_be32 out warp_total.1
  let out := append_be32 out warp_total.2.1
  let out := append_be32 out warp_total.2.2
  let out := append_be32 out error_total
  let out := phase_state_warped.foldl append_phase out
  let out := append_bool out symmetry_ok
  let out := append_bool out error_ok
  let out := append_bool out true_delivery
  let out := append_string out implementation_id
  let out := append_be64 out timestamp
  let out := out ++ nonce
  return out

end iso16

namespace iso16

/-- The function `canonical_serialize_and_hash`; `sha3_256` is the function passed by pointer,
applied to the bytes `prefixed.data()` of length `prefixed.size()`.  An exception of
`canonical_serialize` propagates.  The loop over the digest pushes `hex[(b >> 4) & 0xF]` and
`hex[b & 0xF]`. -/
def canonical_serialize_and_hash
    (initial_phase_state : List Array3)
    (plugins_sorted : List Plugin)
    (warp_total : Array3)
    (error_total : Int)
    (phase_state_warped : List Array3)
    (symmetry_ok error_ok true_delivery : Bool)
    (implementation_id : CppString)
    (timestamp : Nat)
    (nonce : List Nat)
    (sha3_256 : List Nat → List Nat) : Except String CppString := do
  let pfx := ascii "ISO16-SEAL-V1:"
  let body ← canonical_serialize initial_phase_state plugins_sorted warp_total error_total
    phase_state_warped symmetry_ok error_ok true_delivery implementation_id timestamp nonce
  let prefixed : List Nat := []
  let prefixed := prefixed ++ pfx
  let prefixed := prefixed ++ body
  let digest := sha3_256 prefixed
  let hex := ascii "0123456789abcdef"
  let hexout := digest.foldl
    (fun hexout b => (hexout ++ [hex.getD ((b / 16) % 16) 0]) ++ [hex.getD (b % 16) 0]) []
  return hexout

end iso16

namespace iso16

/-- The SealInput of the specification (section 3): the arguments of `canonical_serialize`,
in the order of its parameter list, as one record. -/
structure SealInput where
  initial_phase_state : List Array3
  plugins : List Plugin
  warp_total : Array3
  error_total : Int
  phase_state_warped : List Array3
  symmetry_ok : Bool
  error_ok : Bool
  true_delivery : Bool
  implementation_id : CppString
  timestamp : Nat
  nonce : List Nat
deriving DecidableEq, Repr

/-- The call of `canonical_serialize` on the fields of a `SealInput`. -/
def SealInput.encode (s : SealInput) : Except String (List Nat) :=
  canonical_serialize s.initial_phase_state s.plugins s.warp_total s.error_total
    s.phase_state_warped s.symmetry_ok s.error_ok s.true_delivery s.implementation_id
    s.timestamp s.nonce

end iso16

/-! ## `seal.cpp` -/

namespace iso16

/-- The table `KECCAKF_RNDC`. -/
def KECCAKF_RNDC : List Nat :=
  [0x0000000000000001, 0x0000000000008082,
   0x800000000000808a, 0x8000000080008000,
   0x000000000000808b, 0x0000000080000001,
   0x8000000080008081, 0x8000000000008009,
   0x000000000000008a, 0x0000000000000088,
   0x0000000080008009, 0x000000008000000a,
   0x000000008000808b, 0x800000000000008b,
   0x8000000000008089, 0x8000000000008003,
   0x8000000000008002, 0x8000000000000080,
   0x000000000000800a, 0x800000008000000a,
   0x8000000080008081, 0x8000000000008080,
   0x0000000080000001, 0x8000000080008008]

/-- The table `KECCAKF_ROTC`. -/
def KECCAKF_ROTC : List Nat :=
  [ 1,  3,  6, 10, 15, 21,
   28, 36, 45, 55,  2, 14,
   27, 41, 56,  8, 25, 43,
   62, 18, 39, 61, 20, 44]

/-- The table `KECCAKF_PILN`. -/
def KECCAKF_PILN : List Nat :=
  [10,  7, 11, 17, 18, 3,
    5, 16,  8, 21, 24, 4,
   15, 23, 19, 13, 12, 2,
   20, 14, 22,  9,  6,  1]

/-- The function `rol(x, s) = (x << s) | (x >> (64 - s))` on `uint64_t`: the left shift drops
the bits above bit 63. -/
def rol (x : Nat) (s : Nat) : Nat :=
  ((x <<< s) % 18446744073709551616) ||| (x >>> (64 - s))

/-- The theta step of one round of `keccakf`: the loop filling `bc`, then the loop over `i`
with the inner loop `for j = 0, 5, .., 20` doing `st[j + i] ^= t`. -/
def keccakf_theta (st : List Nat) : List Nat :=
  let bc := (List.range 5).foldl
    (fun bc i => bc.set i
      (st.getD i 0 ^^^ st.getD (i + 5) 0 ^^^ st.getD (i + 10) 0 ^^^ st.getD (i + 15) 0 ^^^
        st.getD (i + 20) 0))
    (List.replicate 5 0)
  (List.range 5).foldl
    (fun st i =>
      let t := bc.getD ((i + 4) % 5) 0 ^^^ rol (bc.getD ((i + 1) % 5) 0) 1
      [0, 5, 10, 15, 20].foldl (fun st j => st.set (j + i) (st.getD (j + i) 0 ^^^ t)) st)
    st

/-- The rho and pi steps of one round of `keccakf`: `t = st[1]`, then for `i = 0 .. 23`
`j = KECCAKF_PILN[i]; tmp = st[j]; st[j] = rol(t, KECCAKF_ROTC[i]); t = tmp`. -/
def keccakf_rho_pi (st : List Nat) : List Nat :=
  ((List.range 24).foldl
    (fun (ts : Nat × List Nat) i =>
      let t := ts.1
      let st := ts.2
      let j := KECCAKF_PILN.getD i 0
      let tmp := st.getD j 0
      let st := st.set j (rol t (KECCAKF_ROTC.getD i 0))
      (tmp, st))
    (st.getD 1 0, st)).2

/-- The chi step of one round of `keccakf`: for `j = 0, 5, .., 20` copy the row, then
`st[j + i] ^= (~row[(i + 1) % 5]) & row[(i + 2) % 5]`; `~` is the 64-bit complement. -/
def keccakf_chi (st : List Nat) : List Nat :=
  [0, 5, 10, 15, 20].foldl
    (fun st j =>
      let row := (List.range 5).foldl (fun row i => row.set i (st.getD (j + i) 0))
        (List.replicate 5 0)
      (List.range 5).foldl
        (fun st i => st.set (j + i)
          (st.getD (j + i) 0 ^^^
            ((18446744073709551615 - row.getD ((i + 1) % 5) 0) &&& row.getD ((i + 2) % 5) 0)))
        st)
    st

/-- The iota step of round `round` of `keccakf`: `st[0] ^= KECCAKF_RNDC[round]`. -/
def keccakf_iota (st : List Nat) (round : Nat) : List Nat :=
  st.set 0 (st.getD 0 0 ^^^ KECCAKF_RNDC.getD round 0)

/-- The body of the loop over `round` in `keccakf`. -/
def keccakf_round (st : List Nat) (round : Nat) : List Nat :=
  keccakf_iota (keccakf_chi (keccakf_rho_pi (keccakf_theta st))) round

/-- The function `keccakf`: 24 rounds on the 25 lanes; the array updated in place is
returned. -/
def keccakf (st : List Nat) : List Nat :=
  (List.range 24).foldl keccakf_round st

/-- The `std::memcpy(&v, p, 8)` of eight bytes at offset `off` into a `uint64_t`, on a
little-endian host: byte `k` has weight `2^(8k)`. -/
def load_le64 (bytes : List Nat) (off : Nat) : Nat :=
  (List.range 8).foldl (fun v k => v + bytes.getD (off + k) 0 * 2 ^ (8 * k)) 0

/-- The loop `for i < rate / 8` of `sha3_256`: `st[i] ^= v` with `v` the eight bytes at
`offset + i * 8`. -/
def xor_block (st : List Nat) (bytes : List Nat) (offset : Nat) : List Nat :=
  (List.range 17).foldl (fun st i => st.set i (st.getD i 0 ^^^ load_le64 bytes (offset + i * 8)))
    st

/-- The absorbing `while (len - offset >= rate)` loop of `sha3_256`, on the locals
`(offset, st)`; the first argument bounds the number of iterations (`len` is enough, every
iteration consuming 136 bytes). -/
def sha3_absorb (data : List Nat) : Nat → Nat → List Nat → Nat × List Nat
  | 0, offset, st => (offset, st)
  | fuel + 1, offset, st =>
    if data.length - offset ≥ 136 then
      sha3_absorb data fuel (offset + 136) (keccakf (xor_block st data offset))
    else (offset, st)

/-- The function `sha3_256(data, len)`, with `len = data.length`; the host is little-endian. -/
def sha3_256 (data : List Nat) : List Nat :=
  let st := List.replicate 25 0
  let r := sha3_absorb data data.length 0 st
  let offset := r.1
  let st := r.2
  let temp := List.replicate 136 0
  let remaining := data.length - offset
  let temp := (List.range remaining).foldl (fun temp k => temp.set k (data.getD (offset + k) 0))
    temp
  let temp := temp.set remaining 0x06
  let temp := temp.set (136 - 1) (temp.getD (136 - 1) 0 ||| 0x80)
  let st := xor_block st temp 0
  let st := keccakf st
  (List.range 32).foldl
    (fun out k => out.set k ((st.getD (k / 8) 0 >>> (8 * (k % 8))) % 256))
    (List.replicate 32 0)

end iso16

namespace iso16

/-- The absorbing loop of `sha3_256` once more, with a ghost counter of the calls of `keccakf`
as a third local; erasing the counter gives `sha3_absorb`. -/
def sha3_absorb_counted (data : List Nat) : Nat → Nat → List Nat → Nat → Nat × List Nat × Nat
  | 0, offset, st, calls => (offset, st, calls)
  | fuel + 1, offset, st, calls =>
    if data.length - offset ≥ 136 then
      sha3_absorb_counted data fuel (offset + 136) (keccakf (xor_block st data offset)) (calls + 1)
    else (offset, st, calls)

end iso16

/-! ## The specification's wording, for comparison with the code -/

/-- Specification side: the symmetry condition of section 4.4, with the FixedPoint operations
of section 4.1 (`iso16.sub` wraps, `iso16.abs` clamps the minimum value): every adjacent pair
`(i, i+1)`, `0 ≤ i ≤ 14`, is within epsilon on the three axes. -/
def symmetry_spec (p : List Phase) : Prop :=
  ∀ i, i ≤ 14 →
    iso16.leq (iso16.abs (iso16.sub (p.getD i default).x (p.getD (i + 1) default).x)) 1 = true ∧
    iso16.leq (iso16.abs (iso16.sub (p.getD i default).y (p.getD (i + 1) default).y)) 1 = true ∧
    iso16.leq (iso16.abs (iso16.sub (p.getD i default).z (p.getD (i + 1) default).z)) 1 = true

/-- Specification side: the FixedPoint sum of a sequence, by `iso16.add` from 0. -/
def fixed_sum (l : List Int) : Int := l.foldl iso16.add 0

/-- Specification side: a big-endian 32-bit integer, the four base-256 digits of the value
modulo `2^32`, most significant first. -/
def spec_be32 (v : Int) : List Nat :=
  let u := (v % 4294967296).toNat
  [u / 16777216, (u / 65536) % 256, (u / 256) % 256, u % 256]

/-- Specification side: a big-endian 64-bit unsigned integer. -/
def spec_be64 (v : Nat) : List Nat :=
  [(v / 72057594037927936) % 256, (v / 281474976710656) % 256, (v / 1099511627776) % 256,
   (v / 4294967296) % 256, (v / 16777216) % 256, (v / 65536) % 256, (v / 256) % 256, v % 256]

/-- Specification side: one phase entry, x, y, z as big-endian 32-bit integers. -/
def spec_phase_bytes (p : iso16.Array3) : List Nat :=
  spec_be32 p.1 ++ spec_be32 p.2.1 ++ spec_be32 p.2.2

/-- Specification side: the 1-byte domain code. -/
def spec_domain_code (d : CppString) : Nat :=
  if d = ascii "Refraction" then 0x01
  else if d = ascii "FrameDrag" then 0x02
  else if d = ascii "Jitter" then 0x03
  else 0xFF

/-- Specification side: a flag byte, 0x01 for true and 0x00 for false. -/
def spec_bool_byte (b : Bool) : Nat := if b then 0x01 else 0x00

/-- Specification side: one plugin record: length-prefixed id, domain code, warp x, y, z and
error as big-endian 32-bit integers, length-prefixed version. -/
def spec_plugin_bytes (p : iso16.Plugin) : List Nat :=
  [p.id.length] ++ p.id ++ [spec_domain_code p.domain] ++
    spec_be32 p.warp_x ++ spec_be32 p.warp_y ++ spec_be32 p.warp_z ++ spec_be32 p.error ++
    [p.version.length] ++ p.version

/-- Specification side: the canonical byte sequence of section 4.7, fields in the fixed order. -/
def spec_canonical_bytes
    (initial_phase_state : List iso16.Array3)
    (plugins : List iso16.Plugin)
    (warp_total : iso16.Array3)
    (error_total : Int)
    (phase_state_warped : List iso16.Array3)
    (symmetry_ok error_ok true_delivery : Bool)
    (implementation_id : CppString)
    (timestamp : Nat)
    (nonce : List Nat) : List Nat :=
  (initial_phase_state.map spec_phase_bytes).flatten ++
  (plugins.map spec_plugin_bytes).flatten ++
  spec_be32 warp_total.1 ++ spec_be32 warp_total.2.1 ++ spec_be32 warp_total.2.2 ++
  spec_be32 error_total ++
  (phase_state_warped.map spec_phase_bytes).flatten ++
  [spec_bool_byte symmetry_ok, spec_bool_byte error_ok, spec_bool_byte true_delivery] ++
  implementation_id ++
  spec_be64 timestamp ++
  nonce

/-- Failing input for the symmetry check: entry 0 is `(INT32_MIN, 0, 0)`, entries 1 to 15 are
`(0, 0, 0)`. -/
def min_gap_phases : List Phase :=
  { x := -2147483648, y := 0, z := 0 } :: List.replicate 15 { x := 0, y := 0, z := 0 }

/-- Entries 0 to 5 are `(INT32_MIN, 0, 0)`, entries 6 to 15 are `(INT32_MAX, 0, 0)`: the raw
values differ by `2^32 - 1` between index 5 and index 6, all other neighbours are equal. -/
def wrap_gap_phases : List Phase :=
  List.replicate 6 { x := -2147483648, y := 0, z := 0 } ++
    List.replicate 10 { x := 2147483647, y := 0, z := 0 }

/-- Two raw values differ by more than epsilon in a way the wrapped difference still shows:
the integer difference has magnitude above 1 and other than `2^32 - 1` (which wraps to `±1`);
the magnitude `2^31` (which wraps to the minimum value) is left aside. -/
def gap_beyond_epsilon (a b : Int) : Prop :=
  1 < |a - b| ∧ |a - b| ≠ 4294967295 ∧ |a - b| ≠ 2147483648

/-- All three components of a phase entry are `int32_t` values. -/
def Phase.InRange (p : Phase) : Prop := IsInt32 p.x ∧ IsInt32 p.y ∧ IsInt32 p.z

instance (p : Phase) : Decidable p.InRange := by unfold Phase.InRange; infer_instance

/-- Entries 0 to 5 are `(0, 0, 0)`, entries 6 to 15 are `(2, 0, 0)`: a step of 2 between
index 5 and index 6, all other neighbours equal. -/
def step_gap_phases : List Phase :=
  List.replicate 6 { x := 0, y := 0, z := 0 } ++ List.replicate 10 { x := 2, y := 0, z := 0 }

/-- A plugin with status OK whose warp and error sit at the ends of the 32-bit range. -/
def perm_plugin_a : Plugin :=
  { id := ascii "a", domain := ascii "Jitter", warp_x := 2147483647, warp_y := 1,
    warp_z := -2147483648, error := 2147483647, version := ascii "1", status := ascii "OK" }

/-- A plugin with status TIMEOUT whose warp and error sit at the ends of the 32-bit range. -/
def perm_plugin_b : Plugin :=
  { id := ascii "b", domain := ascii "Refraction", warp_x := 2147483647, warp_y := 1,
    warp_z := -2147483648, error := 2147483647, version := ascii "1", status := ascii "TIMEOUT" }

/-- A plugin with status OK and negative contributions. -/
def perm_plugin_c : Plugin :=
  { id := ascii "c", domain := ascii "FrameDrag", warp_x := -5, warp_y := 1, warp_z := -1,
    error := -2147483647, version := ascii "1", status := ascii "OK" }

/-- The scenario of section 8: all phase entries equal, one plugin with status TIMEOUT, warp
`(0, 0, 0)` and error 0. -/
def timeout_vector : VectorInput :=
  { vector_id := ascii "V-TIMEOUT", description := [],
    initial_phase_state := List.replicate 16 { x := 7, y := 7, z := 7 },
    plugins := [{ id := ascii "p", domain := ascii "Jitter", warp_x := 0, warp_y := 0,
                  warp_z := 0, error := 0, version := ascii "1", status := ascii "TIMEOUT" }] }

/-- A 16-entry phase state in the layout of `seal.hpp`. -/
def sample_seal_phases : List iso16.Array3 := List.replicate 16 (1, -1, 256)

/-- Two plugin records in the layout of `seal.hpp`. -/
def sample_seal_plugins : List iso16.Plugin :=
  [{ id := ascii "zeta", domain := ascii "Jitter", warp_x := 1, warp_y := 2, warp_z := 3,
     error := -2147483648, version := ascii "v1" },
   { id := ascii "alpha", domain := ascii "Drift", warp_x := -1, warp_y := 0, warp_z := 65536,
     error := 1, version := [] }]

/-- A vector with 16 zero phase entries and no plugin. -/
def zero_vector : VectorInput :=
  { vector_id := ascii "V0001", description := [],
    initial_phase_state := List.replicate 16 { x := 0, y := 0, z := 0 }, plugins := [] }

/-- The output of `execute_iso16` on `zero_vector`. -/
def zero_actual : ActualOutput :=
  { warp_total := [0, 0, 0], error_total := 0,
    phase_state_warped := List.replicate 16 { x := 0, y := 0, z := 0 },
    symmetry_ok := true, error_ok := true, true_delivery := true }

/-- An expected output that agrees with `zero_actual` on every field the runner has, with the
seal string given. -/
def zero_expected (seal_hex : CppString) : ExpectedOutput :=
  { vector_id := ascii "V0001", warp_total := [0, 0, 0], error_total := 0,
    phase_state_warped := List.replicate 16 { x := 0, y := 0, z := 0 },
    symmetry_ok := true, error_ok := true, true_delivery := true, tetra_seal := seal_hex }

/-- An expected output that differs from `zero_actual` in `error_total` only. -/
def wrong_error_expected : ExpectedOutput :=
  { vector_id := ascii "V0001", warp_total := [0, 0, 0], error_total := 5,
    phase_state_warped := List.replicate 16 { x := 0, y := 0, z := 0 },
    symmetry_ok := true, error_ok := true, true_delivery := true, tetra_seal := ascii "00" }

/-- Specification side: the sixteen lowercase hexadecimal digits `0-9`, `a-f`. -/
def spec_hex_digits : List Nat := [48, 49, 50, 51, 52, 53, 54, 55, 56, 57, 97, 98, 99, 100, 101, 102]

/-- Specification side: the character of a hexadecimal digit value below 16: `'0' + d` for
`d < 10`, `'a' + (d - 10)` otherwise. -/
def spec_hex_digit (d : Nat) : Nat := if d < 10 then 48 + d else 87 + d

/-- Specification side: the hexadecimal rendering of a byte sequence, two characters per byte,
high nibble first. -/
def spec_hex (bytes : List Nat) : CppString :=
  (bytes.map (fun b => [spec_hex_digit (b / 16), spec_hex_digit (b % 16)])).flatten

/-- A stand-in digest function: 32 bytes, each the message length modulo 256. -/
def length_digest (m : List Nat) : List Nat := List.replicate 32 (m.length % 256)

/-- A plugin record whose identifier has 256 bytes. -/
def long_id_plugin : iso16.Plugin :=
  { id := List.replicate 256 97, domain := ascii "Jitter", warp_x := 0, warp_y := 0,
    warp_z := 0, error := 0, version := ascii "v1" }

/-- The three components of a `std::array<q16,3>` are `int32_t` values. -/
def Array3InRange (p : iso16.Array3) : Prop := IsInt32 p.1 ∧ IsInt32 p.2.1 ∧ IsInt32 p.2.2

instance (p : iso16.Array3) : Decidable (Array3InRange p) := by
  unfold Array3InRange; infer_instance

/-- The numeric fields of a plugin record are `int32_t` values. -/
def PluginInRange (p : iso16.Plugin) : Prop :=
  IsInt32 p.warp_x ∧ IsInt32 p.warp_y ∧ IsInt32 p.warp_z ∧ IsInt32 p.error

instance (p : iso16.Plugin) : Decidable (PluginInRange p) := by
  unfold PluginInRange; infer_instance

/-- A well-formed `SealInput`: both phase states have 16 entries, identifiers and versions have
at most 255 bytes, and every field holds a value of its C++ type (`int32_t` numbers, a
`uint64_t` timestamp, a 16-byte nonce). -/
structure SealInputWellFormed (s : iso16.SealInput) : Prop where
  initial_length : s.initial_phase_state.length = 16
  warped_length : s.phase_state_warped.length = 16
  initial_range : ∀ p ∈ s.initial_phase_state, Array3InRange p
  warped_range : ∀ p ∈ s.phase_state_warped, Array3InRange p
  plugin_strings : ∀ p ∈ s.plugins, p.id.length ≤ 255 ∧ p.version.length ≤ 255
  plugin_range : ∀ p ∈ s.plugins, PluginInRange p
  warp_total_range : Array3InRange s.warp_total
  error_total_range : IsInt32 s.error_total
  timestamp_range : s.timestamp < 18446744073709551616
  nonce_length : s.nonce.length = 16

/-- Two plugin records agree on what the canonical encoding carries: id, domain code, warp,
error and version. -/
def same_encoded_fields (p q : iso16.Plugin) : Prop :=
  p.id = q.id ∧ iso16.domain_code p.domain = iso16.domain_code q.domain ∧
  p.warp_x = q.warp_x ∧ p.warp_y = q.warp_y ∧ p.warp_z = q.warp_z ∧ p.error = q.error ∧
  p.version = q.version

/-- The order of `std::string::operator<` on the identifiers of two plugin records:
lexicographic on the bytes. -/
def plugin_id_lt (p q : iso16.Plugin) : Prop := List.Lex (· < ·) p.id q.id

/-- The plugin record "alpha" of `sample_seal_plugins`. -/
def seal_plugin_alpha : iso16.Plugin :=
  { id := ascii "alpha", domain := ascii "Drift", warp_x := -1, warp_y := 0, warp_z := 65536,
    error := 1, version := [] }

/-- The plugin record "zeta" of `sample_seal_plugins`. -/
def seal_plugin_zeta : iso16.Plugin :=
  { id := ascii "zeta", domain := ascii "Jitter", warp_x := 1, warp_y := 2, warp_z := 3,
    error := -2147483648, version := ascii "v1" }

/-- A well-formed input without plugins: all phase entries zero, `warp_total = (0x00FF0000, 0,
0)`, all flags false, an implementation id of 19 zero bytes, timestamp 0, zero nonce. -/
def collide_no_plugin : iso16.SealInput :=
  { initial_phase_state := List.replicate 16 (0, 0, 0), plugins := [],
    warp_total := (16711680, 0, 0), error_total := 0,
    phase_state_warped := List.replicate 16 (0, 0, 0),
    symmetry_ok := false, error_ok := false, true_delivery := false,
    implementation_id := List.replicate 19 0, timestamp := 0, nonce := List.replicate 16 0 }

/-- A well-formed input with one plugin (empty id, domain "Custom", zero warp and error, empty
version): all phase entries zero, `warp_total = (0, 0, 0)`, all flags false, an empty
implementation id, timestamp 0, zero nonce. -/
def collide_one_plugin : iso16.SealInput :=
  { initial_phase_state := List.replicate 16 (0, 0, 0),
    plugins := [{ id := [], domain := ascii "Custom", warp_x := 0, warp_y := 0, warp_z := 0,
                  error := 0, version := [] }],
    warp_total := (0, 0, 0), error_total := 0,
    phase_state_warped := List.replicate 16 (0, 0, 0),
    symmetry_ok := false, error_ok := false, true_delivery := false,
    implementation_id := [], timestamp := 0, nonce := List.replicate 16 0 }

/-- The input `collide_one_plugin` with the domain of its plugin changed from "Custom" to
"Drift"; both strings have the domain code `0xFF`. -/
def collide_drift_plugin : iso16.SealInput :=
  { collide_one_plugin with
    plugins := [{ id := [], domain := ascii "Drift", warp_x := 0, warp_y := 0, warp_z := 0,
                  error := 0, version := [] }] }

/-- Specification side: four bytes read as a big-endian signed 32-bit integer. -/
def spec_read_be32 (b0 b1 b2 b3 : Nat) : Int :=
  iso16.to_int32 (b0 * 16777216 + b1 * 65536 + b2 * 256 + b3)

/-- A vector with only 15 phase entries, all zero, and no plugin. -/
def short_vector : VectorInput :=
  { vector_id := ascii "V-SHORT", description := [],
    initial_phase_state := List.replicate 15 { x := 0, y := 0, z := 0 }, plugins := [] }

/-- A vector with 16 zero phase entries and two plugins with status OK whose errors,
`2147483647` and `1`, add up to `2^31`. -/
def overflow_error_vector : VectorInput :=
  { vector_id := ascii "V-OVERFLOW", description := [],
    initial_phase_state := List.replicate 16 { x := 0, y := 0, z := 0 },
    plugins := [{ id := ascii "a", domain := ascii "Jitter", warp_x := 0, warp_y := 0,
                  warp_z := 0, error := 2147483647, version := ascii "1", status := ascii "OK" },
                { id := ascii "b", domain := ascii "Jitter", warp_x := 0, warp_y := 0,
                  warp_z := 0, error := 1, version := ascii "1", status := ascii "OK" }] }

/-- Specification side: the final rate block for the `tail` of the message (fewer than 136
bytes): the tail, then the byte `0x06`, zero fill, and the last byte of the block ORed with
`0x80`; when the tail has 135 bytes the two marks share the last byte, `0x86`. -/
def spec_final_block (tail : List Nat) : List Nat :=
  (List.range 136).map (fun k =>
    if k < tail.length then tail.getD k 0
    else if k = tail.length then (if k = 135 then 0x86 else 0x06)
    else if k = 135 then 0x80
    else 0)

/-- Specification side: absorbing the `m` full blocks number `j`, `j + 1`, .., `j + m - 1` of
the message: each is xored into the first 17 lanes and followed by one permutation. -/
def spec_absorb_blocks (data : List Nat) : Nat → Nat → List Nat → List Nat
  | _, 0, st => st
  | j, m + 1, st => spec_absorb_blocks data (j + 1) m (iso16.keccakf (iso16.xor_block st data (136 * j)))

/-- Specification side: the digest read off a state: the first four lanes, each as eight bytes
in little-endian order. -/
def spec_squeeze (st : List Nat) : List Nat :=
  (List.range 32).map (fun k => (st.getD (k / 8) 0 >>> (8 * (k % 8))) % 256)

/-- Specification side: SHA3-256 as a sponge over full blocks and one final padded block. -/
def spec_sha3_256 (data : List Nat) : List Nat :=
  spec_squeeze
    (iso16.keccakf
      (iso16.xor_block
        (spec_absorb_blocks data 0 (data.length / 136) (List.replicate 25 0))
        (spec_final_block (data.drop (136 * (data.length / 136)))) 0))

/-- The action of theta on the five column parities `c`, with the shifts as parameters:
entry `x` becomes `c x ^ c (x + s) ^ rol (c (x + t)) r`.  Theta itself is the case `s = 4`,
`t = 1`, `r = 1`. -/
def parity_map (s t : Fin 5) (r : Nat) (c : Fin 5 → Nat) : Fin 5 → Nat :=
  fun x => c x ^^^ c (x + s) ^^^ iso16.rol (c (x + t)) r

/-- A Keccak state: 25 lanes, each a `uint64_t`. -/
def IsKeccakState (st : List Nat) : Prop :=
  st.length = 25 ∧ ∀ x ∈ st, x < 18446744073709551616

instance (st : List Nat) : Decidable (IsKeccakState st) := by
  unfold IsKeccakState; infer_instance

/-- The five column parities of a state: entry `x` is the xor of the lanes `x`, `x + 5`,
`x + 10`, `x + 15`, `x + 20`, the value `bc[x]` of the theta step. -/
def col_parity (st : List Nat) : Fin 5 → Nat :=
  fun x => st.getD x.val 0 ^^^ st.getD (x.val + 5) 0 ^^^ st.getD (x.val + 10) 0 ^^^
    st.getD (x.val + 15) 0 ^^^ st.getD (x.val + 20) 0

/-- The value `t` that theta xors into the lanes of column `x`:
`bc[(x + 4) % 5] ^ rol(bc[(x + 1) % 5], 1)`. -/
def theta_effect (c : Fin 5 → Nat) (x : Fin 5) : Nat :=
  c (x + 4) ^^^ iso16.rol (c (x + 1)) 1

/-- A vector with 16 zero phase entries and two plugins with status OK whose errors, `3` and
`-2`, add up to `1` without overflow. -/
def small_error_vector : VectorInput :=
  { vector_id := ascii "V-SMALL", description := [],
    initial_phase_state := List.replicate 16 { x := 0, y := 0, z := 0 },
    plugins := [{ id := ascii "a", domain := ascii "Jitter", warp_x := 0, warp_y := 0,
                  warp_z := 0, error := 3, version := ascii "1", status := ascii "OK" },
                { id := ascii "b", domain := ascii "Jitter", warp_x := 0, warp_y := 0,
                  warp_z := 0, error := -2, version := ascii "1", status := ascii "OK" }] }

/-! ## Fixed-point arithmetic -/

theorem static_cast_q16_eq_to_int32 (v : Int) : static_cast_q16 v = iso16.to_int32 v := by
  unfold static_cast_q16 iso16.to_int32
  simp only
  split <;> omega

theorem static_cast_q16_of_isInt32 {a : Int} (h : IsInt32 a) : static_cast_q16 a = a := by
  unfold IsInt32 at h
  unfold static_cast_q16
  omega

theorem q16_add_eq_add (a b : Int) : q16_add a b = iso16.add a b :=
  static_cast_q16_eq_to_int32 (a + b)

theorem q16_sub_eq_sub (a b : Int) : q16_sub a b = iso16.sub a b :=
  static_cast_q16_eq_to_int32 (a - b)

theorem to_int32_isInt32 (v : Int) : IsInt32 (iso16.to_int32 v) := by
  unfold IsInt32 iso16.to_int32
  simp only
  split <;> omega

theorem to_int32_congr (v : Int) : (iso16.to_int32 v - v) % 4294967296 = 0 := by
  unfold iso16.to_int32
  simp only
  split <;> omega

theorem to_int32_unique (v r : Int) (hr : IsInt32 r) (hc : (r - v) % 4294967296 = 0) :
    r = iso16.to_int32 v := by
  unfold IsInt32 at hr
  unfold iso16.to_int32
  simp only
  split <;> omega

theorem to_int32_add_left (a b : Int) :
    iso16.to_int32 (iso16.to_int32 a + b) = iso16.to_int32 (a + b) := by
  unfold iso16.to_int32
  simp only
  split <;> split <;> split <;> omega

theorem to_int32_zero : iso16.to_int32 0 = 0 := by decide

/-- C8: for 32-bit signed `a`, `b`, `iso16.add a b` (respectively `iso16.sub a b`) is a 32-bit
signed value congruent modulo `2^32` to the exact `a + b` (respectively `a - b`), and it is the
only such value; `to_int32` of a 64-bit `v` is the only 32-bit signed value congruent to `v`.
The functions are total. -/
theorem add_sub_wrap_mod_2_32 (a b : Int) (ha : IsInt32 a) (hb : IsInt32 b) :
    (IsInt32 (iso16.add a b) ∧ (iso16.add a b - (a + b)) % 4294967296 = 0 ∧
      ∀ r, IsInt32 r → (r - (a + b)) % 4294967296 = 0 → r = iso16.add a b) ∧
    (IsInt32 (iso16.sub a b) ∧ (iso16.sub a b - (a - b)) % 4294967296 = 0 ∧
      ∀ r, IsInt32 r → (r - (a - b)) % 4294967296 = 0 → r = iso16.sub a b) ∧
    (IsInt64 (a + b) ∧ IsInt64 (a - b)) ∧
    (∀ v, IsInt64 v → IsInt32 (iso16.to_int32 v) ∧ (iso16.to_int32 v - v) % 4294967296 = 0 ∧
      ∀ r, IsInt32 r → (r - v) % 4294967296 = 0 → r = iso16.to_int32 v) := by
  refine ⟨⟨to_int32_isInt32 _, to_int32_congr _, fun r hr hc => to_int32_unique _ r hr hc⟩,
    ⟨to_int32_isInt32 _, to_int32_congr _, fun r hr hc => to_int32_unique _ r hr hc⟩, ?_,
    fun v _ => ⟨to_int32_isInt32 _, to_int32_congr _, fun r hr hc => to_int32_unique _ r hr hc⟩⟩
  unfold IsInt32 at ha hb
  unfold IsInt64
  omega

theorem add_sub_wrap_mod_2_32_witness :
    (IsInt32 (iso16.add 2147483647 1) ∧ (iso16.add 2147483647 1 - (2147483647 + 1)) % 4294967296 = 0 ∧
      ∀ r, IsInt32 r → (r - (2147483647 + 1)) % 4294967296 = 0 → r = iso16.add 2147483647 1) ∧
    (IsInt32 (iso16.sub 2147483647 1) ∧ (iso16.sub 2147483647 1 - (2147483647 - 1)) % 4294967296 = 0 ∧
      ∀ r, IsInt32 r → (r - (2147483647 - 1)) % 4294967296 = 0 → r = iso16.sub 2147483647 1) ∧
    (IsInt64 (2147483647 + 1) ∧ IsInt64 (2147483647 - 1)) ∧
    (∀ v, IsInt64 v → IsInt32 (iso16.to_int32 v) ∧ (iso16.to_int32 v - v) % 4294967296 = 0 ∧
      ∀ r, IsInt32 r → (r - v) % 4294967296 = 0 → r = iso16.to_int32 v) :=
  add_sub_wrap_mod_2_32 2147483647 1 (by decide) (by decide)

/-- C9: for a 32-bit signed `a`, `iso16.abs a` is `2^31 - 1` when `a` is the minimum value
`-2^31`, and otherwise the mathematical absolute value of `a` (`-a` for negative `a`); the
result is a 32-bit signed value and is never negative. -/
theorem abs_clamps_min (a : Int) (ha : IsInt32 a) :
    (a = -2147483648 → iso16.abs a = 2147483647) ∧
    (a ≠ -2147483648 → iso16.abs a = |a|) ∧
    (a ≠ -2147483648 → a < 0 → iso16.abs a = -a) ∧
    0 ≤ iso16.abs a ∧ IsInt32 (iso16.abs a) := by
  unfold IsInt32 at *
  unfold iso16.abs iso16.INT32_MIN_ iso16.INT32_MAX_ static_cast_q16
  refine ⟨?_, ?_, ?_, ?_, ?_⟩
  · intro h
    simp [h]
  · intro h
    rw [if_neg h]
    split
    · rw [abs_of_neg (by assumption)]
      omega
    · rw [abs_of_nonneg (by omega)]
  · intro h hneg
    rw [if_neg h, if_pos hneg]
    omega
  · split
    · omega
    · split <;> omega
  · split
    · omega
    · split <;> omega

theorem abs_clamps_min_witness :
    ((-2147483648 : Int) = -2147483648 → iso16.abs (-2147483648) = 2147483647) ∧
    ((-2147483648 : Int) ≠ -2147483648 → iso16.abs (-2147483648) = |(-2147483648 : Int)|) ∧
    ((-2147483648 : Int) ≠ -2147483648 → (-2147483648 : Int) < 0 →
      iso16.abs (-2147483648) = -(-2147483648)) ∧
    0 ≤ iso16.abs (-2147483648) ∧ IsInt32 (iso16.abs (-2147483648)) :=
  abs_clamps_min (-2147483648) (by decide)

/-! ## Aggregation of the plugin results -/

theorem foldl_add_eq (l : List Int) (a : Int) :
    l.foldl iso16.add (iso16.to_int32 a) = iso16.to_int32 (a + l.sum) := by
  induction l generalizing a with
  | nil => simp
  | cons b l ih =>
    rw [List.foldl_cons, List.sum_cons]
    have : iso16.add (iso16.to_int32 a) b = iso16.to_int32 (a + b) := to_int32_add_left a b
    rw [this, ih, add_assoc]

theorem fixed_sum_eq (l : List Int) : fixed_sum l = iso16.to_int32 l.sum := by
  have h := foldl_add_eq l 0
  rw [to_int32_zero, zero_add] at h
  exact h

theorem eval_plugins_step_triple (a b c e : Int) (ok : Bool) (p : Plugin) :
    eval_plugins_step ([a, b, c], e, ok) p =
      ([iso16.add a p.warp_x, iso16.add b p.warp_y, iso16.add c p.warp_z], iso16.add e p.error,
        ok && decide (p.status = ascii "OK")) := by
  unfold eval_plugins_step
  simp only [q16_add_eq_add, List.getD_cons_zero, List.set_cons_zero, List.getD_cons_succ,
    List.set_cons_succ, Prod.mk.injEq, true_and]
  by_cases h : p.status = ascii "OK" <;> simp [h]

theorem eval_plugins_foldl (ps : List Plugin) (a b c e : Int) (ok : Bool) :
    ps.foldl eval_plugins_step ([a, b, c], e, ok) =
      ([(ps.map Plugin.warp_x).foldl iso16.add a, (ps.map Plugin.warp_y).foldl iso16.add b,
        (ps.map Plugin.warp_z).foldl iso16.add c], (ps.map Plugin.error).foldl iso16.add e,
        ok && decide (∀ p ∈ ps, p.status = ascii "OK")) := by
  induction ps generalizing a b c e ok with
  | nil => simp
  | cons p ps ih =>
    rw [List.foldl_cons, eval_plugins_step_triple, ih]
    simp only [List.map_cons, List.foldl_cons, List.mem_cons, forall_eq_or_imp, Prod.mk.injEq,
      true_and]
    by_cases h : p.status = ascii "OK" <;> simp [h]

/-- C5: `eval_plugins` returns as warp total the per-axis FixedPoint sum of the warp vectors of
all plugins and as error total the FixedPoint sum of all error values (each is the exact sum
over every plugin, whatever its status, wrapped to 32 bits), and returns the flag `true` exactly
when every plugin has status OK.  It is a total function: no input makes it fail. -/
theorem eval_plugins_totals (plugins : List Plugin) :
    eval_plugins plugins =
      ([fixed_sum (plugins.map Plugin.warp_x), fixed_sum (plugins.map Plugin.warp_y),
        fixed_sum (plugins.map Plugin.warp_z)],
       fixed_sum (plugins.map Plugin.error),
       decide (∀ p ∈ plugins, p.status = ascii "OK")) ∧
    fixed_sum (plugins.map Plugin.warp_x) = iso16.to_int32 (plugins.map Plugin.warp_x).sum ∧
    fixed_sum (plugins.map Plugin.warp_y) = iso16.to_int32 (plugins.map Plugin.warp_y).sum ∧
    fixed_sum (plugins.map Plugin.warp_z) = iso16.to_int32 (plugins.map Plugin.warp_z).sum ∧
    fixed_sum (plugins.map Plugin.error) = iso16.to_int32 (plugins.map Plugin.error).sum := by
  refine ⟨?_, fixed_sum_eq _, fixed_sum_eq _, fixed_sum_eq _, fixed_sum_eq _⟩
  unfold eval_plugins
  rw [eval_plugins_foldl]
  simp [fixed_sum]

theorem eval_plugins_eq_sums (plugins : List Plugin) :
    eval_plugins plugins =
      ([iso16.to_int32 (plugins.map Plugin.warp_x).sum,
        iso16.to_int32 (plugins.map Plugin.warp_y).sum,
        iso16.to_int32 (plugins.map Plugin.warp_z).sum],
       iso16.to_int32 (plugins.map Plugin.error).sum,
       decide (∀ p ∈ plugins, p.status = ascii "OK")) := by
  unfold eval_plugins
  rw [eval_plugins_foldl]
  have h := fun l => fixed_sum_eq l
  unfold fixed_sum at h
  simp [h]

/-- C6: aggregation is order-independent: on a permutation of the plugin sequence
`eval_plugins` returns the same three warp totals, the same error total and the same flag,
whether or not intermediate sums wrap around. -/
theorem eval_plugins_perm (ps qs : List Plugin) (h : ps.Perm qs) :
    eval_plugins ps = eval_plugins qs := by
  rw [eval_plugins_eq_sums, eval_plugins_eq_sums]
  have hx := (h.map Plugin.warp_x).sum_eq
  have hy := (h.map Plugin.warp_y).sum_eq
  have hz := (h.map Plugin.warp_z).sum_eq
  have he := (h.map Plugin.error).sum_eq
  have hok : (∀ p ∈ ps, p.status = ascii "OK") ↔ (∀ p ∈ qs, p.status = ascii "OK") :=
    ⟨fun H p hp => H p (h.mem_iff.mpr hp), fun H p hp => H p (h.mem_iff.mp hp)⟩
  rw [hx, hy, hz, he]
  simp only [hok]

theorem eval_plugins_perm_witness :
    List.Perm [perm_plugin_a, perm_plugin_b, perm_plugin_c]
        [perm_plugin_b, perm_plugin_a, perm_plugin_c] ∧
      eval_plugins [perm_plugin_a, perm_plugin_b, perm_plugin_c] =
        eval_plugins [perm_plugin_b, perm_plugin_a, perm_plugin_c] :=
  ⟨List.Perm.swap perm_plugin_b perm_plugin_a [perm_plugin_c],
   eval_plugins_perm _ _ (List.Perm.swap perm_plugin_b perm_plugin_a [perm_plugin_c])⟩

/-- C3: the `error_ok` reported by `execute_iso16` is true if and only if every plugin has
status "OK" and the aggregated error total, which is the exact sum of the plugins' error values
wrapped to 32 bits, is at most `EPSILON = 1` as a signed value. -/
theorem execute_iso16_error_ok_iff (v : VectorInput) :
    (execute_iso16 v).error_total = iso16.to_int32 (v.plugins.map Plugin.error).sum ∧
    ((execute_iso16 v).error_ok = true ↔
      (∀ p ∈ v.plugins, p.status = ascii "OK") ∧ (execute_iso16 v).error_total ≤ 1) := by
  unfold execute_iso16
  simp only [eval_plugins_eq_sums, check_error, q16_leq, EPSILON, true_and, Bool.and_eq_true,
    decide_eq_true_eq]

/-- C4: `execute_iso16` is fail-closed: `true_delivery` is always `symmetry_ok && error_ok`,
and when some plugin has a status other than "OK" it reports `error_ok = false` and
`true_delivery = false`, whatever the phase state and the error total are; the function is
total, so nothing is raised. -/
theorem execute_iso16_fail_closed (v : VectorInput) :
    (execute_iso16 v).true_delivery =
      ((execute_iso16 v).symmetry_ok && (execute_iso16 v).error_ok) ∧
    ((∃ p ∈ v.plugins, p.status ≠ ascii "OK") →
      (execute_iso16 v).error_ok = false ∧ (execute_iso16 v).true_delivery = false) := by
  refine ⟨rfl, ?_⟩
  rintro ⟨p, hp, hne⟩
  have hok : (eval_plugins v.plugins).2.2 = false := by
    rw [eval_plugins_eq_sums]
    simp only [decide_eq_false_iff_not, not_forall]
    exact ⟨p, hp, hne⟩
  unfold execute_iso16
  simp [hok]

theorem execute_iso16_fail_closed_witness :
    (∃ p ∈ timeout_vector.plugins, p.status ≠ ascii "OK") ∧
    (execute_iso16 timeout_vector).symmetry_ok = true ∧
    (execute_iso16 timeout_vector).error_ok = false ∧
    (execute_iso16 timeout_vector).true_delivery = false :=
  have h : ∃ p ∈ timeout_vector.plugins, p.status ≠ ascii "OK" := by decide
  ⟨h, by decide, (execute_iso16_fail_closed timeout_vector).2 h⟩

/-! ## Applying the warp -/

theorem foldl_push_eq_map {α β : Type} (f : α → β) (l : List α) (init : List β) :
    l.foldl (fun acc a => acc ++ [f a]) init = init ++ l.map f := by
  induction l generalizing init with
  | nil => simp
  | cons a l ih => rw [List.foldl_cons, ih]; simp

theorem apply_warp_eq_map (phases : List Phase) (warp : List Int) :
    apply_warp phases warp =
      phases.map (fun p =>
        { x := iso16.add p.x (warp.getD 0 0), y := iso16.add p.y (warp.getD 1 0),
          z := iso16.add p.z (warp.getD 2 0) }) := by
  unfold apply_warp
  rw [foldl_push_eq_map (fun p : Phase =>
    ({ x := q16_add p.x (warp.getD 0 0), y := q16_add p.y (warp.getD 1 0),
       z := q16_add p.z (warp.getD 2 0) } : Phase))]
  simp [q16_add_eq_add]

/-- C7: for every phase state and every warp 3-tuple `(w0, w1, w2)`, `apply_warp` returns a
phase state of the same length whose entry `i` is
`(add(p[i].x, w0), add(p[i].y, w1), add(p[i].z, w2))` with the wrapping FixedPoint `add`.  The
result is a new value; the argument, an immutable value, is not changed. -/
theorem apply_warp_entries (phases : List Phase) (w0 w1 w2 : Int) :
    (apply_warp phases [w0, w1, w2]).length = phases.length ∧
    ∀ i : Nat, (apply_warp phases [w0, w1, w2])[i]? =
      (phases[i]?).map (fun p =>
        { x := iso16.add p.x w0, y := iso16.add p.y w1, z := iso16.add p.z w2 }) := by
  rw [apply_warp_eq_map]
  refine ⟨by simp, fun i => ?_⟩
  simp

theorem add_zero_of_isInt32 {a : Int} (h : IsInt32 a) : iso16.add a 0 = a := by
  unfold IsInt32 at h
  unfold iso16.add iso16.to_int32
  simp only
  split <;> omega

theorem apply_warp_zero (phases : List Phase) (h : ∀ p ∈ phases, p.InRange) :
    apply_warp phases [0, 0, 0] = phases := by
  rw [apply_warp_eq_map]
  conv_rhs => rw [← List.map_id phases]
  apply List.map_congr_left
  intro p hp
  obtain ⟨hx, hy, hz⟩ := h p hp
  simp [add_zero_of_isInt32 hx, add_zero_of_isInt32 hy, add_zero_of_isInt32 hz]

/-! ## The symmetry check -/

theorem check_symmetry_eq_true_iff (phases : List Phase) :
    check_symmetry phases = true ↔
      phases.length = 16 ∧ ∀ i, i < 15 → check_symmetry_pair phases i = true := by
  unfold check_symmetry
  by_cases h : phases.length = 16
  · simp [h, List.all_eq_true]
  · simp [h]

theorem pair_fails_of_gap {a b : Int} (ha : IsInt32 a) (hb : IsInt32 b)
    (h : gap_beyond_epsilon a b) : q16_leq (q16_abs (q16_sub a b)) EPSILON = false := by
  unfold IsInt32 at ha hb
  obtain ⟨h1, h2, h3⟩ := h
  have key : a - b < -1 ∨ 1 < a - b := by
    rcases le_or_lt 0 (a - b) with hn | hn
    · rw [abs_of_nonneg hn] at h1; right; exact h1
    · rw [abs_of_neg hn] at h1; left; omega
  have k2 : a - b ≠ 4294967295 ∧ a - b ≠ -4294967295 := by
    rcases le_or_lt 0 (a - b) with hn | hn
    · rw [abs_of_nonneg hn] at h2; omega
    · rw [abs_of_neg hn] at h2; omega
  have k3 : a - b ≠ 2147483648 ∧ a - b ≠ -2147483648 := by
    rcases le_or_lt 0 (a - b) with hn | hn
    · rw [abs_of_nonneg hn] at h3; omega
    · rw [abs_of_neg hn] at h3; omega
  unfold q16_leq q16_abs q16_sub static_cast_q16 EPSILON
  simp only [decide_eq_false_iff_not, not_le]
  split <;> omega

/-- C2 (amended): in a 16-entry phase state of 32-bit values, if some adjacent pair
`(i, i+1)`, `0 ≤ i ≤ 14`, differs on some axis by an integer difference of magnitude above 1,
other than `2^32 - 1` and other than `2^31`, then `check_symmetry` returns false, and
`execute_iso16` on that state with zero plugins reports `symmetry_ok = false` and
`true_delivery = false`. -/
theorem check_symmetry_false_of_gap (phases : List Phase) (hlen : phases.length = 16)
    (hr : ∀ p ∈ phases, p.InRange) (i : Nat) (hi : i ≤ 14)
    (hgap : gap_beyond_epsilon (phases.getD i default).x (phases.getD (i + 1) default).x ∨
            gap_beyond_epsilon (phases.getD i default).y (phases.getD (i + 1) default).y ∨
            gap_beyond_epsilon (phases.getD i default).z (phases.getD (i + 1) default).z)
    (vector_id description : CppString) :
    check_symmetry phases = false ∧
    (execute_iso16 ⟨vector_id, description, phases, []⟩).symmetry_ok = false ∧
    (execute_iso16 ⟨vector_id, description, phases, []⟩).true_delivery = false := by
  have hmem : ∀ j, j < 16 → (phases.getD j default).InRange := by
    intro j hj
    apply hr
    rw [List.getD_eq_getElem _ _ (by omega)]
    exact List.getElem_mem _
  have h1 := hmem i (by omega)
  have h2 := hmem (i + 1) (by omega)
  have hpair : check_symmetry_pair phases i = false := by
    unfold check_symmetry_pair
    simp only [Bool.and_eq_false_imp, Bool.and_eq_true]
    rcases hgap with h | h | h
    · intro hx
      rw [pair_fails_of_gap h1.1 h2.1 h] at hx
      exact absurd hx.1 (by decide)
    · intro hx
      rw [pair_fails_of_gap h1.2.1 h2.2.1 h] at hx
      exact absurd hx.2 (by decide)
    · intro _
      exact pair_fails_of_gap h1.2.2 h2.2.2 h
  have hcs : check_symmetry phases = false := by
    rw [← Bool.not_eq_true, check_symmetry_eq_true_iff]
    rintro ⟨_, hall⟩
    rw [hall i (by omega)] at hpair
    exact absurd hpair (by decide)
  have hw : apply_warp phases (eval_plugins []).1 = phases := apply_warp_zero phases hr
  refine ⟨hcs, ?_, ?_⟩
  · show check_symmetry (apply_warp phases (eval_plugins []).1) = false
    rw [hw, hcs]
  · show (check_symmetry (apply_warp phases (eval_plugins []).1) && _) = false
    rw [hw, hcs]
    rfl

theorem check_symmetry_false_of_gap_witness :
    gap_beyond_epsilon (step_gap_phases.getD 5 default).x (step_gap_phases.getD 6 default).x ∧
    check_symmetry step_gap_phases = false ∧
    (execute_iso16 ⟨[], [], step_gap_phases, []⟩).symmetry_ok = false ∧
    (execute_iso16 ⟨[], [], step_gap_phases, []⟩).true_delivery = false :=
  have h : gap_beyond_epsilon (step_gap_phases.getD 5 default).x
      (step_gap_phases.getD 6 default).x := by
    unfold gap_beyond_epsilon
    simp [step_gap_phases]
  ⟨h, check_symmetry_false_of_gap step_gap_phases (by decide) (by decide) 5 (by decide)
    (Or.inl h) [] []⟩

/-- C2 (counterexample): in `wrap_gap_phases`, a 16-entry state of 32-bit values, entries 5
and 6 differ on the x axis by `2^32 - 1`, far more than epsilon, and yet `check_symmetry`
returns true and `execute_iso16` with zero plugins reports `symmetry_ok = true` and
`true_delivery = true`: the wrapped difference is 1. -/
theorem check_symmetry_wrap_gap_passes :
    wrap_gap_phases.length = 16 ∧ (∀ p ∈ wrap_gap_phases, p.InRange) ∧
    (wrap_gap_phases.getD 5 default).x - (wrap_gap_phases.getD 6 default).x = -4294967295 ∧
    1 < |(wrap_gap_phases.getD 5 default).x - (wrap_gap_phases.getD 6 default).x| ∧
    iso16.sub (wrap_gap_phases.getD 5 default).x (wrap_gap_phases.getD 6 default).x = 1 ∧
    check_symmetry wrap_gap_phases = true ∧
    (execute_iso16 ⟨[], [], wrap_gap_phases, []⟩).symmetry_ok = true ∧
    (execute_iso16 ⟨[], [], wrap_gap_phases, []⟩).true_delivery = true := by
  refine ⟨by decide, by decide, by decide, ?_, by decide, by decide, by decide, by decide⟩
  simp [wrap_gap_phases]

/-- C1 (failing input): on `min_gap_phases`, a 16-entry state of 32-bit values whose entries 0
and 1 differ on the x axis by `-2^31`, `check_symmetry` returns true, while the condition of the
specification is false there: `iso16.abs` clamps the wrapped difference `-2^31` to `2^31 - 1`,
which is above epsilon, whereas `q16_abs` leaves it at `-2^31`, which is below. -/
theorem check_symmetry_min_gap_diverges :
    min_gap_phases.length = 16 ∧ (∀ p ∈ min_gap_phases, p.InRange) ∧
    q16_abs (q16_sub (min_gap_phases.getD 0 default).x (min_gap_phases.getD 1 default).x) =
      -2147483648 ∧
    iso16.abs (iso16.sub (min_gap_phases.getD 0 default).x (min_gap_phases.getD 1 default).x) =
      2147483647 ∧
    check_symmetry min_gap_phases = true ∧
    ¬ symmetry_spec min_gap_phases := by
  refine ⟨by decide, by decide, by decide, by decide, by decide, ?_⟩
  intro h
  have h0 := (h 0 (by decide)).1
  revert h0
  decide

/-! ## Canonical encoding -/

theorem append_be32_eq (out : List Nat) (v : Int) :
    iso16.append_be32 out v = out ++ spec_be32 v := by
  have h : ((v / 16777216) % 256).toNat = (v % 4294967296).toNat / 16777216 ∧
      ((v / 65536) % 256).toNat = ((v % 4294967296).toNat / 65536) % 256 ∧
      ((v / 256) % 256).toNat = ((v % 4294967296).toNat / 256) % 256 ∧
      ((v / 1) % 256).toNat = (v % 4294967296).toNat % 256 := by
    refine ⟨?_, ?_, ?_, ?_⟩ <;> omega
  obtain ⟨h0, h1, h2, h3⟩ := h
  simp only [iso16.append_be32, spec_be32, h0, h1, h2, h3, List.append_assoc, List.singleton_append,
    List.cons_append, List.nil_append]

theorem spec_be32_length (v : Int) : (spec_be32 v).length = 4 := rfl

theorem append_phase_eq (out : List Nat) (p : iso16.Array3) :
    iso16.append_phase out p = out ++ spec_phase_bytes p := by
  simp only [iso16.append_phase, spec_phase_bytes, append_be32_eq, List.append_assoc]

theorem spec_phase_bytes_length (p : iso16.Array3) : (spec_phase_bytes p).length = 12 := rfl

theorem foldl_append_phase_eq (l : List iso16.Array3) (out : List Nat) :
    l.foldl iso16.append_phase out = out ++ (l.map spec_phase_bytes).flatten := by
  induction l generalizing out with
  | nil => simp
  | cons p l ih => rw [List.foldl_cons, ih, append_phase_eq]; simp

theorem phases_bytes_length (l : List iso16.Array3) :
    ((l.map spec_phase_bytes).flatten).length = 12 * l.length := by
  induction l with
  | nil => rfl
  | cons p l ih =>
    simp only [List.map_cons, List.flatten_cons, List.length_append, List.length_cons, ih,
      spec_phase_bytes_length]
    omega

theorem domain_code_eq (d : CppString) : iso16.domain_code d = spec_domain_code d := rfl

theorem append_length_prefixed_string_ok (out : List Nat) (s : CppString)
    (h : s.length ≤ 255) :
    iso16.append_length_prefixed_string out s = Except.ok (out ++ [s.length] ++ s) := by
  unfold iso16.append_length_prefixed_string
  rw [if_neg (by omega), Nat.mod_eq_of_lt (by omega)]

theorem append_plugin_ok (out : List Nat) (p : iso16.Plugin)
    (h : p.id.length ≤ 255 ∧ p.version.length ≤ 255) :
    iso16.append_plugin out p = Except.ok (out ++ spec_plugin_bytes p) := by
  unfold iso16.append_plugin
  rw [append_length_prefixed_string_ok _ _ h.1]
  simp only [Except.bind, bind, append_be32_eq, domain_code_eq]
  rw [append_length_prefixed_string_ok _ _ h.2]
  simp only [spec_plugin_bytes, List.append_assoc]

theorem foldlM_append_plugin_ok (ps : List iso16.Plugin) (out : List Nat)
    (h : ∀ p ∈ ps, p.id.length ≤ 255 ∧ p.version.length ≤ 255) :
    ps.foldlM iso16.append_plugin out = Except.ok (out ++ (ps.map spec_plugin_bytes).flatten) := by
  induction ps generalizing out with
  | nil => simp [pure, Except.pure]
  | cons p ps ih =>
    rw [List.foldlM_cons, append_plugin_ok _ _ (h p (List.mem_cons_self _ _))]
    simp only [bind, Except.bind]
    rw [ih _ (fun q hq => h q (List.mem_cons_of_mem _ hq))]
    simp

theorem spec_plugin_bytes_length (p : iso16.Plugin) :
    (spec_plugin_bytes p).length = 19 + p.id.length + p.version.length := by
  simp only [spec_plugin_bytes, List.length_append, List.length_cons, List.length_nil,
    spec_be32_length]
  omega

theorem plugins_bytes_length (ps : List iso16.Plugin) :
    ((ps.map spec_plugin_bytes).flatten).length =
      (ps.map (fun p => 19 + p.id.length + p.version.length)).sum := by
  induction ps with
  | nil => rfl
  | cons p ps ih =>
    simp only [List.map_cons, List.flatten_cons, List.length_append, List.sum_cons, ih,
      spec_plugin_bytes_length]

theorem append_be64_eq (out : List Nat) (v : Nat) :
    iso16.append_be64 out v = out ++ spec_be64 v := by
  simp [iso16.append_be64, spec_be64]

theorem append_bool_eq (out : List Nat) (b : Bool) :
    iso16.append_bool out b = out ++ [spec_bool_byte b] := rfl

/-- C10: for 16-entry initial and warped phase states and plugins whose id and version have at
most 255 bytes, `canonical_serialize` succeeds and returns exactly the concatenation, in this
order, of: the 48 initial phase values as big-endian 32-bit integers; for each plugin in list
order the 1-byte id length, the id bytes, the domain code, warp x, y, z and error as big-endian
32-bit integers, the 1-byte version length and the version bytes; the three warp totals; the
error total; the 48 warped phase values; the three flag bytes; the implementation id bytes with
no prefix or terminator; the 8 big-endian timestamp bytes; the 16 nonce bytes.  Its length is
`427 + |implementation id| + Σ (19 + |id| + |version|)`. -/
theorem canonical_serialize_layout
    (initial_phase_state : List iso16.Array3) (plugins : List iso16.Plugin)
    (warp_total : iso16.Array3) (error_total : Int) (phase_state_warped : List iso16.Array3)
    (symmetry_ok error_ok true_delivery : Bool) (implementation_id : CppString)
    (timestamp : Nat) (nonce : List Nat)
    (hinit : initial_phase_state.length = 16) (hwarped : phase_state_warped.length = 16)
    (hplugins : ∀ p ∈ plugins, p.id.length ≤ 255 ∧ p.version.length ≤ 255)
    (hnonce : nonce.length = 16) :
    iso16.canonical_serialize initial_phase_state plugins warp_total error_total
        phase_state_warped symmetry_ok error_ok true_delivery implementation_id timestamp nonce =
      Except.ok (spec_canonical_bytes initial_phase_state plugins warp_total error_total
        phase_state_warped symmetry_ok error_ok true_delivery implementation_id timestamp nonce) ∧
    (spec_canonical_bytes initial_phase_state plugins warp_total error_total
        phase_state_warped symmetry_ok error_ok true_delivery implementation_id timestamp
        nonce).length =
      427 + implementation_id.length +
        (plugins.map (fun p => 19 + p.id.length + p.version.length)).sum := by
  constructor
  · unfold iso16.canonical_serialize
    simp only [foldl_append_phase_eq, List.nil_append]
    rw [foldlM_append_plugin_ok _ _ hplugins]
    simp only [bind, Except.bind, pure, Except.pure, append_be32_eq, foldl_append_phase_eq,
      append_bool_eq, iso16.append_string, append_be64_eq, spec_canonical_bytes,
      List.append_assoc, List.cons_append, List.nil_append]
  · simp only [spec_canonical_bytes, List.length_append, phases_bytes_length,
      plugins_bytes_length, spec_be32_length, hinit, hwarped, hnonce, List.length_cons,
      List.length_nil]
    have : (spec_be64 timestamp).length = 8 := rfl
    omega

theorem canonical_serialize_layout_witness :
    iso16.canonical_serialize sample_seal_phases sample_seal_plugins (1, 2, 3) 4
        sample_seal_phases true false false (ascii "impl") 1700000000 (List.range 16) =
      Except.ok (spec_canonical_bytes sample_seal_phases sample_seal_plugins (1, 2, 3) 4
        sample_seal_phases true false false (ascii "impl") 1700000000 (List.range 16)) ∧
    (spec_canonical_bytes sample_seal_phases sample_seal_plugins (1, 2, 3) 4
        sample_seal_phases true false false (ascii "impl") 1700000000 (List.range 16)).length =
      427 + (ascii "impl").length +
        (sample_seal_plugins.map (fun p => 19 + p.id.length + p.version.length)).sum :=
  canonical_serialize_layout sample_seal_phases sample_seal_plugins (1, 2, 3) 4
    sample_seal_phases true false false (ascii "impl") 1700000000 (List.range 16)
    (by decide) (by decide) (by decide) (by decide)

/-! ## Algebraic laws of the fixed-point operations -/

/-- C17: for 32-bit signed `a` and `b`, `add(a, b) = add(b, a)`, and `sub(a, b)` is the
wrapping 32-bit negation of `sub(b, a)`, also when the sum or difference overflows (the 64-bit
intermediate never does) and when `sub(b, a)` is the minimum value, whose wrapping negation is
itself. -/
theorem add_comm_sub_antisymm (a b : Int) (ha : IsInt32 a) (hb : IsInt32 b) :
    iso16.add a b = iso16.add b a ∧
    iso16.sub a b = iso16.to_int32 (-(iso16.sub b a)) ∧
    (iso16.sub b a ≠ -2147483648 → iso16.sub a b = -(iso16.sub b a)) ∧
    (iso16.sub b a = -2147483648 → iso16.sub a b = -2147483648) ∧
    (IsInt64 (a + b) ∧ IsInt64 (a - b) ∧ IsInt64 (b - a)) := by
  unfold IsInt32 at ha hb
  unfold iso16.add iso16.sub iso16.to_int32 IsInt64
  simp only
  refine ⟨by rw [add_comm], ?_, ?_, ?_, ?_⟩
  · split <;> split <;> split <;> omega
  · split <;> split <;> omega
  · split <;> split <;> omega
  · omega

theorem add_comm_sub_antisymm_witness :
    iso16.add 2147483647 1 = iso16.add 1 2147483647 ∧
    iso16.sub 0 (-2147483648) = iso16.to_int32 (-(iso16.sub (-2147483648) 0)) ∧
    iso16.sub (-2147483648) 0 = -2147483648 ∧ iso16.sub 0 (-2147483648) = -2147483648 :=
  ⟨(add_comm_sub_antisymm 2147483647 1 (by decide) (by decide)).1,
   (add_comm_sub_antisymm 0 (-2147483648) (by decide) (by decide)).2.1,
   by decide,
   (add_comm_sub_antisymm 0 (-2147483648) (by decide) (by decide)).2.2.2.1 (by decide)⟩

theorem abs_of_isInt32 {a : Int} (ha : IsInt32 a) :
    iso16.abs a = if a = -2147483648 then 2147483647 else if a < 0 then -a else a := by
  unfold IsInt32 at ha
  unfold iso16.abs iso16.INT32_MIN_ iso16.INT32_MAX_ static_cast_q16
  split
  · rfl
  · split
    · omega
    · rfl

/-- C18: `abs` is idempotent on 32-bit signed values, the minimum value included:
`abs(abs(a)) = abs(a)`. -/
theorem abs_idempotent (a : Int) (ha : IsInt32 a) :
    iso16.abs (iso16.abs a) = iso16.abs a := by
  have h1 := abs_of_isInt32 ha
  have hr : IsInt32 (iso16.abs a) := by
    rw [h1]
    unfold IsInt32 at *
    split
    · omega
    · split <;> omega
  rw [abs_of_isInt32 hr, h1]
  unfold IsInt32 at ha
  split_ifs <;> omega

theorem abs_idempotent_witness :
    iso16.abs (iso16.abs (-2147483648)) = iso16.abs (-2147483648) :=
  abs_idempotent (-2147483648) (by decide)

/-! ## Zero plugins -/

theorem q16_pair_self (a : Int) : q16_leq (q16_abs (q16_sub a a)) EPSILON = true := by
  unfold q16_leq q16_abs q16_sub static_cast_q16 EPSILON
  simp only [sub_self, decide_eq_true_eq]
  split <;> omega

/-- C16: for a 16-entry initial phase state of 32-bit values, `execute_iso16` with zero plugins
returns `warp_total = (0, 0, 0)`, `error_total = 0`, a warped phase state identical to the
input and `error_ok = true`; if moreover the 16 entries are all equal to one entry `q`, it
returns `symmetry_ok = true` and `true_delivery = true`. -/
theorem execute_iso16_zero_plugins (vector_id description : CppString) (phases : List Phase)
    (hlen : phases.length = 16) (hr : ∀ p ∈ phases, p.InRange) :
    (execute_iso16 ⟨vector_id, description, phases, []⟩).warp_total = [0, 0, 0] ∧
    (execute_iso16 ⟨vector_id, description, phases, []⟩).error_total = 0 ∧
    (execute_iso16 ⟨vector_id, description, phases, []⟩).phase_state_warped = phases ∧
    (execute_iso16 ⟨vector_id, description, phases, []⟩).error_ok = true ∧
    (∀ q : Phase, (∀ p ∈ phases, p = q) →
      (execute_iso16 ⟨vector_id, description, phases, []⟩).symmetry_ok = true ∧
      (execute_iso16 ⟨vector_id, description, phases, []⟩).true_delivery = true) := by
  have hw : apply_warp phases (eval_plugins []).1 = phases := apply_warp_zero phases hr
  refine ⟨rfl, rfl, hw, rfl, ?_⟩
  intro q hq
  have hget : ∀ j, j < 16 → phases.getD j default = q := by
    intro j hj
    apply hq
    rw [List.getD_eq_getElem _ _ (by omega)]
    exact List.getElem_mem _
  have hcs : check_symmetry phases = true := by
    rw [check_symmetry_eq_true_iff]
    refine ⟨hlen, fun i hi => ?_⟩
    unfold check_symmetry_pair
    simp only [hget i (by omega), hget (i + 1) (by omega), q16_pair_self, Bool.and_self]
  constructor
  · show check_symmetry (apply_warp phases (eval_plugins []).1) = true
    rw [hw, hcs]
  · show (check_symmetry (apply_warp phases (eval_plugins []).1) && _) = true
    rw [hw, hcs]
    rfl

theorem execute_iso16_zero_plugins_witness :
    (execute_iso16 zero_vector).warp_total = [0, 0, 0] ∧
    (execute_iso16 zero_vector).error_total = 0 ∧
    (execute_iso16 zero_vector).phase_state_warped = zero_vector.initial_phase_state ∧
    (execute_iso16 zero_vector).error_ok = true ∧
    (execute_iso16 zero_vector).symmetry_ok = true ∧
    (execute_iso16 zero_vector).true_delivery = true :=
  have h := execute_iso16_zero_plugins (ascii "V0001") [] (List.replicate 16 ⟨0, 0, 0⟩)
    (by decide) (by decide)
  ⟨h.1, h.2.1, h.2.2.1, h.2.2.2.1, h.2.2.2.2 ⟨0, 0, 0⟩ (by decide)⟩

/-! ## Output comparison and exit status -/

theorem phases_equal_iff (a b : List Phase) : phases_equal a b = true ↔ a = b := by
  unfold phases_equal
  constructor
  · intro h
    by_cases hl : a.length = b.length
    · simp only [hl, bne_self_eq_false, Bool.false_eq_true, ↓reduceIte, List.all_eq_true,
        List.mem_range, Bool.not_eq_true', Bool.or_eq_false_iff, bne_eq_false_iff_eq] at h
      apply List.ext_getElem hl
      intro i h1 h2
      have hi := h i (by omega)
      rw [List.getD_eq_getElem _ _ h1, List.getD_eq_getElem _ _ h2] at hi
      cases hx : a[i]
      cases hy : b[i]
      rw [hx, hy] at hi
      simp only at hi
      obtain ⟨⟨e1, e2⟩, e3⟩ := hi
      rw [e1, e2, e3]
    · simp [hl] at h
  · intro h
    subst h
    simp

theorem warp_total_eq_iff (a e : List Int) (he : e.length = 3) :
    (a.length != 3 || a.getD 0 0 != e.getD 0 0 || a.getD 1 0 != e.getD 1 0 ||
      a.getD 2 0 != e.getD 2 0) = true ↔ a ≠ e := by
  match e, he with
  | [e0, e1, e2], _ =>
    match a with
    | [] => simp
    | [_] => simp
    | [_, _] => simp
    | [a0, a1, a2] =>
      simp only [List.length_cons, List.length_nil, List.getD_cons_zero, List.getD_cons_succ,
        Bool.or_eq_true, bne_iff_ne, ne_eq, List.cons.injEq, and_true, not_and]
      constructor
      · rintro (((h | h) | h) | h) h0 h1
        · exact absurd trivial h
        · exact absurd h0 h
        · exact absurd h1 h
        · exact h
      · intro h
        by_cases h0 : a0 = e0
        · by_cases h1 : a1 = e1
          · exact Or.inr (h h0 h1)
          · exact Or.inl (Or.inr h1)
        · exact Or.inl (Or.inl (Or.inr h0))
    | _ :: _ :: _ :: _ :: _ => simp

/-- C19 (amended): starting from an empty mismatch list, and with an expected warp total of
three entries, `compare_results` returns the names of the differing fields among
`warp_total`, `error_total`, `phase_state_warped`, `symmetry_ok`, `error_ok`, `true_delivery`,
in this order, one name per differing field; the list is therefore empty if and only if these
six fields of the actual output equal the expected ones.  The expected seal string takes no
part. -/
theorem compare_results_names (actual : ActualOutput) (expected : ExpectedOutput)
    (h3 : expected.warp_total.length = 3) :
    compare_results actual expected [] =
      (if actual.warp_total = expected.warp_total then [] else [ascii "warp_total"]) ++
      (if actual.error_total = expected.error_total then [] else [ascii "error_total"]) ++
      (if actual.phase_state_warped = expected.phase_state_warped then []
        else [ascii "phase_state_warped"]) ++
      (if actual.symmetry_ok = expected.symmetry_ok then [] else [ascii "symmetry_ok"]) ++
      (if actual.error_ok = expected.error_ok then [] else [ascii "error_ok"]) ++
      (if actual.true_delivery = expected.true_delivery then [] else [ascii "true_delivery"]) ∧
    (compare_results actual expected [] = [] ↔
      actual.warp_total = expected.warp_total ∧
      actual.error_total = expected.error_total ∧
      actual.phase_state_warped = expected.phase_state_warped ∧
      actual.symmetry_ok = expected.symmetry_ok ∧
      actual.error_ok = expected.error_ok ∧
      actual.true_delivery = expected.true_delivery) := by
  have key : compare_results actual expected [] =
      (if actual.warp_total = expected.warp_total then [] else [ascii "warp_total"]) ++
      (if actual.error_total = expected.error_total then [] else [ascii "error_total"]) ++
      (if actual.phase_state_warped = expected.phase_state_warped then []
        else [ascii "phase_state_warped"]) ++
      (if actual.symmetry_ok = expected.symmetry_ok then [] else [ascii "symmetry_ok"]) ++
      (if actual.error_ok = expected.error_ok then [] else [ascii "error_ok"]) ++
      (if actual.true_delivery = expected.true_delivery then [] else [ascii "true_delivery"]) := by
    unfold compare_results
    have hw := warp_total_eq_iff actual.warp_total expected.warp_total h3
    have hp := phases_equal_iff actual.phase_state_warped expected.phase_state_warped
    by_cases c1 : actual.warp_total = expected.warp_total <;>
    by_cases c2 : actual.error_total = expected.error_total <;>
    by_cases c3 : actual.phase_state_warped = expected.phase_state_warped <;>
    by_cases c4 : actual.symmetry_ok = expected.symmetry_ok <;>
    by_cases c5 : actual.error_ok = expected.error_ok <;>
    by_cases c6 : actual.true_delivery = expected.true_delivery <;>
    simp_all
  refine ⟨key, ?_⟩
  rw [key]
  by_cases c1 : actual.warp_total = expected.warp_total <;>
  by_cases c2 : actual.error_total = expected.error_total <;>
  by_cases c3 : actual.phase_state_warped = expected.phase_state_warped <;>
  by_cases c4 : actual.symmetry_ok = expected.symmetry_ok <;>
  by_cases c5 : actual.error_ok = expected.error_ok <;>
  by_cases c6 : actual.true_delivery = expected.true_delivery <;>
  simp [c1, c2, c3, c4, c5, c6]

theorem compare_results_names_witness :
    compare_results zero_actual wrong_error_expected [] = [ascii "error_total"] ∧
    (compare_results zero_actual (zero_expected (ascii "00")) [] = [] ↔
      zero_actual.warp_total = (zero_expected (ascii "00")).warp_total ∧
      zero_actual.error_total = (zero_expected (ascii "00")).error_total ∧
      zero_actual.phase_state_warped = (zero_expected (ascii "00")).phase_state_warped ∧
      zero_actual.symmetry_ok = (zero_expected (ascii "00")).symmetry_ok ∧
      zero_actual.error_ok = (zero_expected (ascii "00")).error_ok ∧
      zero_actual.true_delivery = (zero_expected (ascii "00")).true_delivery) :=
  ⟨(compare_results_names zero_actual wrong_error_expected (by decide)).1.trans (by decide),
   (compare_results_names zero_actual (zero_expected (ascii "00")) (by decide)).2⟩

/-- C19 (counterexample): `zero_actual` is what `execute_iso16` returns on `zero_vector`.  Two
expected outputs that agree with it on the six fields of `ActualOutput` and carry two different
seal strings both leave the mismatch list empty: the comparison succeeds whatever the expected
seal is, so it does not require the seal to be equal. -/
theorem compare_results_ignores_seal :
    execute_iso16 zero_vector = zero_actual ∧
    (zero_expected (ascii "00")).tetra_seal ≠ (zero_expected (ascii "ff")).tetra_seal ∧
    compare_results zero_actual (zero_expected (ascii "00")) [] = [] ∧
    compare_results zero_actual (zero_expected (ascii "ff")) [] = [] := by
  refine ⟨by decide, by decide, by decide, by decide⟩

/-- C20 (failing input): with three arguments, both files loaded and an expected output that
differs from the actual one in `error_total`, the mismatch list is not empty and `main`
nevertheless returns 0; it returns 0 whenever both files load, and 1 on a load error. -/
theorem main_returns_zero_on_mismatch :
    compare_results (execute_iso16 zero_vector) wrong_error_expected [] = [ascii "error_total"] ∧
    runner_main 3 (Except.ok (zero_vector, wrong_error_expected)) = 0 ∧
    (∀ vec expected, runner_main 3 (Except.ok (vec, expected)) = 0) ∧
    (∀ e, runner_main 3 (Except.error e) = 1) := by
  refine ⟨by decide, by decide, fun vec expected => ?_, fun e => rfl⟩
  simp [runner_main]

/-! ## Encoding failure and the seal string -/

theorem canonical_serialize_ok
    (initial_phase_state : List iso16.Array3) (plugins : List iso16.Plugin)
    (warp_total : iso16.Array3) (error_total : Int) (phase_state_warped : List iso16.Array3)
    (symmetry_ok error_ok true_delivery : Bool) (implementation_id : CppString)
    (timestamp : Nat) (nonce : List Nat)
    (hplugins : ∀ p ∈ plugins, p.id.length ≤ 255 ∧ p.version.length ≤ 255) :
    iso16.canonical_serialize initial_phase_state plugins warp_total error_total
        phase_state_warped symmetry_ok error_ok true_delivery implementation_id timestamp nonce =
      Except.ok (spec_canonical_bytes initial_phase_state plugins warp_total error_total
        phase_state_warped symmetry_ok error_ok true_delivery implementation_id timestamp nonce) := by
  unfold iso16.canonical_serialize
  simp only [foldl_append_phase_eq, List.nil_append]
  rw [foldlM_append_plugin_ok _ _ hplugins]
  simp only [bind, Except.bind, pure, Except.pure, append_be32_eq, foldl_append_phase_eq,
    append_bool_eq, iso16.append_string, append_be64_eq, spec_canonical_bytes,
    List.append_assoc, List.cons_append, List.nil_append]

theorem append_length_prefixed_string_error (out : List Nat) (s : CppString)
    (h : 255 < s.length) :
    iso16.append_length_prefixed_string out s =
      Except.error "String too long for canonical encoding" := by
  unfold iso16.append_length_prefixed_string
  rw [if_pos (by omega)]

theorem append_plugin_error (out : List Nat) (p : iso16.Plugin)
    (h : 255 < p.id.length ∨ 255 < p.version.length) :
    iso16.append_plugin out p = Except.error "String too long for canonical encoding" := by
  unfold iso16.append_plugin
  by_cases hid : 255 < p.id.length
  · rw [append_length_prefixed_string_error _ _ hid]
    rfl
  · rw [append_length_prefixed_string_ok _ _ (by omega)]
    simp only [bind, Except.bind]
    rw [append_length_prefixed_string_error _ _ (by omega)]

theorem foldlM_append_plugin_error (ps : List iso16.Plugin) (out : List Nat)
    (h : ∃ p ∈ ps, 255 < p.id.length ∨ 255 < p.version.length) :
    ps.foldlM iso16.append_plugin out =
      Except.error "String too long for canonical encoding" := by
  induction ps generalizing out with
  | nil => simp at h
  | cons p ps ih =>
    rw [List.foldlM_cons]
    by_cases hp : 255 < p.id.length ∨ 255 < p.version.length
    · rw [append_plugin_error _ _ hp]
      rfl
    · rw [append_plugin_ok _ _ (by omega)]
      simp only [bind, Except.bind]
      apply ih
      obtain ⟨q, hq, hbad⟩ := h
      rcases List.mem_cons.mp hq with rfl | hq
      · exact absurd hbad hp
      · exact ⟨q, hq, hbad⟩

theorem canonical_serialize_error
    (initial_phase_state : List iso16.Array3) (plugins : List iso16.Plugin)
    (warp_total : iso16.Array3) (error_total : Int) (phase_state_warped : List iso16.Array3)
    (symmetry_ok error_ok true_delivery : Bool) (implementation_id : CppString)
    (timestamp : Nat) (nonce : List Nat)
    (h : ∃ p ∈ plugins, 255 < p.id.length ∨ 255 < p.version.length) :
    iso16.canonical_serialize initial_phase_state plugins warp_total error_total
        phase_state_warped symmetry_ok error_ok true_delivery implementation_id timestamp nonce =
      Except.error "String too long for canonical encoding" := by
  unfold iso16.canonical_serialize
  simp only [foldl_append_phase_eq, List.nil_append]
  rw [foldlM_append_plugin_error _ _ h]
  rfl

theorem hex_fold_eq (digest : List Nat) (acc : CppString) (h : ∀ b ∈ digest, b < 256) :
    digest.foldl
      (fun hexout b =>
        (hexout ++ [(ascii "0123456789abcdef").getD ((b / 16) % 16) 0]) ++
          [(ascii "0123456789abcdef").getD (b % 16) 0]) acc =
      acc ++ spec_hex digest := by
  induction digest generalizing acc with
  | nil => simp [spec_hex]
  | cons b l ih =>
    have hb : b < 256 := h b (List.mem_cons_self _ _)
    have hd : ∀ d, d < 16 → (ascii "0123456789abcdef").getD d 0 = spec_hex_digit d := by
      decide
    rw [List.foldl_cons, ih _ (fun c hc => h c (List.mem_cons_of_mem _ hc)),
      hd _ (Nat.mod_lt _ (by decide)), hd _ (Nat.mod_lt _ (by decide)),
      Nat.mod_eq_of_lt (show b / 16 < 16 by omega)]
    simp [spec_hex]

theorem spec_hex_length (bytes : List Nat) : (spec_hex bytes).length = 2 * bytes.length := by
  induction bytes with
  | nil => rfl
  | cons b l ih =>
    have : spec_hex (b :: l) = spec_hex_digit (b / 16) :: spec_hex_digit (b % 16) :: spec_hex l := by
      simp [spec_hex]
    rw [this, List.length_cons, List.length_cons, ih, List.length_cons]
    omega

theorem spec_hex_digit_mem (d : Nat) (h : d < 16) : spec_hex_digit d ∈ spec_hex_digits := by
  revert d
  decide

theorem spec_hex_mem (bytes : List Nat) (h : ∀ b ∈ bytes, b < 256) :
    ∀ c ∈ spec_hex bytes, c ∈ spec_hex_digits := by
  induction bytes with
  | nil => intro c hc; simp [spec_hex] at hc
  | cons b l ih =>
    have hb : b < 256 := h b (List.mem_cons_self _ _)
    have e : spec_hex (b :: l) = spec_hex_digit (b / 16) :: spec_hex_digit (b % 16) :: spec_hex l := by
      simp [spec_hex]
    intro c hc
    rw [e] at hc
    rcases List.mem_cons.mp hc with rfl | hc
    · exact spec_hex_digit_mem _ (by omega)
    · rcases List.mem_cons.mp hc with rfl | hc
      · exact spec_hex_digit_mem _ (Nat.mod_lt _ (by decide))
      · exact ih (fun c hc => h c (List.mem_cons_of_mem _ hc)) c hc

theorem canonical_serialize_and_hash_eq_fold
    (initial_phase_state : List iso16.Array3) (plugins : List iso16.Plugin)
    (warp_total : iso16.Array3) (error_total : Int) (phase_state_warped : List iso16.Array3)
    (symmetry_ok error_ok true_delivery : Bool) (implementation_id : CppString)
    (timestamp : Nat) (nonce : List Nat) (sha3_256 : List Nat → List Nat) :
    iso16.canonical_serialize_and_hash initial_phase_state plugins warp_total error_total
        phase_state_warped symmetry_ok error_ok true_delivery implementation_id timestamp nonce
        sha3_256 =
      (iso16.canonical_serialize initial_phase_state plugins warp_total error_total
        phase_state_warped symmetry_ok error_ok true_delivery implementation_id timestamp
        nonce).map (fun body =>
          (sha3_256 (ascii "ISO16-SEAL-V1:" ++ body)).foldl
            (fun hexout b =>
              (hexout ++ [(ascii "0123456789abcdef").getD ((b / 16) % 16) 0]) ++
                [(ascii "0123456789abcdef").getD (b % 16) 0]) []) := by
  unfold iso16.canonical_serialize_and_hash
  cases iso16.canonical_serialize initial_phase_state plugins warp_total error_total
      phase_state_warped symmetry_ok error_ok true_delivery implementation_id timestamp nonce with
  | error e => rfl
  | ok body => rfl

theorem canonical_serialize_and_hash_eq_map
    (initial_phase_state : List iso16.Array3) (plugins : List iso16.Plugin)
    (warp_total : iso16.Array3) (error_total : Int) (phase_state_warped : List iso16.Array3)
    (symmetry_ok error_ok true_delivery : Bool) (implementation_id : CppString)
    (timestamp : Nat) (nonce : List Nat) (sha3_256 : List Nat → List Nat)
    (hbyte : ∀ m, ∀ b ∈ sha3_256 m, b < 256) :
    iso16.canonical_serialize_and_hash initial_phase_state plugins warp_total error_total
        phase_state_warped symmetry_ok error_ok true_delivery implementation_id timestamp nonce
        sha3_256 =
      (iso16.canonical_serialize initial_phase_state plugins warp_total error_total
        phase_state_warped symmetry_ok error_ok true_delivery implementation_id timestamp
        nonce).map (fun body => spec_hex (sha3_256 (ascii "ISO16-SEAL-V1:" ++ body))) := by
  rw [canonical_serialize_and_hash_eq_fold]
  congr 1
  funext body
  rw [hex_fold_eq _ _ (hbyte _)]
  simp

/-- C14: for every digest function returning 32 bytes, `canonical_serialize_and_hash` returns,
whenever `canonical_serialize` returns bytes (otherwise its exception propagates), the
hexadecimal rendering, two characters per byte and high nibble first, of the digest function
applied to the 14 ASCII bytes "ISO16-SEAL-V1:" followed by those bytes; the result has exactly
64 characters, each in `0-9` or `a-f`. -/
theorem canonical_serialize_and_hash_hex
    (initial_phase_state : List iso16.Array3) (plugins : List iso16.Plugin)
    (warp_total : iso16.Array3) (error_total : Int) (phase_state_warped : List iso16.Array3)
    (symmetry_ok error_ok true_delivery : Bool) (implementation_id : CppString)
    (timestamp : Nat) (nonce : List Nat) (sha3_256 : List Nat → List Nat)
    (hlen : ∀ m, (sha3_256 m).length = 32) (hbyte : ∀ m, ∀ b ∈ sha3_256 m, b < 256) :
    iso16.canonical_serialize_and_hash initial_phase_state plugins warp_total error_total
        phase_state_warped symmetry_ok error_ok true_delivery implementation_id timestamp nonce
        sha3_256 =
      (iso16.canonical_serialize initial_phase_state plugins warp_total error_total
        phase_state_warped symmetry_ok error_ok true_delivery implementation_id timestamp
        nonce).map (fun body => spec_hex (sha3_256 (ascii "ISO16-SEAL-V1:" ++ body))) ∧
    (ascii "ISO16-SEAL-V1:").length = 14 ∧
    ((∀ p ∈ plugins, p.id.length ≤ 255 ∧ p.version.length ≤ 255) →
      ∃ hexout, iso16.canonical_serialize_and_hash initial_phase_state plugins warp_total
        error_total phase_state_warped symmetry_ok error_ok true_delivery implementation_id
        timestamp nonce sha3_256 = Except.ok hexout) ∧
    (∀ hexout, iso16.canonical_serialize_and_hash initial_phase_state plugins warp_total
        error_total phase_state_warped symmetry_ok error_ok true_delivery implementation_id
        timestamp nonce sha3_256 = Except.ok hexout →
      hexout.length = 64 ∧ ∀ c ∈ hexout, c ∈ spec_hex_digits) := by
  have key := canonical_serialize_and_hash_eq_map initial_phase_state plugins warp_total
    error_total phase_state_warped symmetry_ok error_ok true_delivery implementation_id
    timestamp nonce sha3_256 hbyte
  refine ⟨key, by decide, ?_, ?_⟩
  · intro hp
    rw [key, canonical_serialize_ok _ _ _ _ _ _ _ _ _ _ _ hp]
    exact ⟨_, rfl⟩
  · intro hexout h
    rw [key] at h
    cases hc : iso16.canonical_serialize initial_phase_state plugins warp_total error_total
        phase_state_warped symmetry_ok error_ok true_delivery implementation_id timestamp nonce with
    | error e => rw [hc] at h; cases h
    | ok body =>
      rw [hc] at h
      simp only [Except.map, Except.ok.injEq] at h
      subst h
      exact ⟨by rw [spec_hex_length, hlen], spec_hex_mem _ (hbyte _)⟩

theorem length_digest_length (m : List Nat) : (length_digest m).length = 32 := by
  simp [length_digest]

theorem length_digest_byte (m : List Nat) : ∀ b ∈ length_digest m, b < 256 := by
  intro b hb
  rw [length_digest, List.mem_replicate] at hb
  omega

theorem canonical_serialize_and_hash_hex_witness :
    ∃ hexout, iso16.canonical_serialize_and_hash sample_seal_phases sample_seal_plugins
        (1, 2, 3) 4 sample_seal_phases true false false (ascii "impl") 1700000000
        (List.range 16) length_digest = Except.ok hexout ∧
      hexout.length = 64 ∧ ∀ c ∈ hexout, c ∈ spec_hex_digits :=
  have h := canonical_serialize_and_hash_hex sample_seal_phases sample_seal_plugins
    (1, 2, 3) 4 sample_seal_phases true false false (ascii "impl") 1700000000
    (List.range 16) length_digest length_digest_length length_digest_byte
  have ⟨hexout, hx⟩ := h.2.2.1 (by decide)
  ⟨hexout, hx, h.2.2.2 hexout hx⟩

/-- C13: `canonical_serialize`, and hence `canonical_serialize_and_hash`, fails with an error
if and only if some plugin's identifier or version string is longer than 255 bytes; on every
other input both succeed; a string of exactly 255 bytes is encoded as the length byte `0xFF`
followed by its bytes. -/
theorem canonical_serialize_fails_iff
    (initial_phase_state : List iso16.Array3) (plugins : List iso16.Plugin)
    (warp_total : iso16.Array3) (error_total : Int) (phase_state_warped : List iso16.Array3)
    (symmetry_ok error_ok true_delivery : Bool) (implementation_id : CppString)
    (timestamp : Nat) (nonce : List Nat) (sha3_256 : List Nat → List Nat) :
    ((∃ e, iso16.canonical_serialize initial_phase_state plugins warp_total error_total
        phase_state_warped symmetry_ok error_ok true_delivery implementation_id timestamp
        nonce = Except.error e) ↔
      ∃ p ∈ plugins, 255 < p.id.length ∨ 255 < p.version.length) ∧
    ((∃ e, iso16.canonical_serialize_and_hash initial_phase_state plugins warp_total error_total
        phase_state_warped symmetry_ok error_ok true_delivery implementation_id timestamp
        nonce sha3_256 = Except.error e) ↔
      ∃ p ∈ plugins, 255 < p.id.length ∨ 255 < p.version.length) ∧
    ((¬ ∃ p ∈ plugins, 255 < p.id.length ∨ 255 < p.version.length) →
      (∃ bytes, iso16.canonical_serialize initial_phase_state plugins warp_total error_total
        phase_state_warped symmetry_ok error_ok true_delivery implementation_id timestamp
        nonce = Except.ok bytes) ∧
      (∃ hexout, iso16.canonical_serialize_and_hash initial_phase_state plugins warp_total
        error_total phase_state_warped symmetry_ok error_ok true_delivery implementation_id
        timestamp nonce sha3_256 = Except.ok hexout)) ∧
    (∀ (out : List Nat) (s : CppString), s.length = 255 →
      iso16.append_length_prefixed_string out s = Except.ok (out ++ [0xFF] ++ s)) := by
  have key := canonical_serialize_and_hash_eq_fold initial_phase_state plugins warp_total
    error_total phase_state_warped symmetry_ok error_ok true_delivery implementation_id
    timestamp nonce sha3_256
  by_cases h : ∃ p ∈ plugins, 255 < p.id.length ∨ 255 < p.version.length
  · have he := canonical_serialize_error initial_phase_state plugins warp_total error_total
      phase_state_warped symmetry_ok error_ok true_delivery implementation_id timestamp nonce h
    refine ⟨⟨fun _ => h, fun _ => ⟨_, he⟩⟩, ⟨fun _ => h, fun _ => ?_⟩, fun hn => absurd h hn, ?_⟩
    · rw [key, he]
      exact ⟨_, rfl⟩
    · intro out s hs
      rw [append_length_prefixed_string_ok _ _ (by omega), hs]
  · have hp : ∀ p ∈ plugins, p.id.length ≤ 255 ∧ p.version.length ≤ 255 := by
      intro p hp
      by_contra hc
      exact h ⟨p, hp, by omega⟩
    have hok := canonical_serialize_ok initial_phase_state plugins warp_total error_total
      phase_state_warped symmetry_ok error_ok true_delivery implementation_id timestamp nonce hp
    refine ⟨⟨?_, fun hh => absurd hh h⟩, ⟨?_, fun hh => absurd hh h⟩, fun _ => ⟨⟨_, hok⟩, ?_⟩, ?_⟩
    · rintro ⟨e, he⟩
      rw [hok] at he
      cases he
    · rintro ⟨e, he⟩
      rw [key, hok] at he
      cases he
    · rw [key, hok]
      exact ⟨_, rfl⟩
    · intro out s hs
      rw [append_length_prefixed_string_ok _ _ (by omega), hs]

theorem canonical_serialize_fails_iff_witness :
    (∃ e, iso16.canonical_serialize sample_seal_phases [long_id_plugin] (1, 2, 3) 4
        sample_seal_phases true false false (ascii "impl") 1700000000 (List.range 16) =
        Except.error e) ∧
    (∃ e, iso16.canonical_serialize_and_hash sample_seal_phases [long_id_plugin] (1, 2, 3) 4
        sample_seal_phases true false false (ascii "impl") 1700000000 (List.range 16)
        length_digest = Except.error e) ∧
    iso16.append_length_prefixed_string [] (List.replicate 255 97) =
      Except.ok ([] ++ [0xFF] ++ List.replicate 255 97) :=
  have h := canonical_serialize_fails_iff sample_seal_phases [long_id_plugin] (1, 2, 3) 4
    sample_seal_phases true false false (ascii "impl") 1700000000 (List.range 16)
    length_digest
  have hbad : ∃ p ∈ [long_id_plugin], 255 < p.id.length ∨ 255 < p.version.length :=
    ⟨long_id_plugin, List.mem_singleton_self _, Or.inl (by rw [long_id_plugin, List.length_replicate]; omega)⟩
  ⟨h.1.mpr hbad, h.2.1.mpr hbad, h.2.2.2 [] (List.replicate 255 97) (List.length_replicate 255 97)⟩

/-! ## Order of the plugin records in the encoding -/

/-- C11 (counterexample): `canonical_serialize` does not sort.  On the plugin list
`[zeta, alpha]` and on its permutation `[alpha, zeta]`, all other arguments equal, it returns
two different byte sequences: byte 192, the first after the initial phase state, is the id
length 4 of "zeta" in one and the id length 5 of "alpha" in the other. -/
theorem canonical_serialize_order_dependent :
    List.Perm [seal_plugin_zeta, seal_plugin_alpha] [seal_plugin_alpha, seal_plugin_zeta] ∧
    iso16.canonical_serialize sample_seal_phases [seal_plugin_zeta, seal_plugin_alpha] (1, 2, 3)
        4 sample_seal_phases true false false (ascii "impl") 1700000000 (List.range 16) ≠
      iso16.canonical_serialize sample_seal_phases [seal_plugin_alpha, seal_plugin_zeta]
        (1, 2, 3) 4 sample_seal_phases true false false (ascii "impl") 1700000000
        (List.range 16) ∧
    (iso16.canonical_serialize sample_seal_phases [seal_plugin_zeta, seal_plugin_alpha] (1, 2, 3)
        4 sample_seal_phases true false false (ascii "impl") 1700000000 (List.range 16)).map
        (fun bytes => bytes.getD 192 0) = Except.ok 4 ∧
    (iso16.canonical_serialize sample_seal_phases [seal_plugin_alpha, seal_plugin_zeta] (1, 2, 3)
        4 sample_seal_phases true false false (ascii "impl") 1700000000 (List.range 16)).map
        (fun bytes => bytes.getD 192 0) = Except.ok 5 := by
  have h1 : (iso16.canonical_serialize sample_seal_phases [seal_plugin_zeta, seal_plugin_alpha]
      (1, 2, 3) 4 sample_seal_phases true false false (ascii "impl") 1700000000
      (List.range 16)).map (fun bytes => bytes.getD 192 0) = Except.ok 4 := by
    rw [canonical_serialize_ok _ _ _ _ _ _ _ _ _ _ _ (by decide)]
    exact congrArg Except.ok (by decide)
  have h2 : (iso16.canonical_serialize sample_seal_phases [seal_plugin_alpha, seal_plugin_zeta]
      (1, 2, 3) 4 sample_seal_phases true false false (ascii "impl") 1700000000
      (List.range 16)).map (fun bytes => bytes.getD 192 0) = Except.ok 5 := by
    rw [canonical_serialize_ok _ _ _ _ _ _ _ _ _ _ _ (by decide)]
    exact congrArg Except.ok (by decide)
  refine ⟨List.Perm.swap _ _ _, ?_, h1, h2⟩
  intro h
  rw [h, h2] at h1
  exact absurd (Except.ok.inj h1) (by decide)

theorem plugin_id_lt_asymm {p q : iso16.Plugin} (h1 : plugin_id_lt p q)
    (h2 : plugin_id_lt q p) : False := by
  unfold plugin_id_lt at h1 h2
  exact asymm h1 h2

theorem sorted_perm_plugins_eq (ps qs : List iso16.Plugin) (hperm : List.Perm ps qs)
    (hps : List.Pairwise plugin_id_lt ps) (hqs : List.Pairwise plugin_id_lt qs) : ps = qs := by
  have hanti : IsAntisymm iso16.Plugin plugin_id_lt :=
    ⟨fun _ _ h1 h2 => (plugin_id_lt_asymm h1 h2).elim⟩
  exact List.eq_of_perm_of_sorted hperm hps hqs

/-! ## Injectivity of the encoding -/

theorem spec_be32_append_inj {a b : Int} {r1 r2 : List Nat} (ha : IsInt32 a) (hb : IsInt32 b)
    (h : spec_be32 a ++ r1 = spec_be32 b ++ r2) : a = b ∧ r1 = r2 := by
  obtain ⟨h1, h2⟩ := List.append_inj h rfl
  refine ⟨?_, h2⟩
  unfold IsInt32 at ha hb
  simp only [spec_be32, List.cons.injEq, and_true] at h1
  obtain ⟨h0, h1, h2, h3⟩ := h1
  omega

theorem spec_be64_append_inj {a b : Nat} {r1 r2 : List Nat}
    (ha : a < 18446744073709551616) (hb : b < 18446744073709551616)
    (h : spec_be64 a ++ r1 = spec_be64 b ++ r2) : a = b ∧ r1 = r2 := by
  obtain ⟨h1, h2⟩ := List.append_inj h rfl
  refine ⟨?_, h2⟩
  simp only [spec_be64, List.cons.injEq, and_true] at h1
  obtain ⟨h0, h1, h2, h3, h4, h5, h6, h7⟩ := h1
  omega

theorem spec_bool_byte_inj {a b : Bool} (h : spec_bool_byte a = spec_bool_byte b) : a = b := by
  revert h
  cases a <;> cases b <;> decide

theorem spec_phase_bytes_append_inj {p q : iso16.Array3} {r1 r2 : List Nat}
    (hp : Array3InRange p) (hq : Array3InRange q)
    (h : spec_phase_bytes p ++ r1 = spec_phase_bytes q ++ r2) : p = q ∧ r1 = r2 := by
  obtain ⟨p0, p1, p2⟩ := p
  obtain ⟨q0, q1, q2⟩ := q
  simp only [spec_phase_bytes, List.append_assoc] at h
  obtain ⟨e0, h⟩ := spec_be32_append_inj hp.1 hq.1 h
  obtain ⟨e1, h⟩ := spec_be32_append_inj hp.2.1 hq.2.1 h
  obtain ⟨e2, h⟩ := spec_be32_append_inj hp.2.2 hq.2.2 h
  simp only at e0 e1 e2
  exact ⟨by rw [e0, e1, e2], h⟩

theorem phases_bytes_append_inj (l1 l2 : List iso16.Array3) (r1 r2 : List Nat)
    (hl : l1.length = l2.length)
    (h1 : ∀ p ∈ l1, Array3InRange p) (h2 : ∀ p ∈ l2, Array3InRange p)
    (h : (l1.map spec_phase_bytes).flatten ++ r1 = (l2.map spec_phase_bytes).flatten ++ r2) :
    l1 = l2 ∧ r1 = r2 := by
  induction l1 generalizing l2 with
  | nil =>
    cases l2 with
    | nil => exact ⟨rfl, by simpa using h⟩
    | cons q l2 => simp at hl
  | cons p l1 ih =>
    cases l2 with
    | nil => simp at hl
    | cons q l2 =>
      simp only [List.map_cons, List.flatten_cons, List.append_assoc] at h
      obtain ⟨e, h⟩ := spec_phase_bytes_append_inj (h1 p (List.mem_cons_self _ _))
        (h2 q (List.mem_cons_self _ _)) h
      obtain ⟨el, er⟩ := ih l2 (by simpa using hl)
        (fun x hx => h1 x (List.mem_cons_of_mem _ hx))
        (fun x hx => h2 x (List.mem_cons_of_mem _ hx)) h
      exact ⟨by rw [e, el], er⟩

theorem spec_plugin_bytes_append_inj {p q : iso16.Plugin} {r1 r2 : List Nat}
    (hp : PluginInRange p) (hq : PluginInRange q)
    (h : spec_plugin_bytes p ++ r1 = spec_plugin_bytes q ++ r2) :
    same_encoded_fields p q ∧ r1 = r2 := by
  simp only [spec_plugin_bytes, List.append_assoc, List.singleton_append, List.cons_append,
    List.nil_append, List.cons.injEq] at h
  obtain ⟨hlen, h⟩ := h
  obtain ⟨eid, h⟩ := List.append_inj h hlen
  simp only [List.cons.injEq] at h
  obtain ⟨edc, h⟩ := h
  obtain ⟨ex, h⟩ := spec_be32_append_inj hp.1 hq.1 h
  obtain ⟨ey, h⟩ := spec_be32_append_inj hp.2.1 hq.2.1 h
  obtain ⟨ez, h⟩ := spec_be32_append_inj hp.2.2.1 hq.2.2.1 h
  obtain ⟨ee, h⟩ := spec_be32_append_inj hp.2.2.2 hq.2.2.2 h
  simp only [List.cons.injEq] at h
  obtain ⟨hvlen, h⟩ := h
  obtain ⟨ever, h⟩ := List.append_inj h hvlen
  exact ⟨⟨eid, edc, ex, ey, ez, ee, ever⟩, h⟩

theorem plugins_bytes_append_inj (l1 l2 : List iso16.Plugin) (r1 r2 : List Nat)
    (hl : l1.length = l2.length ∨ r1.length = r2.length)
    (h1 : ∀ p ∈ l1, PluginInRange p) (h2 : ∀ p ∈ l2, PluginInRange p)
    (h : (l1.map spec_plugin_bytes).flatten ++ r1 = (l2.map spec_plugin_bytes).flatten ++ r2) :
    List.Forall₂ same_encoded_fields l1 l2 ∧ r1 = r2 := by
  induction l1 generalizing l2 with
  | nil =>
    cases l2 with
    | nil => exact ⟨List.Forall₂.nil, by simpa using h⟩
    | cons q l2 =>
      exfalso
      have hlen := congrArg List.length h
      simp only [List.map_nil, List.flatten_nil, List.nil_append, List.map_cons,
        List.flatten_cons, List.length_append, spec_plugin_bytes_length] at hlen
      rcases hl with hl | hl
      · simp at hl
      · omega
  | cons p l1 ih =>
    cases l2 with
    | nil =>
      exfalso
      have hlen := congrArg List.length h
      simp only [List.map_nil, List.flatten_nil, List.nil_append, List.map_cons,
        List.flatten_cons, List.length_append, spec_plugin_bytes_length] at hlen
      rcases hl with hl | hl
      · simp at hl
      · omega
    | cons q l2 =>
      simp only [List.map_cons, List.flatten_cons, List.append_assoc] at h
      obtain ⟨e, h⟩ := spec_plugin_bytes_append_inj (h1 p (List.mem_cons_self _ _))
        (h2 q (List.mem_cons_self _ _)) h
      obtain ⟨el, er⟩ := ih l2 (hl.imp (fun hh => by simpa using hh) id)
        (fun x hx => h1 x (List.mem_cons_of_mem _ hx))
        (fun x hx => h2 x (List.mem_cons_of_mem _ hx)) h
      exact ⟨List.Forall₂.cons e el, er⟩

theorem spec_be64_length (v : Nat) : (spec_be64 v).length = 8 := rfl

/-- C12 (amended): the canonical encoding is injective on well-formed inputs that have the same
number of plugins or implementation identifiers of the same length: if `canonical_serialize`
returns the same byte sequence for two such inputs, they have the same initial and warped phase
states, plugin lists of the same length with pairwise equal id, domain code, warp, error and
version, the same warp totals, error total, three flags, implementation id, timestamp and
nonce. -/
theorem canonical_serialize_injective (s1 s2 : iso16.SealInput)
    (h1 : SealInputWellFormed s1) (h2 : SealInputWellFormed s2)
    (hcount : s1.plugins.length = s2.plugins.length ∨
      s1.implementation_id.length = s2.implementation_id.length)
    (h : s1.encode = s2.encode) :
    s1.initial_phase_state = s2.initial_phase_state ∧
    s1.phase_state_warped = s2.phase_state_warped ∧
    List.Forall₂ same_encoded_fields s1.plugins s2.plugins ∧
    s1.warp_total = s2.warp_total ∧
    s1.error_total = s2.error_total ∧
    s1.symmetry_ok = s2.symmetry_ok ∧
    s1.error_ok = s2.error_ok ∧
    s1.true_delivery = s2.true_delivery ∧
    s1.implementation_id = s2.implementation_id ∧
    s1.timestamp = s2.timestamp ∧
    s1.nonce = s2.nonce := by
  unfold iso16.SealInput.encode at h
  rw [canonical_serialize_ok _ _ _ _ _ _ _ _ _ _ _ h1.plugin_strings,
    canonical_serialize_ok _ _ _ _ _ _ _ _ _ _ _ h2.plugin_strings] at h
  have h := Except.ok.inj h
  simp only [spec_canonical_bytes, List.append_assoc, List.cons_append, List.nil_append] at h
  obtain ⟨einit, h⟩ := phases_bytes_append_inj _ _ _ _
    (h1.initial_length.trans h2.initial_length.symm) h1.initial_range h2.initial_range h
  have hrest : s1.plugins.length = s2.plugins.length ∨
      (spec_be32 s1.warp_total.1 ++ (spec_be32 s1.warp_total.2.1 ++ (spec_be32 s1.warp_total.2.2 ++
        (spec_be32 s1.error_total ++ ((s1.phase_state_warped.map spec_phase_bytes).flatten ++
          spec_bool_byte s1.symmetry_ok :: spec_bool_byte s1.error_ok ::
            spec_bool_byte s1.true_delivery ::
              (s1.implementation_id ++ (spec_be64 s1.timestamp ++ s1.nonce))))))).length =
      (spec_be32 s2.warp_total.1 ++ (spec_be32 s2.warp_total.2.1 ++ (spec_be32 s2.warp_total.2.2 ++
        (spec_be32 s2.error_total ++ ((s2.phase_state_warped.map spec_phase_bytes).flatten ++
          spec_bool_byte s2.symmetry_ok :: spec_bool_byte s2.error_ok ::
            spec_bool_byte s2.true_delivery ::
              (s2.implementation_id ++ (spec_be64 s2.timestamp ++ s2.nonce))))))).length := by
    refine hcount.imp id (fun hi => ?_)
    simp only [List.length_append, List.length_cons, spec_be32_length, phases_bytes_length,
      spec_be64_length, h1.warped_length, h2.warped_length, h1.nonce_length, h2.nonce_length, hi]
  obtain ⟨eplugins, h⟩ := plugins_bytes_append_inj _ _ _ _ hrest h1.plugin_range
    h2.plugin_range h
  obtain ⟨ew0, h⟩ := spec_be32_append_inj h1.warp_total_range.1 h2.warp_total_range.1 h
  obtain ⟨ew1, h⟩ := spec_be32_append_inj h1.warp_total_range.2.1 h2.warp_total_range.2.1 h
  obtain ⟨ew2, h⟩ := spec_be32_append_inj h1.warp_total_range.2.2 h2.warp_total_range.2.2 h
  obtain ⟨eerr, h⟩ := spec_be32_append_inj h1.error_total_range h2.error_total_range h
  obtain ⟨ewarped, h⟩ := phases_bytes_append_inj _ _ _ _
    (h1.warped_length.trans h2.warped_length.symm) h1.warped_range h2.warped_range h
  simp only [List.cons.injEq] at h
  obtain ⟨ef1, ef2, ef3, h⟩ := h
  have hright : (spec_be64 s1.timestamp ++ s1.nonce).length =
      (spec_be64 s2.timestamp ++ s2.nonce).length := by
    simp only [List.length_append, spec_be64_length, h1.nonce_length, h2.nonce_length]
  obtain ⟨eimpl, h⟩ := List.append_inj' h hright
  obtain ⟨ets, enonce⟩ := spec_be64_append_inj h1.timestamp_range h2.timestamp_range h
  exact ⟨einit, ewarped, eplugins, Prod.ext ew0 (Prod.ext ew1 ew2), eerr,
    spec_bool_byte_inj ef1, spec_bool_byte_inj ef2, spec_bool_byte_inj ef3, eimpl, ets, enonce⟩

theorem collide_no_plugin_wf : SealInputWellFormed collide_no_plugin :=
  ⟨by decide, by decide, by decide, by decide, by decide, by decide, by decide, by decide,
   by decide, by decide⟩

theorem collide_one_plugin_wf : SealInputWellFormed collide_one_plugin :=
  ⟨by decide, by decide, by decide, by decide, by decide, by decide, by decide, by decide,
   by decide, by decide⟩

theorem collide_drift_plugin_wf : SealInputWellFormed collide_drift_plugin :=
  ⟨by decide, by decide, by decide, by decide, by decide, by decide, by decide, by decide,
   by decide, by decide⟩

set_option maxRecDepth 8192 in
theorem canonical_serialize_injective_witness :
    collide_one_plugin ≠ collide_drift_plugin ∧
    collide_one_plugin.encode = collide_drift_plugin.encode ∧
    List.Forall₂ same_encoded_fields collide_one_plugin.plugins collide_drift_plugin.plugins ∧
    collide_one_plugin.implementation_id = collide_drift_plugin.implementation_id :=
  have henc : collide_one_plugin.encode = collide_drift_plugin.encode := by
    unfold iso16.SealInput.encode
    rw [canonical_serialize_ok _ _ _ _ _ _ _ _ _ _ _ collide_one_plugin_wf.plugin_strings,
      canonical_serialize_ok _ _ _ _ _ _ _ _ _ _ _ collide_drift_plugin_wf.plugin_strings]
    exact congrArg Except.ok (by decide)
  have h := canonical_serialize_injective collide_one_plugin collide_drift_plugin
    collide_one_plugin_wf collide_drift_plugin_wf (Or.inl rfl) henc
  ⟨by decide, henc, h.2.2.1, h.2.2.2.2.2.2.2.2.1⟩

set_option maxRecDepth 8192 in
/-- C12 (counterexample): `collide_no_plugin` and `collide_one_plugin` are two well-formed
inputs, with 16-entry phase states and strings of at most 255 bytes, for which
`canonical_serialize` returns the same 446 bytes, although one has no plugin and the other has
one, and their warp totals and implementation ids differ: the 19 bytes of the plugin record of
the second are read in the first as the start of the warp totals, and the end of the fixed
fields of the second as the implementation id of the first. -/
theorem canonical_serialize_collision :
    SealInputWellFormed collide_no_plugin ∧ SealInputWellFormed collide_one_plugin ∧
    collide_no_plugin.encode = collide_one_plugin.encode ∧
    (∃ bytes, collide_no_plugin.encode = Except.ok bytes ∧ bytes.length = 446) ∧
    collide_no_plugin.plugins.length ≠ collide_one_plugin.plugins.length ∧
    collide_no_plugin.warp_total ≠ collide_one_plugin.warp_total ∧
    collide_no_plugin.implementation_id ≠ collide_one_plugin.implementation_id := by
  have e1 := canonical_serialize_ok collide_no_plugin.initial_phase_state
    collide_no_plugin.plugins collide_no_plugin.warp_total collide_no_plugin.error_total
    collide_no_plugin.phase_state_warped collide_no_plugin.symmetry_ok
    collide_no_plugin.error_ok collide_no_plugin.true_delivery
    collide_no_plugin.implementation_id collide_no_plugin.timestamp collide_no_plugin.nonce
    collide_no_plugin_wf.plugin_strings
  have e2 := canonical_serialize_ok collide_one_plugin.initial_phase_state
    collide_one_plugin.plugins collide_one_plugin.warp_total collide_one_plugin.error_total
    collide_one_plugin.phase_state_warped collide_one_plugin.symmetry_ok
    collide_one_plugin.error_ok collide_one_plugin.true_delivery
    collide_one_plugin.implementation_id collide_one_plugin.timestamp collide_one_plugin.nonce
    collide_one_plugin_wf.plugin_strings
  refine ⟨collide_no_plugin_wf, collide_one_plugin_wf, ?_, ⟨_, e1, by decide⟩, by decide,
    by decide, by decide⟩
  unfold iso16.SealInput.encode
  rw [e1, e2]
  exact congrArg Except.ok (by decide)

/-! ## SHA3-256 test vectors -/

/-- C15: on a little-endian host, `sha3_256` of the empty message is
`a7ffc6f8bf1ed76651c14756a061d662f580ff4de43b49fa82d80a4b80f8434a` and `sha3_256` of the 3-byte
message "abc" is `3a985da74fe225b2045c172d6bd390bd855f086e3e9d525b46bfe24511431532`, the values
of the standard SHA3-256. -/
theorem sha3_256_test_vectors :
    spec_hex (iso16.sha3_256 []) =
      ascii "a7ffc6f8bf1ed76651c14756a061d662f580ff4de43b49fa82d80a4b80f8434a" ∧
    spec_hex (iso16.sha3_256 (ascii "abc")) =
      ascii "3a985da74fe225b2045c172d6bd390bd855f086e3e9d525b46bfe24511431532" := by
  decide!

/-! ## Phase states of a length other than 16 -/

/-- C21 (counterexample): on a phase state of 15 entries `check_symmetry` and `execute_iso16`
signal nothing: `check_symmetry` returns the verdict `false`, and `execute_iso16` returns a
complete output with totals, warped state, `symmetry_ok = false`, `error_ok = true` and the
decision `true_delivery = false`. -/
theorem short_phase_state_gets_verdict :
    short_vector.initial_phase_state.length = 15 ∧
    check_symmetry short_vector.initial_phase_state = false ∧
    execute_iso16 short_vector =
      { warp_total := [0, 0, 0], error_total := 0,
        phase_state_warped := List.replicate 15 { x := 0, y := 0, z := 0 },
        symmetry_ok := false, error_ok := true, true_delivery := false } := by
  decide

theorem apply_warp_length (phases : List Phase) (warp : List Int) :
    (apply_warp phases warp).length = phases.length := by
  rw [apply_warp_eq_map, List.length_map]

theorem check_symmetry_of_length_ne (phases : List Phase) (h : phases.length ≠ 16) :
    check_symmetry phases = false := by
  unfold check_symmetry
  simp [h]

/-- C21 (amended): a phase state whose length is not exactly 16 is rejected as a structural
error when the vector is loaded: `parse_vector` throws on an `initial_phase_state` array of any
other length.  `check_symmetry` and `execute_iso16` themselves signal no failure on such a
sequence: `check_symmetry` returns `false`, and `execute_iso16` returns an output with
`symmetry_ok = false` and `true_delivery = false`, whatever the plugins are. -/
theorem length_not_16 (phases : List Phase) (h : phases.length ≠ 16) :
    check_symmetry phases = false ∧
    (∀ (vector_id description : CppString) (plugins : List Plugin),
      (execute_iso16 ⟨vector_id, description, phases, plugins⟩).symmetry_ok = false ∧
      (execute_iso16 ⟨vector_id, description, phases, plugins⟩).true_delivery = false ∧
      (execute_iso16 ⟨vector_id, description, phases, plugins⟩).phase_state_warped.length =
        phases.length) ∧
    (∀ json : List (List Int), json.length = phases.length →
      parse_initial_phase_state json =
        Except.error "initial_phase_state must have 16 phases") := by
  refine ⟨check_symmetry_of_length_ne phases h, fun vid d ps => ?_, fun json hj => ?_⟩
  · have hs : check_symmetry (apply_warp phases (eval_plugins ps).1) = false :=
      check_symmetry_of_length_ne _ (by rw [apply_warp_length]; exact h)
    refine ⟨hs, ?_, apply_warp_length _ _⟩
    show (check_symmetry (apply_warp phases (eval_plugins ps).1) && _) = false
    rw [hs]
    rfl
  · unfold parse_initial_phase_state
    rw [if_pos]
    simp only [bne_iff_ne, ne_eq]
    rw [hj]
    exact h

theorem length_not_16_witness :
    check_symmetry short_vector.initial_phase_state = false ∧
    (execute_iso16 short_vector).symmetry_ok = false ∧
    (execute_iso16 short_vector).true_delivery = false ∧
    parse_initial_phase_state (List.replicate 15 [0, 0, 0]) =
      Except.error "initial_phase_state must have 16 phases" :=
  have h := length_not_16 short_vector.initial_phase_state (by decide)
  ⟨h.1, (h.2.1 (ascii "V-SHORT") [] []).1, (h.2.1 (ascii "V-SHORT") [] []).2.1,
   h.2.2 (List.replicate 15 [0, 0, 0]) (by decide)⟩

/-- Sanity of the loader model on 16 well-formed entries: it returns the 16 phases. -/
theorem parse_initial_phase_state_sixteen :
    parse_initial_phase_state (List.replicate 16 [1, 2, 3]) =
      Except.ok (List.replicate 16 { x := 1, y := 2, z := 3 }) := by
  rfl

/-! ## Invariance of the symmetry verdict under the warp -/

theorem q16_sub_add_add (a b w : Int) : q16_sub (iso16.add a w) (iso16.add b w) = q16_sub a b := by
  unfold q16_sub iso16.add iso16.to_int32 static_cast_q16
  simp only
  split <;> split <;> omega

theorem check_symmetry_pair_map (phases : List Phase) (w0 w1 w2 : Int) (i : Nat)
    (h : i + 1 < phases.length) :
    check_symmetry_pair
      (phases.map (fun p =>
        ({ x := iso16.add p.x w0, y := iso16.add p.y w1, z := iso16.add p.z w2 } : Phase))) i =
      check_symmetry_pair phases i := by
  unfold check_symmetry_pair
  rw [List.getD_eq_getElem _ _ (by rw [List.length_map]; omega),
    List.getD_eq_getElem _ _ (by rw [List.length_map]; omega),
    List.getD_eq_getElem _ _ (show i < phases.length by omega),
    List.getD_eq_getElem _ _ h]
  simp only [List.getElem_map, q16_sub_add_add]

theorem check_symmetry_apply_warp (phases : List Phase) (warp : List Int) :
    check_symmetry (apply_warp phases warp) = check_symmetry phases := by
  rw [apply_warp_eq_map]
  unfold check_symmetry
  rw [List.length_map]
  by_cases h : phases.length = 16
  · simp only [h, bne_self_eq_false, Bool.false_eq_true, ↓reduceIte]
    rw [Bool.eq_iff_iff, List.all_eq_true, List.all_eq_true]
    constructor
    · intro H i hi
      rw [← check_symmetry_pair_map phases _ _ _ i (by rw [List.mem_range] at hi; omega)]
      exact H i hi
    · intro H i hi
      rw [check_symmetry_pair_map phases _ _ _ i (by rw [List.mem_range] at hi; omega)]
      exact H i hi
  · simp [h]

/-- C25: the symmetry verdict is invariant under the warp: for every phase state `p` and every
warp `w`, `check_symmetry (apply_warp p w) = check_symmetry p`, wrapping included; hence the
`symmetry_ok` reported by `execute_iso16` is `check_symmetry` of the initial phase state,
whatever the plugins are. -/
theorem check_symmetry_warp_invariant (phases : List Phase) (warp : List Int) :
    check_symmetry (apply_warp phases warp) = check_symmetry phases ∧
    (∀ v : VectorInput, (execute_iso16 v).symmetry_ok = check_symmetry v.initial_phase_state) ∧
    (∀ (vector_id description : CppString) (plugins plugins2 : List Plugin),
      (execute_iso16 ⟨vector_id, description, phases, plugins⟩).symmetry_ok =
        (execute_iso16 ⟨vector_id, description, phases, plugins2⟩).symmetry_ok) := by
  refine ⟨check_symmetry_apply_warp phases warp, fun v => ?_, fun vid d ps qs => ?_⟩
  · exact check_symmetry_apply_warp v.initial_phase_state _
  · show check_symmetry (apply_warp phases _) = check_symmetry (apply_warp phases _)
    rw [check_symmetry_apply_warp, check_symmetry_apply_warp]

/-! ## Wrapped and exact error totals -/

/-- C23 (counterexample): two plugins with status OK and errors `2147483647` and `1`: the exact
sum of the errors is `2^31`, far above epsilon, the wrapped total is `-2^31`, and
`execute_iso16` reports `error_ok = true` (and `true_delivery = true`). -/
theorem error_ok_with_overflowed_total :
    (overflow_error_vector.plugins.map Plugin.error).sum = 2147483648 ∧
    (execute_iso16 overflow_error_vector).error_total = -2147483648 ∧
    (execute_iso16 overflow_error_vector).error_ok = true ∧
    (execute_iso16 overflow_error_vector).true_delivery = true := by
  decide

/-- C23 (amended): if `execute_iso16` reports `error_ok = true`, then the sum of the plugins'
error values wrapped to 32 bits is at most `EPSILON = 1`; the exact sum is at most 1 whenever it
is itself a 32-bit value, that is, when the accumulation did not overflow. -/
theorem error_ok_bounds_wrapped_total (v : VectorInput)
    (h : (execute_iso16 v).error_ok = true) :
    iso16.to_int32 (v.plugins.map Plugin.error).sum ≤ 1 ∧
    (IsInt32 (v.plugins.map Plugin.error).sum → (v.plugins.map Plugin.error).sum ≤ 1) := by
  have hw : iso16.to_int32 (v.plugins.map Plugin.error).sum ≤ 1 := by
    unfold execute_iso16 at h
    simp only [eval_plugins_eq_sums, check_error, q16_leq, EPSILON, Bool.and_eq_true,
      decide_eq_true_eq] at h
    exact h.2
  refine ⟨hw, fun hr => ?_⟩
  unfold IsInt32 at hr
  unfold iso16.to_int32 at hw
  simp only at hw
  split at hw <;> omega

theorem error_ok_bounds_wrapped_total_witness :
    (execute_iso16 overflow_error_vector).error_ok = true ∧
    overflow_error_vector.plugins.length = 2 ∧
    iso16.to_int32 (overflow_error_vector.plugins.map Plugin.error).sum ≤ 1 ∧
    ¬ IsInt32 (overflow_error_vector.plugins.map Plugin.error).sum ∧
    (execute_iso16 small_error_vector).error_ok = true ∧
    IsInt32 (small_error_vector.plugins.map Plugin.error).sum ∧
    (small_error_vector.plugins.map Plugin.error).sum ≤ 1 :=
  have hs : IsInt32 (small_error_vector.plugins.map Plugin.error).sum := by decide
  ⟨by decide, by decide, (error_ok_bounds_wrapped_total overflow_error_vector (by decide)).1,
   by decide, by decide, hs,
   (error_ok_bounds_wrapped_total small_error_vector (by decide)).2 hs⟩

/-! ## Big-endian bytes of a 32-bit value -/

/-- C22: for every 32-bit signed `v`, `append_be32` appends exactly four bytes `b0 b1 b2 b3`
to the buffer, whose earlier bytes are unchanged, with
`b0 * 2^24 + b1 * 2^16 + b2 * 2^8 + b3 = v mod 2^32`; read back as a big-endian signed 32-bit
integer they give `v`. -/
theorem append_be32_roundtrip (out : List Nat) (v : Int) (hv : IsInt32 v) :
    ∃ b0 b1 b2 b3 : Nat,
      iso16.append_be32 out v = out ++ [b0, b1, b2, b3] ∧
      b0 < 256 ∧ b1 < 256 ∧ b2 < 256 ∧ b3 < 256 ∧
      ((b0 * 16777216 + b1 * 65536 + b2 * 256 + b3 : Nat) : Int) = v % 4294967296 ∧
      spec_read_be32 b0 b1 b2 b3 = v ∧
      (iso16.append_be32 out v).take out.length = out ∧
      (iso16.append_be32 out v).length = out.length + 4 := by
  unfold IsInt32 at hv
  refine ⟨((v / 16777216) % 256).toNat, ((v / 65536) % 256).toNat, ((v / 256) % 256).toNat,
    ((v / 1) % 256).toNat, ?_, ?_, ?_, ?_, ?_, ?_, ?_, ?_, ?_⟩
  · simp [iso16.append_be32]
  · omega
  · omega
  · omega
  · omega
  · omega
  · unfold spec_read_be32 iso16.to_int32
    simp only
    split <;> omega
  · simp [iso16.append_be32]
  · simp [iso16.append_be32]

theorem append_be32_roundtrip_witness :
    ∃ b0 b1 b2 b3 : Nat,
      iso16.append_be32 [7] (-2) = [7] ++ [b0, b1, b2, b3] ∧
      b0 < 256 ∧ b1 < 256 ∧ b2 < 256 ∧ b3 < 256 ∧
      ((b0 * 16777216 + b1 * 65536 + b2 * 256 + b3 : Nat) : Int) = -2 % 4294967296 ∧
      spec_read_be32 b0 b1 b2 b3 = -2 ∧
      (iso16.append_be32 [7] (-2)).take [7].length = [7] ∧
      (iso16.append_be32 [7] (-2)).length = [7].length + 4 :=
  append_be32_roundtrip [7] (-2) (by decide)

/-! ## The sponge structure of `sha3_256` -/

theorem getD_set_nat (l : List Nat) (i j a : Nat) :
    (l.set i a).getD j 0 = if i = j ∧ i < l.length then a else l.getD j 0 := by
  rw [List.getD_eq_getElem?_getD, List.getD_eq_getElem?_getD, List.getElem?_set]
  by_cases h : i = j
  · subst h
    by_cases h2 : i < l.length
    · simp [h2]
    · simp [h2, List.getElem?_eq_none (Nat.le_of_not_lt h2)]
  · simp [h]

theorem list_ext_getD (l1 l2 : List Nat) (hl : l1.length = l2.length)
    (h : ∀ i, i < l1.length → l1.getD i 0 = l2.getD i 0) : l1 = l2 := by
  apply List.ext_getElem hl
  intro i h1 h2
  have := h i h1
  rwa [List.getD_eq_getElem _ _ h1, List.getD_eq_getElem _ _ h2] at this

theorem foldl_set_range (g : Nat → Nat → Nat) (l : List Nat) (m : Nat) :
    ((List.range m).foldl (fun t k => t.set k (g k (t.getD k 0))) l).length = l.length ∧
    ∀ i, ((List.range m).foldl (fun t k => t.set k (g k (t.getD k 0))) l).getD i 0 =
      if i < m ∧ i < l.length then g i (l.getD i 0) else l.getD i 0 := by
  induction m with
  | zero => simp
  | succ m ih =>
    obtain ⟨ihl, ihg⟩ := ih
    rw [List.range_succ, List.foldl_append, List.foldl_cons, List.foldl_nil]
    refine ⟨by rw [List.length_set, ihl], fun i => ?_⟩
    rw [getD_set_nat, ihl, ihg m, ihg i]
    by_cases h1 : m = i
    · subst h1
      by_cases h2 : m < l.length
      · simp [h2]
      · simp [h2]
    · by_cases h3 : i < m
      · have h4 : i < m + 1 := by omega
        simp [h1, h3, h4]
      · have h4 : ¬ i < m + 1 := by omega
        simp [h1, h3, h4]

theorem map_range_getD (f : Nat → Nat) (n i : Nat) :
    ((List.range n).map f).getD i 0 = if i < n then f i else 0 := by
  rw [List.getD_eq_getElem?_getD, List.getElem?_map]
  by_cases h : i < n
  · rw [List.getElem?_range h]
    simp [h]
  · rw [List.getElem?_eq_none (by rw [List.length_range]; omega)]
    simp [h]

theorem squeeze_eq (st : List Nat) :
    (List.range 32).foldl
      (fun out k => out.set k ((st.getD (k / 8) 0 >>> (8 * (k % 8))) % 256))
      (List.replicate 32 0) = spec_squeeze st := by
  have h := foldl_set_range (fun k _ => (st.getD (k / 8) 0 >>> (8 * (k % 8))) % 256)
    (List.replicate 32 0) 32
  apply list_ext_getD
  · rw [h.1, spec_squeeze, List.length_map, List.length_range, List.length_replicate]
  · intro i hi
    rw [h.1, List.length_replicate] at hi
    rw [h.2 i, spec_squeeze, map_range_getD]
    simp [hi]

theorem final_block_eq (data : List Nat) (offset : Nat)
    (hr : data.length - offset < 136) :
    (((List.range (data.length - offset)).foldl
        (fun temp k => temp.set k (data.getD (offset + k) 0)) (List.replicate 136 0)).set
        (data.length - offset) 0x06).set (136 - 1)
      ((((List.range (data.length - offset)).foldl
        (fun temp k => temp.set k (data.getD (offset + k) 0)) (List.replicate 136 0)).set
        (data.length - offset) 0x06).getD (136 - 1) 0 ||| 0x80) =
      spec_final_block (data.drop offset) := by
  have h := foldl_set_range (fun k _ => data.getD (offset + k) 0) (List.replicate 136 0)
    (data.length - offset)
  obtain ⟨hl, hg⟩ := h
  rw [List.length_replicate] at hl
  apply list_ext_getD
  · rw [List.length_set, List.length_set, hl, spec_final_block, List.length_map,
      List.length_range]
  · intro i hi
    rw [List.length_set, List.length_set, hl] at hi
    rw [getD_set_nat, getD_set_nat, getD_set_nat, List.length_set, hl, hg, hg, spec_final_block,
      map_range_getD, List.length_drop, List.length_replicate]
    have hz : ∀ j, (List.replicate 136 0).getD j 0 = 0 := by
      intro j
      rw [List.getD_eq_getElem?_getD, List.getElem?_replicate]
      split <;> rfl
    rw [hz, hz]
    have hd : (data.drop offset).getD i 0 = data.getD (offset + i) 0 := by
      rw [List.getD_eq_getElem?_getD, List.getElem?_drop, List.getD_eq_getElem?_getD]
    rw [hd]
    have e134 : (6 ||| 128 : Nat) = 134 := by decide
    have e128 : (0 ||| 128 : Nat) = 128 := by decide
    split_ifs <;> first | rfl | exact e134 | exact e128 | omega

theorem sha3_absorb_counted_erase (data : List Nat) (fuel offset : Nat) (st : List Nat)
    (calls : Nat) :
    iso16.sha3_absorb data fuel offset st =
      ((iso16.sha3_absorb_counted data fuel offset st calls).1,
       (iso16.sha3_absorb_counted data fuel offset st calls).2.1) := by
  induction fuel generalizing offset st calls with
  | zero => rfl
  | succ fuel ih =>
    unfold iso16.sha3_absorb iso16.sha3_absorb_counted
    by_cases h : data.length - offset ≥ 136
    · rw [if_pos h, if_pos h]
      exact ih _ _ _
    · rw [if_neg h, if_neg h]

theorem sha3_absorb_counted_blocks (data : List Nat) (m j fuel : Nat) (st : List Nat)
    (calls : Nat) (h1 : 136 * (j + m) ≤ data.length) (h2 : data.length < 136 * (j + m + 1))
    (hf : m ≤ fuel) :
    iso16.sha3_absorb_counted data fuel (136 * j) st calls =
      (136 * (j + m), spec_absorb_blocks data j m st, calls + m) := by
  induction m generalizing j fuel st calls with
  | zero =>
    cases fuel with
    | zero => rfl
    | succ fuel =>
      unfold iso16.sha3_absorb_counted
      rw [if_neg (by omega)]
      rfl
  | succ m ih =>
    cases fuel with
    | zero => omega
    | succ fuel =>
      unfold iso16.sha3_absorb_counted
      rw [if_pos (by omega)]
      have e : 136 * j + 136 = 136 * (j + 1) := by omega
      rw [e, ih (j + 1) fuel _ _ (by omega) (by omega) (by omega)]
      have e2 : j + 1 + m = j + (m + 1) := by omega
      have e3 : calls + 1 + m = calls + (m + 1) := by omega
      rw [e2, e3]
      rfl

theorem xor_block_lanes (st bytes : List Nat) (offset i : Nat) :
    (iso16.xor_block st bytes offset).length = st.length ∧
    (iso16.xor_block st bytes offset).getD i 0 =
      if i < 17 ∧ i < st.length then
        st.getD i 0 ^^^ iso16.load_le64 bytes (offset + i * 8)
      else st.getD i 0 := by
  have h := foldl_set_range (fun k v => v ^^^ iso16.load_le64 bytes (offset + k * 8)) st 17
  exact ⟨h.1, h.2 i⟩

theorem sha3_256_eq_spec (data : List Nat) : iso16.sha3_256 data = spec_sha3_256 data := by
  have hc := sha3_absorb_counted_blocks data (data.length / 136) 0 data.length
    (List.replicate 25 0) 0 (by omega) (by omega) (by omega)
  have he := sha3_absorb_counted_erase data data.length 0 (List.replicate 25 0) 0
  rw [hc] at he
  simp only [Nat.zero_add] at he
  unfold iso16.sha3_256 spec_sha3_256
  simp only [he]
  rw [squeeze_eq, final_block_eq data _ (by omega)]

theorem spec_squeeze_length (st : List Nat) : (spec_squeeze st).length = 32 := by
  rw [spec_squeeze, List.length_map, List.length_range]

/-- C24: for a message of `n` bytes, the absorbing loop of `sha3_256` calls `keccakf` exactly
`n / 136` times, once after xoring each full 136-byte block into the first 17 lanes (read
little-endian), and stops at offset `136 * (n / 136)`; `sha3_256` then absorbs one final block
(the remaining `n % 136` bytes, the byte `0x06`, zero fill, the last byte ORed with `0x80`),
calls `keccakf` once more, `n / 136 + 1` calls in all, and returns exactly 32 bytes, the first
four lanes in little-endian byte order.  When `n % 136 = 135` the last byte of the final block
is `0x86`; when `n` is a multiple of 136 the final block is pure padding. -/
theorem sha3_256_sponge (data : List Nat) :
    iso16.sha3_absorb_counted data data.length 0 (List.replicate 25 0) 0 =
      (136 * (data.length / 136),
       spec_absorb_blocks data 0 (data.length / 136) (List.replicate 25 0),
       data.length / 136) ∧
    iso16.sha3_absorb data data.length 0 (List.replicate 25 0) =
      (136 * (data.length / 136),
       spec_absorb_blocks data 0 (data.length / 136) (List.replicate 25 0)) ∧
    iso16.sha3_256 data = spec_sha3_256 data ∧
    (iso16.sha3_256 data).length = 32 ∧
    (data.drop (136 * (data.length / 136))).length = data.length % 136 ∧
    (spec_final_block (data.drop (136 * (data.length / 136)))).length = 136 ∧
    (data.length % 136 = 0 →
      spec_final_block (data.drop (136 * (data.length / 136))) =
        0x06 :: (List.replicate 134 0 ++ [0x80])) ∧
    (data.length % 136 = 135 →
      (spec_final_block (data.drop (136 * (data.length / 136)))).getD 135 0 = 0x86) ∧
    (∀ (st bytes : List Nat) (offset i : Nat), st.length = 25 →
      (iso16.xor_block st bytes offset).getD i 0 =
        if i < 17 then st.getD i 0 ^^^ iso16.load_le64 bytes (offset + i * 8)
        else st.getD i 0) := by
  have hc := sha3_absorb_counted_blocks data (data.length / 136) 0 data.length
    (List.replicate 25 0) 0 (by omega) (by omega) (by omega)
  simp only [Nat.zero_add] at hc
  have he := sha3_absorb_counted_erase data data.length 0 (List.replicate 25 0) 0
  rw [hc] at he
  have hlen : (data.drop (136 * (data.length / 136))).length = data.length % 136 := by
    rw [List.length_drop]
    omega
  refine ⟨hc, he, sha3_256_eq_spec data, ?_, hlen, ?_, ?_, ?_, ?_⟩
  · rw [sha3_256_eq_spec, spec_sha3_256, spec_squeeze_length]
  · rw [spec_final_block, List.length_map, List.length_range]
  · intro h0
    rw [h0] at hlen
    rw [List.eq_nil_of_length_eq_zero hlen]
    decide
  · intro h135
    rw [h135] at hlen
    rw [spec_final_block, map_range_getD, hlen]
    rfl
  · intro st bytes offset i hst
    rw [(xor_block_lanes st bytes offset i).2, hst]
    by_cases h : i < 17
    · have h2 : i < 25 := by omega
      simp [h, h2]
    · simp [h]

theorem sha3_256_sponge_witness :
    (iso16.sha3_256 (ascii "abc")).length = 32 ∧
    iso16.sha3_256 (ascii "abc") = spec_sha3_256 (ascii "abc") ∧
    spec_final_block (([] : List Nat).drop (136 * (([] : List Nat).length / 136))) =
      0x06 :: (List.replicate 134 0 ++ [0x80]) :=
  ⟨(sha3_256_sponge (ascii "abc")).2.2.2.1, (sha3_256_sponge (ascii "abc")).2.2.1,
   (sha3_256_sponge []).2.2.2.2.2.2.1 (by decide)⟩

/-! ## Bit-level facts about `rol` -/

theorem testBit_of_lt_two_pow_64 {x j : Nat} (hx : x < 18446744073709551616) (hj : 64 ≤ j) :
    x.testBit j = false := by
  apply Nat.testBit_lt_two_pow
  calc x < 2 ^ 64 := hx
    _ ≤ 2 ^ j := Nat.pow_le_pow_right (by decide) hj

theorem rol_testBit (x s i : Nat) (hx : x < 18446744073709551616) (hs : s ≤ 64) :
    (iso16.rol x s).testBit i = (decide (i < 64) && x.testBit ((i + 64 - s) % 64)) := by
  unfold iso16.rol
  have e : (18446744073709551616 : Nat) = 2 ^ 64 := by norm_num
  rw [e, Nat.testBit_or, Nat.testBit_mod_two_pow, Nat.testBit_shiftLeft, Nat.testBit_shiftRight]
  by_cases hi : i < 64
  · by_cases hsi : s ≤ i
    · have h1 : x.testBit (64 - s + i) = false :=
        testBit_of_lt_two_pow_64 hx (by omega)
      have h2 : (i + 64 - s) % 64 = i - s := by omega
      simp [hi, hsi, h1, h2]
    · have h2 : (i + 64 - s) % 64 = 64 - s + i := by omega
      simp [hi, hsi, h2]
  · have h1 : x.testBit (64 - s + i) = false :=
      testBit_of_lt_two_pow_64 hx (by omega)
    simp [hi, h1]

theorem rol_lt (x s : Nat) (hx : x < 18446744073709551616) :
    iso16.rol x s < 18446744073709551616 := by
  unfold iso16.rol
  have e : (18446744073709551616 : Nat) = 2 ^ 64 := by norm_num
  rw [e] at hx ⊢
  apply Nat.or_lt_two_pow (Nat.mod_lt _ (by positivity))
  rw [Nat.shiftRight_eq_div_pow]
  exact lt_of_le_of_lt (Nat.div_le_self _ _) hx

theorem rol_xor (a b s : Nat) (ha : a < 18446744073709551616) (hb : b < 18446744073709551616)
    (hs : s ≤ 64) : iso16.rol (a ^^^ b) s = iso16.rol a s ^^^ iso16.rol b s := by
  have hab : a ^^^ b < 18446744073709551616 := by
    have e : (18446744073709551616 : Nat) = 2 ^ 64 := by norm_num
    rw [e] at ha hb ⊢
    exact Nat.xor_lt_two_pow ha hb
  apply Nat.eq_of_testBit_eq
  intro i
  rw [Nat.testBit_xor, rol_testBit _ _ _ hab hs, rol_testBit _ _ _ ha hs,
    rol_testBit _ _ _ hb hs, Nat.testBit_xor]
  cases decide (i < 64) <;> simp

theorem rol_rol (x r s : Nat) (hx : x < 18446744073709551616) (hrs : r + s ≤ 64) :
    iso16.rol (iso16.rol x r) s = iso16.rol x (r + s) := by
  apply Nat.eq_of_testBit_eq
  intro i
  rw [rol_testBit _ _ _ (rol_lt x r hx) (by omega), rol_testBit _ _ _ hx (by omega),
    rol_testBit _ _ _ hx hrs]
  by_cases hi : i < 64
  · have h1 : (i + 64 - s) % 64 < 64 := Nat.mod_lt _ (by decide)
    have h2 : ((i + 64 - s) % 64 + 64 - r) % 64 = (i + 64 - (r + s)) % 64 := by omega
    simp [hi, h1, h2]
  · simp [hi]

theorem rol_64 (x : Nat) (hx : x < 18446744073709551616) : iso16.rol x 64 = x := by
  apply Nat.eq_of_testBit_eq
  intro i
  rw [rol_testBit _ _ _ hx (le_refl _)]
  by_cases hi : i < 64
  · have h2 : (i + 64 - 64) % 64 = i := by omega
    rw [h2]
    simp [hi]
  · have h1 : x.testBit i = false := testBit_of_lt_two_pow_64 hx (by omega)
    simp [hi, h1]

theorem rol_injective (a b r : Nat) (ha : a < 18446744073709551616)
    (hb : b < 18446744073709551616) (hr : r ≤ 64) (h : iso16.rol a r = iso16.rol b r) :
    a = b := by
  have h1 := congrArg (fun y => iso16.rol y (64 - r)) h
  simp only at h1
  rw [rol_rol _ _ _ ha (by omega), rol_rol _ _ _ hb (by omega),
    show r + (64 - r) = 64 by omega, rol_64 _ ha, rol_64 _ hb] at h1
  exact h1

/-! ## Theta acts invertibly on the column parities -/

theorem xor_lt_u64 {a b : Nat} (ha : a < 18446744073709551616) (hb : b < 18446744073709551616) :
    a ^^^ b < 18446744073709551616 := by
  have e : (18446744073709551616 : Nat) = 2 ^ 64 := by norm_num
  rw [e] at ha hb ⊢
  exact Nat.xor_lt_two_pow ha hb

theorem parity_map_lt (s t : Fin 5) (r : Nat) (c : Fin 5 → Nat)
    (hc : ∀ x, c x < 18446744073709551616) :
    ∀ x, parity_map s t r c x < 18446744073709551616 := by
  intro x
  unfold parity_map
  exact xor_lt_u64 (xor_lt_u64 (hc _) (hc _)) (rol_lt _ _ (hc _))

theorem xor_cancel_nine (a b c r1 r2 r3 : Nat) :
    (a ^^^ b ^^^ r1) ^^^ (b ^^^ c ^^^ r2) ^^^ (r1 ^^^ r2 ^^^ r3) = a ^^^ c ^^^ r3 := by
  apply Nat.eq_of_testBit_eq
  intro i
  simp only [Nat.testBit_xor]
  cases a.testBit i <;> cases b.testBit i <;> cases c.testBit i <;> cases r1.testBit i <;>
    cases r2.testBit i <;> cases r3.testBit i <;> rfl

theorem parity_map_square (s t : Fin 5) (r : Nat) (c : Fin 5 → Nat)
    (hc : ∀ x, c x < 18446744073709551616) (hr : r + r ≤ 64) :
    parity_map s t r (parity_map s t r c) = parity_map (s + s) (t + t) (r + r) c := by
  funext x
  simp only [parity_map]
  rw [rol_xor _ _ _ (xor_lt_u64 (hc _) (hc _)) (rol_lt _ _ (hc _)) (by omega),
    rol_xor _ _ _ (hc _) (hc _) (by omega), rol_rol _ _ _ (hc _) hr]
  have e1 : x + s + t = x + t + s := add_right_comm x s t
  have e2 : x + s + s = x + (s + s) := add_assoc x s s
  have e3 : x + t + t = x + (t + t) := add_assoc x t t
  rw [e1, e2, e3]
  exact xor_cancel_nine _ _ _ _ _ _

theorem parity_map_64 (c : Fin 5 → Nat) (hc : ∀ x, c x < 18446744073709551616) :
    parity_map 1 4 64 c = fun x => c x ^^^ c (x + 1) ^^^ c (x + 4) := by
  funext x
  simp only [parity_map, rol_64 _ (hc _)]

theorem xor_cube_five (c0 c1 c2 c3 c4 : Nat) :
    ((c0 ^^^ c1 ^^^ c4) ^^^ (c1 ^^^ c2 ^^^ c0) ^^^ (c4 ^^^ c0 ^^^ c3)) ^^^
      ((c1 ^^^ c2 ^^^ c0) ^^^ (c2 ^^^ c3 ^^^ c1) ^^^ (c0 ^^^ c1 ^^^ c4)) ^^^
      ((c4 ^^^ c0 ^^^ c3) ^^^ (c0 ^^^ c1 ^^^ c4) ^^^ (c3 ^^^ c4 ^^^ c2)) = c0 := by
  apply Nat.eq_of_testBit_eq
  intro i
  simp only [Nat.testBit_xor]
  cases c0.testBit i <;> cases c1.testBit i <;> cases c2.testBit i <;> cases c3.testBit i <;>
    cases c4.testBit i <;> rfl

theorem parity_map_64_cube (c : Fin 5 → Nat) (hc : ∀ x, c x < 18446744073709551616) :
    parity_map 1 4 64 (parity_map 1 4 64 (parity_map 1 4 64 c)) = c := by
  have h1 := parity_map_lt 1 4 64 c hc
  have h2 := parity_map_lt 1 4 64 _ h1
  rw [parity_map_64 _ h2, parity_map_64 _ h1, parity_map_64 _ hc]
  funext x
  have e : ∀ y : Fin 5, y + 1 + 1 = y + 2 ∧ y + 1 + 4 = y ∧ y + 4 + 1 = y ∧ y + 4 + 4 = y + 3 ∧
      y + 2 + 1 = y + 3 ∧ y + 3 + 1 = y + 4 ∧ y + 2 + 4 = y + 1 ∧ y + 3 + 4 = y + 2 := by
    decide
  simp only [(e _).1, (e _).2.1, (e _).2.2.1, (e _).2.2.2.1, (e _).2.2.2.2.1,
    (e _).2.2.2.2.2.1, (e _).2.2.2.2.2.2.1, (e _).2.2.2.2.2.2.2]
  exact xor_cube_five (c x) (c (x + 1)) (c (x + 2)) (c (x + 3)) (c (x + 4))

theorem parity_map_double (s t s2 t2 : Fin 5) (r r2 : Nat) (c d : Fin 5 → Nat)
    (hs : s + s = s2) (ht : t + t = t2) (hr : r + r = r2) (hr64 : r2 ≤ 64)
    (hc : ∀ x, c x < 18446744073709551616) (hd : ∀ x, d x < 18446744073709551616)
    (h : parity_map s t r c = parity_map s t r d) :
    parity_map s2 t2 r2 c = parity_map s2 t2 r2 d := by
  subst hs ht hr
  rw [← parity_map_square _ _ _ c hc hr64, ← parity_map_square _ _ _ d hd hr64, h]

theorem parity_map_theta_injective (c d : Fin 5 → Nat)
    (hc : ∀ x, c x < 18446744073709551616) (hd : ∀ x, d x < 18446744073709551616)
    (h : parity_map 4 1 1 c = parity_map 4 1 1 d) : c = d := by
  have s1 := parity_map_double 4 1 3 2 1 2 c d (by decide) (by decide) rfl (by decide) hc hd h
  have s2 := parity_map_double 3 2 1 4 2 4 c d (by decide) (by decide) rfl (by decide) hc hd s1
  have s3 := parity_map_double 1 4 2 3 4 8 c d (by decide) (by decide) rfl (by decide) hc hd s2
  have s4 := parity_map_double 2 3 4 1 8 16 c d (by decide) (by decide) rfl (by decide) hc hd s3
  have s5 := parity_map_double 4 1 3 2 16 32 c d (by decide) (by decide) rfl (by decide) hc hd s4
  have s6 := parity_map_double 3 2 1 4 32 64 c d (by decide) (by decide) rfl (by decide) hc hd s5
  rw [← parity_map_64_cube c hc, ← parity_map_64_cube d hd, s6]

/-! ## The steps of a round on the 25 lanes -/

theorem range_5_eq : List.range 5 = [0, 1, 2, 3, 4] := by decide

theorem range_24_eq : List.range 24 =
    [0, 1, 2, 3, 4, 5, 6, 7, 8, 9, 10, 11, 12, 13, 14, 15, 16, 17, 18, 19, 20, 21, 22, 23] := by
  decide

theorem keccakf_theta_lanes (a0 a1 a2 a3 a4 a5 a6 a7 a8 a9 a10 a11 a12 a13 a14 a15 a16 a17 a18
    a19 a20 a21 a22 a23 a24 : Nat) (c : Fin 5 → Nat)
    (hc : c = col_parity [a0, a1, a2, a3, a4, a5, a6, a7, a8, a9, a10, a11, a12, a13, a14, a15,
      a16, a17, a18, a19, a20, a21, a22, a23, a24]) :
    iso16.keccakf_theta [a0, a1, a2, a3, a4, a5, a6, a7, a8, a9, a10, a11, a12, a13, a14, a15,
      a16, a17, a18, a19, a20, a21, a22, a23, a24] =
    [a0 ^^^ theta_effect c 0, a1 ^^^ theta_effect c 1, a2 ^^^ theta_effect c 2,
     a3 ^^^ theta_effect c 3, a4 ^^^ theta_effect c 4,
     a5 ^^^ theta_effect c 0, a6 ^^^ theta_effect c 1, a7 ^^^ theta_effect c 2,
     a8 ^^^ theta_effect c 3, a9 ^^^ theta_effect c 4,
     a10 ^^^ theta_effect c 0, a11 ^^^ theta_effect c 1, a12 ^^^ theta_effect c 2,
     a13 ^^^ theta_effect c 3, a14 ^^^ theta_effect c 4,
     a15 ^^^ theta_effect c 0, a16 ^^^ theta_effect c 1, a17 ^^^ theta_effect c 2,
     a18 ^^^ theta_effect c 3, a19 ^^^ theta_effect c 4,
     a20 ^^^ theta_effect c 0, a21 ^^^ theta_effect c 1, a22 ^^^ theta_effect c 2,
     a23 ^^^ theta_effect c 3, a24 ^^^ theta_effect c 4] := by
  subst hc
  simp only [iso16.keccakf_theta, range_5_eq, List.replicate, List.foldl_cons, List.foldl_nil,
    List.getD_cons_zero, List.getD_cons_succ, List.set_cons_zero, List.set_cons_succ,
    Nat.reduceAdd, Nat.reduceMod, Nat.zero_add, Nat.add_zero, theta_effect, col_parity]
  rfl

theorem keccakf_rho_pi_lanes (a0 a1 a2 a3 a4 a5 a6 a7 a8 a9 a10 a11 a12 a13 a14 a15 a16 a17 a18
    a19 a20 a21 a22 a23 a24 : Nat) :
    iso16.keccakf_rho_pi [a0, a1, a2, a3, a4, a5, a6, a7, a8, a9, a10, a11, a12, a13, a14, a15,
      a16, a17, a18, a19, a20, a21, a22, a23, a24] =
    [a0, iso16.rol a6 44, iso16.rol a12 43, iso16.rol a18 21, iso16.rol a24 14,
     iso16.rol a3 28, iso16.rol a9 20, iso16.rol a10 3, iso16.rol a16 45, iso16.rol a22 61,
     iso16.rol a1 1, iso16.rol a7 6, iso16.rol a13 25, iso16.rol a19 8, iso16.rol a20 18,
     iso16.rol a4 27, iso16.rol a5 36, iso16.rol a11 10, iso16.rol a17 15, iso16.rol a23 56,
     iso16.rol a2 62, iso16.rol a8 55, iso16.rol a14 39, iso16.rol a15 41, iso16.rol a21 2] := by
  simp only [iso16.keccakf_rho_pi, range_24_eq, iso16.KECCAKF_PILN, iso16.KECCAKF_ROTC,
    List.foldl_cons, List.foldl_nil, List.getD_cons_zero, List.getD_cons_succ,
    List.set_cons_zero, List.set_cons_succ]

theorem keccakf_chi_lanes (a0 a1 a2 a3 a4 a5 a6 a7 a8 a9 a10 a11 a12 a13 a14 a15 a16 a17 a18
    a19 a20 a21 a22 a23 a24 : Nat) :
    iso16.keccakf_chi [a0, a1, a2, a3, a4, a5, a6, a7, a8, a9, a10, a11, a12, a13, a14, a15,
      a16, a17, a18, a19, a20, a21, a22, a23, a24] =
    [a0 ^^^ ((18446744073709551615 - a1) &&& a2), a1 ^^^ ((18446744073709551615 - a2) &&& a3),
     a2 ^^^ ((18446744073709551615 - a3) &&& a4), a3 ^^^ ((18446744073709551615 - a4) &&& a0),
     a4 ^^^ ((18446744073709551615 - a0) &&& a1),
     a5 ^^^ ((18446744073709551615 - a6) &&& a7), a6 ^^^ ((18446744073709551615 - a7) &&& a8),
     a7 ^^^ ((18446744073709551615 - a8) &&& a9), a8 ^^^ ((18446744073709551615 - a9) &&& a5),
     a9 ^^^ ((18446744073709551615 - a5) &&& a6),
     a10 ^^^ ((18446744073709551615 - a11) &&& a12),
     a11 ^^^ ((18446744073709551615 - a12) &&& a13),
     a12 ^^^ ((18446744073709551615 - a13) &&& a14),
     a13 ^^^ ((18446744073709551615 - a14) &&& a10),
     a14 ^^^ ((18446744073709551615 - a10) &&& a11),
     a15 ^^^ ((18446744073709551615 - a16) &&& a17),
     a16 ^^^ ((18446744073709551615 - a17) &&& a18),
     a17 ^^^ ((18446744073709551615 - a18) &&& a19),
     a18 ^^^ ((18446744073709551615 - a19) &&& a15),
     a19 ^^^ ((18446744073709551615 - a15) &&& a16),
     a20 ^^^ ((18446744073709551615 - a21) &&& a22),
     a21 ^^^ ((18446744073709551615 - a22) &&& a23),
     a22 ^^^ ((18446744073709551615 - a23) &&& a24),
     a23 ^^^ ((18446744073709551615 - a24) &&& a20),
     a24 ^^^ ((18446744073709551615 - a20) &&& a21)] := by
  simp only [iso16.keccakf_chi, range_5_eq, List.replicate, List.foldl_cons, List.foldl_nil,
    List.getD_cons_zero, List.getD_cons_succ, List.set_cons_zero, List.set_cons_succ,
    Nat.reduceAdd, Nat.reduceMod, Nat.zero_add, Nat.add_zero]

/-! ## Keccak states as 25 explicit lanes -/

theorem keccak_state_elim {P : List Nat → Prop} (st : List Nat) (h : IsKeccakState st)
    (H : ∀ a0 a1 a2 a3 a4 a5 a6 a7 a8 a9 a10 a11 a12 a13 a14 a15 a16 a17 a18 a19 a20 a21 a22
      a23 a24 : Nat,
      (∀ x ∈ [a0, a1, a2, a3, a4, a5, a6, a7, a8, a9, a10, a11, a12, a13, a14, a15, a16, a17,
        a18, a19, a20, a21, a22, a23, a24], x < 18446744073709551616) →
      P [a0, a1, a2, a3, a4, a5, a6, a7, a8, a9, a10, a11, a12, a13, a14, a15, a16, a17, a18,
        a19, a20, a21, a22, a23, a24]) : P st := by
  obtain ⟨hl, hb⟩ := h
  rcases st with _ | ⟨a0, st⟩
  · simp only [List.length_cons, List.length_nil] at hl; omega
  rcases st with _ | ⟨a1, st⟩
  · simp only [List.length_cons, List.length_nil] at hl; omega
  rcases st with _ | ⟨a2, st⟩
  · simp only [List.length_cons, List.length_nil] at hl; omega
  rcases st with _ | ⟨a3, st⟩
  · simp only [List.length_cons, List.length_nil] at hl; omega
  rcases st with _ | ⟨a4, st⟩
  · simp only [List.length_cons, List.length_nil] at hl; omega
  rcases st with _ | ⟨a5, st⟩
  · simp only [List.length_cons, List.length_nil] at hl; omega
  rcases st with _ | ⟨a6, st⟩
  · simp only [List.length_cons, List.length_nil] at hl; omega
  rcases st with _ | ⟨a7, st⟩
  · simp only [List.length_cons, List.length_nil] at hl; omega
  rcases st with _ | ⟨a8, st⟩
  · simp only [List.length_cons, List.length_nil] at hl; omega
  rcases st with _ | ⟨a9, st⟩
  · simp only [List.length_cons, List.length_nil] at hl; omega
  rcases st with _ | ⟨a10, st⟩
  · simp only [List.length_cons, List.length_nil] at hl; omega
  rcases st with _ | ⟨a11, st⟩
  · simp only [List.length_cons, List.length_nil] at hl; omega
  rcases st with _ | ⟨a12, st⟩
  · simp only [List.length_cons, List.length_nil] at hl; omega
  rcases st with _ | ⟨a13, st⟩
  · simp only [List.length_cons, List.length_nil] at hl; omega
  rcases st with _ | ⟨a14, st⟩
  · simp only [List.length_cons, List.length_nil] at hl; omega
  rcases st with _ | ⟨a15, st⟩
  · simp only [List.length_cons, List.length_nil] at hl; omega
  rcases st with _ | ⟨a16, st⟩
  · simp only [List.length_cons, List.length_nil] at hl; omega
  rcases st with _ | ⟨a17, st⟩
  · simp only [List.length_cons, List.length_nil] at hl; omega
  rcases st with _ | ⟨a18, st⟩
  · simp only [List.length_cons, List.length_nil] at hl; omega
  rcases st with _ | ⟨a19, st⟩
  · simp only [List.length_cons, List.length_nil] at hl; omega
  rcases st with _ | ⟨a20, st⟩
  · simp only [List.length_cons, List.length_nil] at hl; omega
  rcases st with _ | ⟨a21, st⟩
  · simp only [List.length_cons, List.length_nil] at hl; omega
  rcases st with _ | ⟨a22, st⟩
  · simp only [List.length_cons, List.length_nil] at hl; omega
  rcases st with _ | ⟨a23, st⟩
  · simp only [List.length_cons, List.length_nil] at hl; omega
  rcases st with _ | ⟨a24, st⟩
  · simp only [List.length_cons, List.length_nil] at hl; omega
  rcases st with _ | ⟨a25, st⟩
  · exact H _ _ _ _ _ _ _ _ _ _ _ _ _ _ _ _ _ _ _ _ _ _ _ _ _ hb
  · simp only [List.length_cons] at hl; omega

theorem keccak_state_of_lanes (a0 a1 a2 a3 a4 a5 a6 a7 a8 a9 a10 a11 a12 a13 a14 a15 a16 a17 a18
    a19 a20 a21 a22 a23 a24 : Nat)
    (h : ∀ x ∈ [a0, a1, a2, a3, a4, a5, a6, a7, a8, a9, a10, a11, a12, a13, a14, a15, a16, a17,
      a18, a19, a20, a21, a22, a23, a24], x < 18446744073709551616) :
    IsKeccakState [a0, a1, a2, a3, a4, a5, a6, a7, a8, a9, a10, a11, a12, a13, a14, a15, a16,
      a17, a18, a19, a20, a21, a22, a23, a24] :=
  ⟨rfl, h⟩

theorem not64_testBit (a i : Nat) (ha : a < 18446744073709551616) :
    (18446744073709551615 - a).testBit i = (decide (i < 64) && !a.testBit i) := by
  have e : 18446744073709551615 - a = 2 ^ 64 - (a + 1) := by norm_num; omega
  rw [e, Nat.testBit_two_pow_sub_succ (by norm_num; exact ha)]

theorem chi_bool_injective : ∀ a0 a1 a2 a3 a4 b0 b1 b2 b3 b4 : Bool,
    xor a0 (!a1 && a2) = xor b0 (!b1 && b2) → xor a1 (!a2 && a3) = xor b1 (!b2 && b3) →
    xor a2 (!a3 && a4) = xor b2 (!b3 && b4) → xor a3 (!a4 && a0) = xor b3 (!b4 && b0) →
    xor a4 (!a0 && a1) = xor b4 (!b0 && b1) →
    a0 = b0 ∧ a1 = b1 ∧ a2 = b2 ∧ a3 = b3 ∧ a4 = b4 := by
  decide

theorem chi_row_injective (a0 a1 a2 a3 a4 b0 b1 b2 b3 b4 : Nat)
    (ha0 : a0 < 18446744073709551616) (ha1 : a1 < 18446744073709551616)
    (ha2 : a2 < 18446744073709551616) (ha3 : a3 < 18446744073709551616)
    (ha4 : a4 < 18446744073709551616) (hb0 : b0 < 18446744073709551616)
    (hb1 : b1 < 18446744073709551616) (hb2 : b2 < 18446744073709551616)
    (hb3 : b3 < 18446744073709551616) (hb4 : b4 < 18446744073709551616)
    (h0 : a0 ^^^ ((18446744073709551615 - a1) &&& a2) =
      b0 ^^^ ((18446744073709551615 - b1) &&& b2))
    (h1 : a1 ^^^ ((18446744073709551615 - a2) &&& a3) =
      b1 ^^^ ((18446744073709551615 - b2) &&& b3))
    (h2 : a2 ^^^ ((18446744073709551615 - a3) &&& a4) =
      b2 ^^^ ((18446744073709551615 - b3) &&& b4))
    (h3 : a3 ^^^ ((18446744073709551615 - a4) &&& a0) =
      b3 ^^^ ((18446744073709551615 - b4) &&& b0))
    (h4 : a4 ^^^ ((18446744073709551615 - a0) &&& a1) =
      b4 ^^^ ((18446744073709551615 - b0) &&& b1)) :
    a0 = b0 ∧ a1 = b1 ∧ a2 = b2 ∧ a3 = b3 ∧ a4 = b4 := by
  have key : ∀ i, a0.testBit i = b0.testBit i ∧ a1.testBit i = b1.testBit i ∧
      a2.testBit i = b2.testBit i ∧ a3.testBit i = b3.testBit i ∧
      a4.testBit i = b4.testBit i := by
    intro i
    by_cases hi : i < 64
    · have t0 := congrArg (fun v => v.testBit i) h0
      have t1 := congrArg (fun v => v.testBit i) h1
      have t2 := congrArg (fun v => v.testBit i) h2
      have t3 := congrArg (fun v => v.testBit i) h3
      have t4 := congrArg (fun v => v.testBit i) h4
      simp only [Nat.testBit_xor, Nat.testBit_and, not64_testBit _ _ ha0, not64_testBit _ _ ha1,
        not64_testBit _ _ ha2, not64_testBit _ _ ha3, not64_testBit _ _ ha4,
        not64_testBit _ _ hb0, not64_testBit _ _ hb1, not64_testBit _ _ hb2,
        not64_testBit _ _ hb3, not64_testBit _ _ hb4, hi, decide_True, Bool.true_and] at t0 t1 t2 t3 t4
      exact chi_bool_injective _ _ _ _ _ _ _ _ _ _ t0 t1 t2 t3 t4
    · have hi64 : 64 ≤ i := by omega
      simp only [testBit_of_lt_two_pow_64 ha0 hi64, testBit_of_lt_two_pow_64 ha1 hi64,
        testBit_of_lt_two_pow_64 ha2 hi64, testBit_of_lt_two_pow_64 ha3 hi64,
        testBit_of_lt_two_pow_64 ha4 hi64, testBit_of_lt_two_pow_64 hb0 hi64,
        testBit_of_lt_two_pow_64 hb1 hi64, testBit_of_lt_two_pow_64 hb2 hi64,
        testBit_of_lt_two_pow_64 hb3 hi64, testBit_of_lt_two_pow_64 hb4 hi64, and_self]
  exact ⟨Nat.eq_of_testBit_eq fun i => (key i).1, Nat.eq_of_testBit_eq fun i => (key i).2.1,
    Nat.eq_of_testBit_eq fun i => (key i).2.2.1, Nat.eq_of_testBit_eq fun i => (key i).2.2.2.1,
    Nat.eq_of_testBit_eq fun i => (key i).2.2.2.2⟩

/-! ## Each step of a round is injective on Keccak states -/

theorem xor_right_cancel_eq {a b t : Nat} (h : a ^^^ t = b ^^^ t) : a = b := by
  rw [← Nat.xor_cancel_right t a, ← Nat.xor_cancel_right t b, h]

theorem and_lt_u64 (a : Nat) {b : Nat} (hb : b < 18446744073709551616) :
    a &&& b < 18446744073709551616 := by
  have e : (18446744073709551616 : Nat) = 2 ^ 64 := by norm_num
  rw [e] at hb ⊢
  exact Nat.and_lt_two_pow a hb

theorem keccakf_chi_state (a : List Nat) (ha : IsKeccakState a) :
    IsKeccakState (iso16.keccakf_chi a) := by
  apply keccak_state_elim a ha
  intro a0 a1 a2 a3 a4 a5 a6 a7 a8 a9 a10 a11 a12 a13 a14 a15 a16 a17 a18 a19 a20 a21 a22 a23
    a24 hA
  simp only [List.forall_mem_cons, List.not_mem_nil, false_imp_iff, implies_true,
    and_true] at hA
  obtain ⟨ha0, ha1, ha2, ha3, ha4, ha5, ha6, ha7, ha8, ha9, ha10, ha11, ha12, ha13, ha14, ha15,
    ha16, ha17, ha18, ha19, ha20, ha21, ha22, ha23, ha24⟩ := hA
  rw [keccakf_chi_lanes]
  refine ⟨rfl, ?_⟩
  simp only [List.forall_mem_cons, List.not_mem_nil, false_imp_iff, implies_true,
    and_true]
  exact ⟨xor_lt_u64 ha0 (and_lt_u64 _ ha2), xor_lt_u64 ha1 (and_lt_u64 _ ha3), xor_lt_u64 ha2
    (and_lt_u64 _ ha4), xor_lt_u64 ha3 (and_lt_u64 _ ha0), xor_lt_u64 ha4 (and_lt_u64 _ ha1),
    xor_lt_u64 ha5 (and_lt_u64 _ ha7), xor_lt_u64 ha6 (and_lt_u64 _ ha8), xor_lt_u64 ha7
    (and_lt_u64 _ ha9), xor_lt_u64 ha8 (and_lt_u64 _ ha5), xor_lt_u64 ha9 (and_lt_u64 _ ha6),
    xor_lt_u64 ha10 (and_lt_u64 _ ha12), xor_lt_u64 ha11 (and_lt_u64 _ ha13), xor_lt_u64 ha12
    (and_lt_u64 _ ha14), xor_lt_u64 ha13 (and_lt_u64 _ ha10), xor_lt_u64 ha14 (and_lt_u64 _
    ha11), xor_lt_u64 ha15 (and_lt_u64 _ ha17), xor_lt_u64 ha16 (and_lt_u64 _ ha18), xor_lt_u64
    ha17 (and_lt_u64 _ ha19), xor_lt_u64 ha18 (and_lt_u64 _ ha15), xor_lt_u64 ha19 (and_lt_u64 _
    ha16), xor_lt_u64 ha20 (and_lt_u64 _ ha22), xor_lt_u64 ha21 (and_lt_u64 _ ha23), xor_lt_u64
    ha22 (and_lt_u64 _ ha24), xor_lt_u64 ha23 (and_lt_u64 _ ha20), xor_lt_u64 ha24 (and_lt_u64 _
    ha21)⟩

theorem keccakf_chi_injective (a b : List Nat) (ha : IsKeccakState a) (hb : IsKeccakState b)
    (h : iso16.keccakf_chi a = iso16.keccakf_chi b) : a = b := by
  revert h
  apply keccak_state_elim a ha
  intro a0 a1 a2 a3 a4 a5 a6 a7 a8 a9 a10 a11 a12 a13 a14 a15 a16 a17 a18 a19 a20 a21 a22 a23
    a24 hA
  apply keccak_state_elim b hb
  intro b0 b1 b2 b3 b4 b5 b6 b7 b8 b9 b10 b11 b12 b13 b14 b15 b16 b17 b18 b19 b20 b21 b22 b23
    b24 hB h
  simp only [List.forall_mem_cons, List.not_mem_nil, false_imp_iff, implies_true,
    and_true] at hA hB
  obtain ⟨ha0, ha1, ha2, ha3, ha4, ha5, ha6, ha7, ha8, ha9, ha10, ha11, ha12, ha13, ha14, ha15,
    ha16, ha17, ha18, ha19, ha20, ha21, ha22, ha23, ha24⟩ := hA
  obtain ⟨hb0, hb1, hb2, hb3, hb4, hb5, hb6, hb7, hb8, hb9, hb10, hb11, hb12, hb13, hb14, hb15,
    hb16, hb17, hb18, hb19, hb20, hb21, hb22, hb23, hb24⟩ := hB
  rw [keccakf_chi_lanes, keccakf_chi_lanes] at h
  simp only [List.cons.injEq, and_true] at h
  obtain ⟨e0, e1, e2, e3, e4, e5, e6, e7, e8, e9, e10, e11, e12, e13, e14, e15, e16, e17, e18,
    e19, e20, e21, e22, e23, e24⟩ := h
  obtain ⟨r0, r1, r2, r3, r4⟩ := chi_row_injective a0 a1 a2 a3 a4 b0 b1 b2 b3 b4 ha0 ha1 ha2 ha3
    ha4 hb0 hb1 hb2 hb3 hb4 e0 e1 e2 e3 e4
  obtain ⟨r5, r6, r7, r8, r9⟩ := chi_row_injective a5 a6 a7 a8 a9 b5 b6 b7 b8 b9 ha5 ha6 ha7 ha8
    ha9 hb5 hb6 hb7 hb8 hb9 e5 e6 e7 e8 e9
  obtain ⟨r10, r11, r12, r13, r14⟩ := chi_row_injective a10 a11 a12 a13 a14 b10 b11 b12 b13 b14
    ha10 ha11 ha12 ha13 ha14 hb10 hb11 hb12 hb13 hb14 e10 e11 e12 e13 e14
  obtain ⟨r15, r16, r17, r18, r19⟩ := chi_row_injective a15 a16 a17 a18 a19 b15 b16 b17 b18 b19
    ha15 ha16 ha17 ha18 ha19 hb15 hb16 hb17 hb18 hb19 e15 e16 e17 e18 e19
  obtain ⟨r20, r21, r22, r23, r24⟩ := chi_row_injective a20 a21 a22 a23 a24 b20 b21 b22 b23 b24
    ha20 ha21 ha22 ha23 ha24 hb20 hb21 hb22 hb23 hb24 e20 e21 e22 e23 e24
  rw [r0, r1, r2, r3, r4, r5, r6, r7, r8, r9, r10, r11, r12, r13, r14, r15, r16, r17, r18, r19,
    r20, r21, r22, r23, r24]

theorem keccakf_rho_pi_state (a : List Nat) (ha : IsKeccakState a) :
    IsKeccakState (iso16.keccakf_rho_pi a) := by
  apply keccak_state_elim a ha
  intro a0 a1 a2 a3 a4 a5 a6 a7 a8 a9 a10 a11 a12 a13 a14 a15 a16 a17 a18 a19 a20 a21 a22 a23
    a24 hA
  simp only [List.forall_mem_cons, List.not_mem_nil, false_imp_iff, implies_true,
    and_true] at hA
  obtain ⟨ha0, ha1, ha2, ha3, ha4, ha5, ha6, ha7, ha8, ha9, ha10, ha11, ha12, ha13, ha14, ha15,
    ha16, ha17, ha18, ha19, ha20, ha21, ha22, ha23, ha24⟩ := hA
  rw [keccakf_rho_pi_lanes]
  refine ⟨rfl, ?_⟩
  simp only [List.forall_mem_cons, List.not_mem_nil, false_imp_iff, implies_true,
    and_true]
  exact ⟨ha0, rol_lt _ _ ha6, rol_lt _ _ ha12, rol_lt _ _ ha18, rol_lt _ _ ha24, rol_lt _ _ ha3,
    rol_lt _ _ ha9, rol_lt _ _ ha10, rol_lt _ _ ha16, rol_lt _ _ ha22, rol_lt _ _ ha1, rol_lt _
    _ ha7, rol_lt _ _ ha13, rol_lt _ _ ha19, rol_lt _ _ ha20, rol_lt _ _ ha4, rol_lt _ _ ha5,
    rol_lt _ _ ha11, rol_lt _ _ ha17, rol_lt _ _ ha23, rol_lt _ _ ha2, rol_lt _ _ ha8, rol_lt _
    _ ha14, rol_lt _ _ ha15, rol_lt _ _ ha21⟩

theorem keccakf_rho_pi_injective (a b : List Nat) (ha : IsKeccakState a)
    (hb : IsKeccakState b) (h : iso16.keccakf_rho_pi a = iso16.keccakf_rho_pi b) : a = b := by
  revert h
  apply keccak_state_elim a ha
  intro a0 a1 a2 a3 a4 a5 a6 a7 a8 a9 a10 a11 a12 a13 a14 a15 a16 a17 a18 a19 a20 a21 a22 a23
    a24 hA
  apply keccak_state_elim b hb
  intro b0 b1 b2 b3 b4 b5 b6 b7 b8 b9 b10 b11 b12 b13 b14 b15 b16 b17 b18 b19 b20 b21 b22 b23
    b24 hB h
  simp only [List.forall_mem_cons, List.not_mem_nil, false_imp_iff, implies_true,
    and_true] at hA hB
  obtain ⟨ha0, ha1, ha2, ha3, ha4, ha5, ha6, ha7, ha8, ha9, ha10, ha11, ha12, ha13, ha14, ha15,
    ha16, ha17, ha18, ha19, ha20, ha21, ha22, ha23, ha24⟩ := hA
  obtain ⟨hb0, hb1, hb2, hb3, hb4, hb5, hb6, hb7, hb8, hb9, hb10, hb11, hb12, hb13, hb14, hb15,
    hb16, hb17, hb18, hb19, hb20, hb21, hb22, hb23, hb24⟩ := hB
  rw [keccakf_rho_pi_lanes, keccakf_rho_pi_lanes] at h
  simp only [List.cons.injEq, and_true] at h
  obtain ⟨e0, e1, e2, e3, e4, e5, e6, e7, e8, e9, e10, e11, e12, e13, e14, e15, e16, e17, e18,
    e19, e20, e21, e22, e23, e24⟩ := h
  have r0 : a0 = b0 := e0
  have r6 := rol_injective a6 b6 44 ha6 hb6 (by decide) e1
  have r12 := rol_injective a12 b12 43 ha12 hb12 (by decide) e2
  have r18 := rol_injective a18 b18 21 ha18 hb18 (by decide) e3
  have r24 := rol_injective a24 b24 14 ha24 hb24 (by decide) e4
  have r3 := rol_injective a3 b3 28 ha3 hb3 (by decide) e5
  have r9 := rol_injective a9 b9 20 ha9 hb9 (by decide) e6
  have r10 := rol_injective a10 b10 3 ha10 hb10 (by decide) e7
  have r16 := rol_injective a16 b16 45 ha16 hb16 (by decide) e8
  have r22 := rol_injective a22 b22 61 ha22 hb22 (by decide) e9
  have r1 := rol_injective a1 b1 1 ha1 hb1 (by decide) e10
  have r7 := rol_injective a7 b7 6 ha7 hb7 (by decide) e11
  have r13 := rol_injective a13 b13 25 ha13 hb13 (by decide) e12
  have r19 := rol_injective a19 b19 8 ha19 hb19 (by decide) e13
  have r20 := rol_injective a20 b20 18 ha20 hb20 (by decide) e14
  have r4 := rol_injective a4 b4 27 ha4 hb4 (by decide) e15
  have r5 := rol_injective a5 b5 36 ha5 hb5 (by decide) e16
  have r11 := rol_injective a11 b11 10 ha11 hb11 (by decide) e17
  have r17 := rol_injective a17 b17 15 ha17 hb17 (by decide) e18
  have r23 := rol_injective a23 b23 56 ha23 hb23 (by decide) e19
  have r2 := rol_injective a2 b2 62 ha2 hb2 (by decide) e20
  have r8 := rol_injective a8 b8 55 ha8 hb8 (by decide) e21
  have r14 := rol_injective a14 b14 39 ha14 hb14 (by decide) e22
  have r15 := rol_injective a15 b15 41 ha15 hb15 (by decide) e23
  have r21 := rol_injective a21 b21 2 ha21 hb21 (by decide) e24
  rw [r0, r1, r2, r3, r4, r5, r6, r7, r8, r9, r10, r11, r12, r13, r14, r15, r16, r17, r18, r19,
    r20, r21, r22, r23, r24]

theorem rndc_lt (round : Nat) : iso16.KECCAKF_RNDC.getD round 0 < 18446744073709551616 := by
  by_cases h : round < 24
  · revert round
    decide
  · rw [List.getD_eq_default _ _
      (by simp only [iso16.KECCAKF_RNDC, List.length_cons, List.length_nil]; omega)]
    decide

theorem keccakf_iota_state (a : List Nat) (round : Nat) (ha : IsKeccakState a) :
    IsKeccakState (iso16.keccakf_iota a round) := by
  apply keccak_state_elim a ha
  intro a0 a1 a2 a3 a4 a5 a6 a7 a8 a9 a10 a11 a12 a13 a14 a15 a16 a17 a18 a19 a20 a21 a22 a23
    a24 hA
  simp only [List.forall_mem_cons, List.not_mem_nil, false_imp_iff, implies_true,
    and_true] at hA
  obtain ⟨ha0, ha1, ha2, ha3, ha4, ha5, ha6, ha7, ha8, ha9, ha10, ha11, ha12, ha13, ha14, ha15,
    ha16, ha17, ha18, ha19, ha20, ha21, ha22, ha23, ha24⟩ := hA
  simp only [iso16.keccakf_iota, List.getD_cons_zero, List.set_cons_zero]
  refine ⟨rfl, ?_⟩
  simp only [List.forall_mem_cons, List.not_mem_nil, false_imp_iff, implies_true,
    and_true]
  exact ⟨xor_lt_u64 ha0 (rndc_lt round), ha1, ha2, ha3, ha4, ha5, ha6, ha7, ha8, ha9, ha10,
    ha11, ha12, ha13, ha14, ha15, ha16, ha17, ha18, ha19, ha20, ha21, ha22, ha23, ha24⟩

theorem keccakf_iota_injective (a b : List Nat) (round : Nat) (ha : IsKeccakState a)
    (hb : IsKeccakState b) (h : iso16.keccakf_iota a round = iso16.keccakf_iota b round) :
    a = b := by
  revert h
  apply keccak_state_elim a ha
  intro a0 a1 a2 a3 a4 a5 a6 a7 a8 a9 a10 a11 a12 a13 a14 a15 a16 a17 a18 a19 a20 a21 a22 a23
    a24 _
  apply keccak_state_elim b hb
  intro b0 b1 b2 b3 b4 b5 b6 b7 b8 b9 b10 b11 b12 b13 b14 b15 b16 b17 b18 b19 b20 b21 b22 b23
    b24 _ h
  simp only [iso16.keccakf_iota, List.getD_cons_zero, List.set_cons_zero, List.cons.injEq,
    and_true] at h
  obtain ⟨e0, e1, e2, e3, e4, e5, e6, e7, e8, e9, e10, e11, e12, e13, e14, e15, e16, e17, e18,
    e19, e20, e21, e22, e23, e24⟩ := h
  have r0 := xor_right_cancel_eq e0
  rw [r0, e1, e2, e3, e4, e5, e6, e7, e8, e9, e10, e11, e12, e13, e14, e15, e16, e17, e18, e19,
    e20, e21, e22, e23, e24]

theorem xor_five_common (p0 p1 p2 p3 p4 t : Nat) :
    (p0 ^^^ t) ^^^ (p1 ^^^ t) ^^^ (p2 ^^^ t) ^^^ (p3 ^^^ t) ^^^ (p4 ^^^ t) =
      (p0 ^^^ p1 ^^^ p2 ^^^ p3 ^^^ p4) ^^^ t := by
  apply Nat.eq_of_testBit_eq
  intro i
  simp only [Nat.testBit_xor]
  cases p0.testBit i <;> cases p1.testBit i <;> cases p2.testBit i <;> cases p3.testBit i <;>
    cases p4.testBit i <;> cases t.testBit i <;> rfl

theorem parity_map_theta_eq (c : Fin 5 → Nat) (x : Fin 5) :
    parity_map 4 1 1 c x = c x ^^^ theta_effect c x := by
  simp only [parity_map, theta_effect, Nat.xor_assoc]

theorem theta_effect_lt (c : Fin 5 → Nat) (hc : ∀ x, c x < 18446744073709551616) (x : Fin 5) :
    theta_effect c x < 18446744073709551616 :=
  xor_lt_u64 (hc _) (rol_lt _ _ (hc _))

theorem col_parity_lt (a : List Nat) (ha : IsKeccakState a) :
    ∀ x, col_parity a x < 18446744073709551616 := by
  apply keccak_state_elim a ha
  intro a0 a1 a2 a3 a4 a5 a6 a7 a8 a9 a10 a11 a12 a13 a14 a15 a16 a17 a18 a19 a20 a21 a22 a23
    a24 hA
  simp only [List.forall_mem_cons, List.not_mem_nil, false_imp_iff, implies_true,
    and_true] at hA
  obtain ⟨ha0, ha1, ha2, ha3, ha4, ha5, ha6, ha7, ha8, ha9, ha10, ha11, ha12, ha13, ha14, ha15,
    ha16, ha17, ha18, ha19, ha20, ha21, ha22, ha23, ha24⟩ := hA
  intro x
  fin_cases x
  · exact xor_lt_u64 (xor_lt_u64 (xor_lt_u64 (xor_lt_u64 ha0 ha5) ha10) ha15) ha20
  · exact xor_lt_u64 (xor_lt_u64 (xor_lt_u64 (xor_lt_u64 ha1 ha6) ha11) ha16) ha21
  · exact xor_lt_u64 (xor_lt_u64 (xor_lt_u64 (xor_lt_u64 ha2 ha7) ha12) ha17) ha22
  · exact xor_lt_u64 (xor_lt_u64 (xor_lt_u64 (xor_lt_u64 ha3 ha8) ha13) ha18) ha23
  · exact xor_lt_u64 (xor_lt_u64 (xor_lt_u64 (xor_lt_u64 ha4 ha9) ha14) ha19) ha24

theorem keccakf_theta_state (a : List Nat) (ha : IsKeccakState a) :
    IsKeccakState (iso16.keccakf_theta a) := by
  have hc := col_parity_lt a ha
  revert hc
  apply keccak_state_elim a ha
  intro a0 a1 a2 a3 a4 a5 a6 a7 a8 a9 a10 a11 a12 a13 a14 a15 a16 a17 a18 a19 a20 a21 a22 a23
    a24 hA hc
  simp only [List.forall_mem_cons, List.not_mem_nil, false_imp_iff, implies_true,
    and_true] at hA
  obtain ⟨ha0, ha1, ha2, ha3, ha4, ha5, ha6, ha7, ha8, ha9, ha10, ha11, ha12, ha13, ha14, ha15,
    ha16, ha17, ha18, ha19, ha20, ha21, ha22, ha23, ha24⟩ := hA
  rw [keccakf_theta_lanes _ _ _ _ _ _ _ _ _ _ _ _ _ _ _ _ _ _ _ _ _ _ _ _ _ _ rfl]
  refine ⟨rfl, ?_⟩
  simp only [List.forall_mem_cons, List.not_mem_nil, false_imp_iff, implies_true,
    and_true]
  exact ⟨xor_lt_u64 ha0 (theta_effect_lt _ hc _), xor_lt_u64 ha1 (theta_effect_lt _ hc _),
    xor_lt_u64 ha2 (theta_effect_lt _ hc _), xor_lt_u64 ha3 (theta_effect_lt _ hc _), xor_lt_u64
    ha4 (theta_effect_lt _ hc _), xor_lt_u64 ha5 (theta_effect_lt _ hc _), xor_lt_u64 ha6
    (theta_effect_lt _ hc _), xor_lt_u64 ha7 (theta_effect_lt _ hc _), xor_lt_u64 ha8
    (theta_effect_lt _ hc _), xor_lt_u64 ha9 (theta_effect_lt _ hc _), xor_lt_u64 ha10
    (theta_effect_lt _ hc _), xor_lt_u64 ha11 (theta_effect_lt _ hc _), xor_lt_u64 ha12
    (theta_effect_lt _ hc _), xor_lt_u64 ha13 (theta_effect_lt _ hc _), xor_lt_u64 ha14
    (theta_effect_lt _ hc _), xor_lt_u64 ha15 (theta_effect_lt _ hc _), xor_lt_u64 ha16
    (theta_effect_lt _ hc _), xor_lt_u64 ha17 (theta_effect_lt _ hc _), xor_lt_u64 ha18
    (theta_effect_lt _ hc _), xor_lt_u64 ha19 (theta_effect_lt _ hc _), xor_lt_u64 ha20
    (theta_effect_lt _ hc _), xor_lt_u64 ha21 (theta_effect_lt _ hc _), xor_lt_u64 ha22
    (theta_effect_lt _ hc _), xor_lt_u64 ha23 (theta_effect_lt _ hc _), xor_lt_u64 ha24
    (theta_effect_lt _ hc _)⟩

theorem keccakf_theta_injective (a b : List Nat) (ha : IsKeccakState a) (hb : IsKeccakState b)
    (h : iso16.keccakf_theta a = iso16.keccakf_theta b) : a = b := by
  have hca := col_parity_lt a ha
  have hcb := col_parity_lt b hb
  revert h hca hcb
  apply keccak_state_elim a ha
  intro a0 a1 a2 a3 a4 a5 a6 a7 a8 a9 a10 a11 a12 a13 a14 a15 a16 a17 a18 a19 a20 a21 a22 a23
    a24 _
  apply keccak_state_elim b hb
  intro b0 b1 b2 b3 b4 b5 b6 b7 b8 b9 b10 b11 b12 b13 b14 b15 b16 b17 b18 b19 b20 b21 b22 b23
    b24 _ h hca hcb
  rw [keccakf_theta_lanes _ _ _ _ _ _ _ _ _ _ _ _ _ _ _ _ _ _ _ _ _ _ _ _ _ _ rfl,
    keccakf_theta_lanes _ _ _ _ _ _ _ _ _ _ _ _ _ _ _ _ _ _ _ _ _ _ _ _ _ _ rfl] at h
  simp only [List.cons.injEq, and_true] at h
  obtain ⟨e0, e1, e2, e3, e4, e5, e6, e7, e8, e9, e10, e11, e12, e13, e14, e15, e16, e17, e18,
    e19, e20, e21, e22, e23, e24⟩ := h
  have hpar : parity_map 4 1 1 (col_parity [a0, a1, a2, a3, a4, a5, a6, a7, a8, a9, a10, a11,
    a12, a13, a14, a15, a16, a17, a18, a19, a20, a21, a22, a23, a24]) = parity_map 4 1 1
    (col_parity [b0, b1, b2, b3, b4, b5, b6, b7, b8, b9, b10, b11, b12, b13, b14, b15, b16, b17,
    b18, b19, b20, b21, b22, b23, b24]) := by
    funext x
    rw [parity_map_theta_eq, parity_map_theta_eq]
    fin_cases x
    · have ea : col_parity [a0, a1, a2, a3, a4, a5, a6, a7, a8, a9, a10, a11, a12, a13, a14,
      a15, a16, a17, a18, a19, a20, a21, a22, a23, a24] 0 = a0 ^^^ a5 ^^^ a10 ^^^ a15 ^^^ a20 :=
      rfl
      have eb : col_parity [b0, b1, b2, b3, b4, b5, b6, b7, b8, b9, b10, b11, b12, b13, b14,
        b15, b16, b17, b18, b19, b20, b21, b22, b23, b24] 0 = b0 ^^^ b5 ^^^ b10 ^^^ b15 ^^^ b20
        := rfl
      show col_parity _ 0 ^^^ theta_effect _ 0 = col_parity _ 0 ^^^ theta_effect _ 0
      rw [ea, eb, ← xor_five_common a0 a5 a10 a15 a20,
        ← xor_five_common b0 b5 b10 b15 b20, e0, e5, e10, e15, e20]
    · have ea : col_parity [a0, a1, a2, a3, a4, a5, a6, a7, a8, a9, a10, a11, a12, a13, a14,
      a15, a16, a17, a18, a19, a20, a21, a22, a23, a24] 1 = a1 ^^^ a6 ^^^ a11 ^^^ a16 ^^^ a21 :=
      rfl
      have eb : col_parity [b0, b1, b2, b3, b4, b5, b6, b7, b8, b9, b10, b11, b12, b13, b14,
        b15, b16, b17, b18, b19, b20, b21, b22, b23, b24] 1 = b1 ^^^ b6 ^^^ b11 ^^^ b16 ^^^ b21
        := rfl
      show col_parity _ 1 ^^^ theta_effect _ 1 = col_parity _ 1 ^^^ theta_effect _ 1
      rw [ea, eb, ← xor_five_common a1 a6 a11 a16 a21,
        ← xor_five_common b1 b6 b11 b16 b21, e1, e6, e11, e16, e21]
    · have ea : col_parity [a0, a1, a2, a3, a4, a5, a6, a7, a8, a9, a10, a11, a12, a13, a14,
      a15, a16, a17, a18, a19, a20, a21, a22, a23, a24] 2 = a2 ^^^ a7 ^^^ a12 ^^^ a17 ^^^ a22 :=
      rfl
      have eb : col_parity [b0, b1, b2, b3, b4, b5, b6, b7, b8, b9, b10, b11, b12, b13, b14,
        b15, b16, b17, b18, b19, b20, b21, b22, b23, b24] 2 = b2 ^^^ b7 ^^^ b12 ^^^ b17 ^^^ b22
        := rfl
      show col_parity _ 2 ^^^ theta_effect _ 2 = col_parity _ 2 ^^^ theta_effect _ 2
      rw [ea, eb, ← xor_five_common a2 a7 a12 a17 a22,
        ← xor_five_common b2 b7 b12 b17 b22, e2, e7, e12, e17, e22]
    · have ea : col_parity [a0, a1, a2, a3, a4, a5, a6, a7, a8, a9, a10, a11, a12, a13, a14,
      a15, a16, a17, a18, a19, a20, a21, a22, a23, a24] 3 = a3 ^^^ a8 ^^^ a13 ^^^ a18 ^^^ a23 :=
      rfl
      have eb : col_parity [b0, b1, b2, b3, b4, b5, b6, b7, b8, b9, b10, b11, b12, b13, b14,
        b15, b16, b17, b18, b19, b20, b21, b22, b23, b24] 3 = b3 ^^^ b8 ^^^ b13 ^^^ b18 ^^^ b23
        := rfl
      show col_parity _ 3 ^^^ theta_effect _ 3 = col_parity _ 3 ^^^ theta_effect _ 3
      rw [ea, eb, ← xor_five_common a3 a8 a13 a18 a23,
        ← xor_five_common b3 b8 b13 b18 b23, e3, e8, e13, e18, e23]
    · have ea : col_parity [a0, a1, a2, a3, a4, a5, a6, a7, a8, a9, a10, a11, a12, a13, a14,
      a15, a16, a17, a18, a19, a20, a21, a22, a23, a24] 4 = a4 ^^^ a9 ^^^ a14 ^^^ a19 ^^^ a24 :=
      rfl
      have eb : col_parity [b0, b1, b2, b3, b4, b5, b6, b7, b8, b9, b10, b11, b12, b13, b14,
        b15, b16, b17, b18, b19, b20, b21, b22, b23, b24] 4 = b4 ^^^ b9 ^^^ b14 ^^^ b19 ^^^ b24
        := rfl
      show col_parity _ 4 ^^^ theta_effect _ 4 = col_parity _ 4 ^^^ theta_effect _ 4
      rw [ea, eb, ← xor_five_common a4 a9 a14 a19 a24,
        ← xor_five_common b4 b9 b14 b19 b24, e4, e9, e14, e19, e24]
  have hcol := parity_map_theta_injective _ _ hca hcb hpar
  rw [hcol] at e0
  have r0 := xor_right_cancel_eq e0
  rw [hcol] at e1
  have r1 := xor_right_cancel_eq e1
  rw [hcol] at e2
  have r2 := xor_right_cancel_eq e2
  rw [hcol] at e3
  have r3 := xor_right_cancel_eq e3
  rw [hcol] at e4
  have r4 := xor_right_cancel_eq e4
  rw [hcol] at e5
  have r5 := xor_right_cancel_eq e5
  rw [hcol] at e6
  have r6 := xor_right_cancel_eq e6
  rw [hcol] at e7
  have r7 := xor_right_cancel_eq e7
  rw [hcol] at e8
  have r8 := xor_right_cancel_eq e8
  rw [hcol] at e9
  have r9 := xor_right_cancel_eq e9
  rw [hcol] at e10
  have r10 := xor_right_cancel_eq e10
  rw [hcol] at e11
  have r11 := xor_right_cancel_eq e11
  rw [hcol] at e12
  have r12 := xor_right_cancel_eq e12
  rw [hcol] at e13
  have r13 := xor_right_cancel_eq e13
  rw [hcol] at e14
  have r14 := xor_right_cancel_eq e14
  rw [hcol] at e15
  have r15 := xor_right_cancel_eq e15
  rw [hcol] at e16
  have r16 := xor_right_cancel_eq e16
  rw [hcol] at e17
  have r17 := xor_right_cancel_eq e17
  rw [hcol] at e18
  have r18 := xor_right_cancel_eq e18
  rw [hcol] at e19
  have r19 := xor_right_cancel_eq e19
  rw [hcol] at e20
  have r20 := xor_right_cancel_eq e20
  rw [hcol] at e21
  have r21 := xor_right_cancel_eq e21
  rw [hcol] at e22
  have r22 := xor_right_cancel_eq e22
  rw [hcol] at e23
  have r23 := xor_right_cancel_eq e23
  rw [hcol] at e24
  have r24 := xor_right_cancel_eq e24
  rw [r0, r1, r2, r3, r4, r5, r6, r7, r8, r9, r10, r11, r12, r13, r14, r15, r16, r17, r18, r19,
    r20, r21, r22, r23, r24]

/-! ## `keccakf` is a bijection on Keccak states -/

theorem keccakf_round_state (a : List Nat) (round : Nat) (ha : IsKeccakState a) :
    IsKeccakState (iso16.keccakf_round a round) :=
  keccakf_iota_state _ round
    (keccakf_chi_state _ (keccakf_rho_pi_state _ (keccakf_theta_state a ha)))

theorem keccakf_round_injective (a b : List Nat) (round : Nat) (ha : IsKeccakState a)
    (hb : IsKeccakState b) (h : iso16.keccakf_round a round = iso16.keccakf_round b round) :
    a = b := by
  have ta := keccakf_theta_state a ha
  have tb := keccakf_theta_state b hb
  have ra := keccakf_rho_pi_state _ ta
  have rb := keccakf_rho_pi_state _ tb
  have ca := keccakf_chi_state _ ra
  have cb := keccakf_chi_state _ rb
  exact keccakf_theta_injective a b ha hb
    (keccakf_rho_pi_injective _ _ ta tb
      (keccakf_chi_injective _ _ ra rb (keccakf_iota_injective _ _ round ca cb h)))

theorem foldl_round_state (rounds : List Nat) (a : List Nat) (ha : IsKeccakState a) :
    IsKeccakState (rounds.foldl iso16.keccakf_round a) := by
  induction rounds generalizing a with
  | nil => exact ha
  | cons r rs ih =>
    rw [List.foldl_cons]
    exact ih _ (keccakf_round_state a r ha)

theorem foldl_round_injective (rounds : List Nat) (a b : List Nat) (ha : IsKeccakState a)
    (hb : IsKeccakState b)
    (h : rounds.foldl iso16.keccakf_round a = rounds.foldl iso16.keccakf_round b) : a = b := by
  induction rounds generalizing a b with
  | nil => exact h
  | cons r rs ih =>
    rw [List.foldl_cons, List.foldl_cons] at h
    exact keccakf_round_injective a b r ha hb
      (ih _ _ (keccakf_round_state a r ha) (keccakf_round_state b r hb) h)

theorem keccakf_state (a : List Nat) (ha : IsKeccakState a) :
    IsKeccakState (iso16.keccakf a) := by
  unfold iso16.keccakf
  exact foldl_round_state (List.range 24) a ha

theorem keccakf_injective_on_states (a b : List Nat) (ha : IsKeccakState a)
    (hb : IsKeccakState b) (h : iso16.keccakf a = iso16.keccakf b) : a = b := by
  unfold iso16.keccakf at h
  exact foldl_round_injective (List.range 24) a b ha hb h

theorem keccak_state_ext (a b : List Nat) (ha : IsKeccakState a) (hb : IsKeccakState b)
    (h : ∀ i : Fin 25, a.getD i.val 0 = b.getD i.val 0) : a = b := by
  apply List.ext_getElem (ha.1.trans hb.1.symm)
  intro i h1 h2
  have hi : i < 25 := by rw [← ha.1]; exact h1
  have := h ⟨i, hi⟩
  rwa [List.getD_eq_getElem _ _ h1, List.getD_eq_getElem _ _ h2] at this

theorem keccak_states_finite : Finite { st : List Nat // IsKeccakState st } := by
  let f : { st : List Nat // IsKeccakState st } → (Fin 25 → Fin 18446744073709551616) :=
    fun s i => ⟨s.val.getD i.val 0, s.property.2 _ (by
      rw [List.getD_eq_getElem _ _ (by rw [s.property.1]; exact i.isLt)]
      exact List.getElem_mem _)⟩
  apply Finite.of_injective f
  intro s t hst
  apply Subtype.ext
  apply keccak_state_ext _ _ s.property t.property
  intro i
  have := congrFun hst i
  exact congrArg Fin.val this

/-- C26: `keccakf` is a bijection on the set of 25-lane 64-bit states: it maps states to
states, two states with the same image are equal, and every state is the image of a state.
Each of the 24 rounds of theta, rho and pi, chi and iota is injective. -/
theorem keccakf_bijective (a b : List Nat) (ha : IsKeccakState a) (hb : IsKeccakState b) :
    IsKeccakState (iso16.keccakf a) ∧
    (iso16.keccakf a = iso16.keccakf b → a = b) ∧
    (∃ c, IsKeccakState c ∧ iso16.keccakf c = a) ∧
    (∀ round, iso16.keccakf_round a round = iso16.keccakf_round b round → a = b) := by
  refine ⟨keccakf_state a ha, keccakf_injective_on_states a b ha hb, ?_,
    fun round => keccakf_round_injective a b round ha hb⟩
  haveI := keccak_states_finite
  let g : { st : List Nat // IsKeccakState st } → { st : List Nat // IsKeccakState st } :=
    fun s => ⟨iso16.keccakf s.val, keccakf_state s.val s.property⟩
  have ginj : Function.Injective g := by
    intro s t hst
    have hv : iso16.keccakf s.val = iso16.keccakf t.val := by
      simpa only [g, Subtype.mk.injEq] using hst
    exact Subtype.ext (keccakf_injective_on_states s.val t.val s.property t.property hv)
  obtain ⟨c, hc⟩ := Finite.surjective_of_injective ginj ⟨a, ha⟩
  have hv : iso16.keccakf c.val = a := by
    simpa only [g, Subtype.mk.injEq] using hc
  exact ⟨c.val, c.property, hv⟩

theorem keccakf_bijective_witness :
    IsKeccakState (List.replicate 25 0) ∧
    IsKeccakState (iso16.keccakf (List.replicate 25 0)) ∧
    (iso16.keccakf (List.replicate 25 0) = iso16.keccakf (List.replicate 25 0) →
      List.replicate 25 0 = List.replicate 25 0) ∧
    (∃ c, IsKeccakState c ∧ iso16.keccakf c = List.replicate 25 0) :=
  have hz : IsKeccakState (List.replicate 25 0) := by decide
  have h := keccakf_bijective (List.replicate 25 0) (List.replicate 25 0) hz hz
  ⟨hz, h.1, h.2.1, h.2.2.1⟩

/-! ## The tables of `keccakf` -/

/-- C27: every step of `keccakf` is well defined.  The rotation amounts passed to `rol` (the
constant 1 of theta and the 24 entries of `KECCAKF_ROTC`) lie in `1 .. 63`, so that both
shifts of `rol` are by less than 64; the three tables have 24 entries; `KECCAKF_PILN` is a
permutation of the lane indices `1 .. 24`, so that every state index is below 25 and, in the
rho and pi step, lane 0 is never written and every other lane is written exactly once, with
one rotated lane; the lane and row indices of theta and chi are within bounds. -/
theorem keccakf_well_defined :
    (∀ r ∈ 1 :: iso16.KECCAKF_ROTC, 1 ≤ r ∧ r ≤ 63 ∧ r < 64 ∧ 64 - r < 64) ∧
    iso16.KECCAKF_ROTC.length = 24 ∧ iso16.KECCAKF_PILN.length = 24 ∧
    iso16.KECCAKF_RNDC.length = 24 ∧
    List.Perm iso16.KECCAKF_PILN (List.range' 1 24) ∧
    (∀ j ∈ iso16.KECCAKF_PILN, 1 ≤ j ∧ j ≤ 24) ∧
    iso16.KECCAKF_PILN.count 0 = 0 ∧
    (∀ j, 1 ≤ j → j ≤ 24 → iso16.KECCAKF_PILN.count j = 1) ∧
    (∀ i, i < 5 → i + 20 < 25 ∧ (i + 4) % 5 < 5 ∧ (i + 1) % 5 < 5 ∧ (i + 2) % 5 < 5) ∧
    (∀ j ∈ [0, 5, 10, 15, 20], ∀ i, i < 5 → j + i < 25) ∧
    (∀ k ∈ iso16.KECCAKF_RNDC, k < 18446744073709551616) ∧
    (∀ a0 a1 a2 a3 a4 a5 a6 a7 a8 a9 a10 a11 a12 a13 a14 a15 a16 a17 a18 a19 a20 a21 a22 a23
        a24 : Nat,
      iso16.keccakf_rho_pi [a0, a1, a2, a3, a4, a5, a6, a7, a8, a9, a10, a11, a12, a13, a14,
        a15, a16, a17, a18, a19, a20, a21, a22, a23, a24] =
      [a0, iso16.rol a6 44, iso16.rol a12 43, iso16.rol a18 21, iso16.rol a24 14,
       iso16.rol a3 28, iso16.rol a9 20, iso16.rol a10 3, iso16.rol a16 45, iso16.rol a22 61,
       iso16.rol a1 1, iso16.rol a7 6, iso16.rol a13 25, iso16.rol a19 8, iso16.rol a20 18,
       iso16.rol a4 27, iso16.rol a5 36, iso16.rol a11 10, iso16.rol a17 15, iso16.rol a23 56,
       iso16.rol a2 62, iso16.rol a8 55, iso16.rol a14 39, iso16.rol a15 41,
       iso16.rol a21 2]) := by
  refine ⟨by decide, by decide, by decide, by decide, ?_, by decide, by decide, by decide,
    by decide, by decide, by decide, keccakf_rho_pi_lanes⟩
  decide

theorem keccakf_well_defined_witness :
    (1 ≤ 44 ∧ 44 ≤ 63 ∧ 44 < 64 ∧ 64 - 44 < 64) ∧ iso16.KECCAKF_PILN.count 7 = 1 ∧
    (1 ≤ 10 ∧ 10 ≤ 24) :=
  ⟨keccakf_well_defined.1 44 (by decide),
   keccakf_well_defined.2.2.2.2.2.2.2.1 7 (by decide) (by decide),
   keccakf_well_defined.2.2.2.2.2.1 10 (by decide)⟩

/-! ## The encoding follows the order of the plugin list -/

theorem perm_eq_of_map_eq {α β : Type} (f : α → β) (l1 l2 : List α) (hperm : List.Perm l1 l2)
    (hnodup : (l1.map f).Nodup) (hmap : l1.map f = l2.map f) : l1 = l2 := by
  induction l1 generalizing l2 with
  | nil => exact (List.Perm.nil_eq hperm)
  | cons a l1 ih =>
    cases l2 with
    | nil => exact absurd hperm.length_eq (by simp)
    | cons b l2 =>
      simp only [List.map_cons, List.cons.injEq] at hmap
      obtain ⟨hab, htl⟩ := hmap
      rw [List.map_cons, List.nodup_cons] at hnodup
      have ha : a ∈ b :: l2 := hperm.subset (List.mem_cons_self _ _)
      have hab2 : a = b := by
        rcases List.mem_cons.mp ha with h | h
        · exact h
        · exfalso
          apply hnodup.1
          rw [htl]
          exact List.mem_map_of_mem f h
      subst hab2
      rw [ih l2 (List.Perm.cons_inv hperm) hnodup.2 htl]

theorem forall2_same_encoded_ids (ps qs : List iso16.Plugin)
    (h : List.Forall₂ same_encoded_fields ps qs) :
    ps.map iso16.Plugin.id = qs.map iso16.Plugin.id := by
  induction h with
  | nil => rfl
  | cons hpq _ ih => rw [List.map_cons, List.map_cons, hpq.1, ih]

/-- C11 (amended): `canonical_serialize` encodes the plugin records in the order of the list it
receives and does not sort.  For a plugin list with pairwise distinct identifiers (strings of
at most 255 bytes, 32-bit values) and any permutation of it, all other arguments being equal,
the result on the list is the byte sequence with the records in list order, and
`canonical_serialize` returns the same result on the permutation if and only if the
permutation is the list itself; in particular it does when both are sorted by identifier. -/
theorem canonical_serialize_perm_iff
    (initial_phase_state : List iso16.Array3) (ps qs : List iso16.Plugin)
    (warp_total : iso16.Array3) (error_total : Int) (phase_state_warped : List iso16.Array3)
    (symmetry_ok error_ok true_delivery : Bool) (implementation_id : CppString)
    (timestamp : Nat) (nonce : List Nat)
    (hperm : List.Perm ps qs)
    (hstr : ∀ p ∈ ps, p.id.length ≤ 255 ∧ p.version.length ≤ 255)
    (hrange : ∀ p ∈ ps, PluginInRange p)
    (hids : (ps.map iso16.Plugin.id).Nodup) :
    iso16.canonical_serialize initial_phase_state ps warp_total error_total
        phase_state_warped symmetry_ok error_ok true_delivery implementation_id timestamp nonce =
      Except.ok (spec_canonical_bytes initial_phase_state ps warp_total error_total
        phase_state_warped symmetry_ok error_ok true_delivery implementation_id timestamp
        nonce) ∧
    (iso16.canonical_serialize initial_phase_state ps warp_total error_total
        phase_state_warped symmetry_ok error_ok true_delivery implementation_id timestamp nonce =
      iso16.canonical_serialize initial_phase_state qs warp_total error_total
        phase_state_warped symmetry_ok error_ok true_delivery implementation_id timestamp
        nonce ↔ ps = qs) ∧
    (List.Pairwise plugin_id_lt ps → List.Pairwise plugin_id_lt qs →
      iso16.canonical_serialize initial_phase_state ps warp_total error_total
        phase_state_warped symmetry_ok error_ok true_delivery implementation_id timestamp nonce =
      iso16.canonical_serialize initial_phase_state qs warp_total error_total
        phase_state_warped symmetry_ok error_ok true_delivery implementation_id timestamp
        nonce) := by
  have hstrq : ∀ p ∈ qs, p.id.length ≤ 255 ∧ p.version.length ≤ 255 :=
    fun p hp => hstr p (hperm.mem_iff.mpr hp)
  have hrangeq : ∀ p ∈ qs, PluginInRange p := fun p hp => hrange p (hperm.mem_iff.mpr hp)
  have e1 := canonical_serialize_ok initial_phase_state ps warp_total error_total
    phase_state_warped symmetry_ok error_ok true_delivery implementation_id timestamp nonce hstr
  have e2 := canonical_serialize_ok initial_phase_state qs warp_total error_total
    phase_state_warped symmetry_ok error_ok true_delivery implementation_id timestamp nonce hstrq
  refine ⟨e1, ⟨fun h => ?_, fun h => by rw [h]⟩, fun hps hqs => ?_⟩
  · rw [e1, e2] at h
    have hb := Except.ok.inj h
    simp only [spec_canonical_bytes, List.append_assoc, List.cons_append, List.nil_append] at hb
    have hb2 := List.append_cancel_left hb
    obtain ⟨hall, _⟩ := plugins_bytes_append_inj ps qs _ _ (Or.inr rfl) hrange hrangeq hb2
    exact perm_eq_of_map_eq iso16.Plugin.id ps qs hperm hids (forall2_same_encoded_ids ps qs hall)
  · rw [sorted_perm_plugins_eq ps qs hperm hps hqs]

theorem canonical_serialize_perm_iff_witness :
    List.Perm [seal_plugin_alpha, seal_plugin_zeta] [seal_plugin_zeta, seal_plugin_alpha] ∧
    ([seal_plugin_alpha, seal_plugin_zeta].map iso16.Plugin.id).Nodup ∧
    [seal_plugin_alpha, seal_plugin_zeta] ≠ [seal_plugin_zeta, seal_plugin_alpha] ∧
    iso16.canonical_serialize sample_seal_phases [seal_plugin_alpha, seal_plugin_zeta] (1, 2, 3)
        4 sample_seal_phases true false false (ascii "impl") 1700000000 (List.range 16) ≠
      iso16.canonical_serialize sample_seal_phases [seal_plugin_zeta, seal_plugin_alpha]
        (1, 2, 3) 4 sample_seal_phases true false false (ascii "impl") 1700000000
        (List.range 16) :=
  have hperm : List.Perm [seal_plugin_alpha, seal_plugin_zeta]
      [seal_plugin_zeta, seal_plugin_alpha] := List.Perm.swap _ _ _
  have hids : ([seal_plugin_alpha, seal_plugin_zeta].map iso16.Plugin.id).Nodup := by decide
  have hne : [seal_plugin_alpha, seal_plugin_zeta] ≠ [seal_plugin_zeta, seal_plugin_alpha] := by
    decide
  ⟨hperm, hids, hne, fun h =>
    hne ((canonical_serialize_perm_iff sample_seal_phases [seal_plugin_alpha, seal_plugin_zeta]
      [seal_plugin_zeta, seal_plugin_alpha] (1, 2, 3) 4 sample_seal_phases true false false
      (ascii "impl") 1700000000 (List.range 16) hperm (by decide) (by decide) hids).2.1.mp h)⟩
